import Mathlib

/-!
# Boro-tech website: particle pools, schedulers, lifecycle flag and monitor

A shallow embedding of the pool core of `src/script.js` (class `BoroTechWebsite`).

* A DOM element handed out by `document.createElement` is a `Token` (a natural number,
  allocated from a counter, so that reference equality is equality of numbers).
* A JavaScript `Set` is the list of its members in insertion order.
* The host's timer queue (`setTimeout`) and interval table (`setInterval`) are part of the
  state: a pending timeout is a `Timer`, and firing it removes it from the queue and runs
  the closure it stands for.
* `Math.random()` results are arguments, `Date.now()` is the field `now`. A double is the
  rational number it stands for, and the arithmetic on the draws rounds every result to the
  nearest double (`roundDouble`), as the JavaScript operators do.
* Every method body of the source sits in `try { ... } catch`, so no method propagates an
  exception; the one place where the body can really throw on the modelled state
  (`monitorMemory` after `memoryMonitor` became `null`) is modelled by its `catch` path.
* For the scroll highlighting, `window.pageYOffset` is the argument `scrollY` of
  `updateActiveNavigation`, and the class list of a link is reduced to the flag `active`.
-/

set_option autoImplicit false

namespace BoroTech

/-- A DOM element, identified by the order of its creation. -/
abbrev Token := Nat

/-- The two values of `style.display` the pool code assigns. -/
inductive Display where
  | none
  | block
  deriving DecidableEq, Repr

/-- The element a particle is a child of (`particle.parentNode`). -/
inductive Parent where
  | particleContainer
  | navContainer
  deriving DecidableEq, Repr

/-- The inline style of a particle, as far as the pool code writes it. `transition` is the
duration in seconds of the opacity transition (`none` for the empty string). -/
structure Style where
  display : Display
  opacity : Option ℚ
  transition : Option ℚ
  width : Option ℚ
  left : Option ℚ
  top : Option ℚ
  animationDuration : Option ℚ
  backgroundAlpha : Option ℚ
  deriving DecidableEq

/-- The five `Math.random()` results consumed by one `activateParticle`, in call order. -/
structure ParticleDraws where
  size : ℚ
  x : ℚ
  y : ℚ
  duration : ℚ
  opacity : ℚ

/-- The three `Math.random()` results consumed by one `activateNavParticle`, in call order. -/
structure NavDraws where
  duration : ℚ
  x : ℚ
  y : ℚ

/-- The closures of the pool core that the instance passes to `setTimeout`. The timeouts of
the tooltip, of the scroll handler, of the throttle helper and of the error notice touch
nothing of the modelled state and are left out. -/
inductive Callback where
  /-- the outer closure of `activateParticle` (fade out, then schedule the recycle) -/
  | particleFade (particle : Token)
  /-- the inner closure of `activateParticle` (hide and return to the pool) -/
  | particleRecycle (particle : Token)
  /-- the outer closure of `activateNavParticle` -/
  | navParticleFade (particle : Token)
  /-- the inner closure of `activateNavParticle` -/
  | navParticleRecycle (particle : Token)
  /-- `() => this.monitorMemory()` -/
  | monitorMemory
  /-- `() => this.monitorPerformance()` -/
  | monitorPerformance
  deriving DecidableEq

/-- A pending timeout: handle, delay in milliseconds, closure. -/
structure Timer where
  id : Nat
  delay : ℚ
  callback : Callback
  deriving DecidableEq

/-- The closures the instance passes to `setInterval`. -/
inductive IntervalCallback where
  | activateParticles
  | activateNavParticles
  deriving DecidableEq

/-- A running interval: handle, period in milliseconds, closure. -/
structure Interval where
  id : Nat
  delay : ℚ
  callback : IntervalCallback
  deriving DecidableEq

/-- The object `this.memoryMonitor`. -/
structure MemoryMonitor where
  lastCheck : ℤ
  particleCount : Nat
  navParticleCount : Nat
  deriving DecidableEq

/-- A `section[id]` element: its id and `offsetTop`. -/
structure Section where
  id : String
  offsetTop : ℤ
  deriving DecidableEq

/-- A `.nav-link` element: its `data-section` attribute and whether its class list
contains `active`. -/
structure NavLink where
  dataSection : Option String
  active : Bool
  deriving DecidableEq

/-- The part of `this.domCache` the modelled methods read. -/
structure DomCache where
  navLinks : List NavLink
  sections : List Section
  navContainer : Bool
  heroSection : Bool
  deriving DecidableEq

/-- What the page offers when the instance is constructed. -/
structure Document where
  heroSection : Bool
  navContainer : Bool
  navLinks : List NavLink
  sections : List Section

/-- The instance fields of `BoroTechWebsite` together with the host state they act on. -/
structure State where
  -- instance fields
  particles : List Token
  navParticles : List Token
  particleTimers : List Nat
  navParticleTimers : List Nat
  particlePool : List Token
  activeParticles : List Token
  navParticlePool : List Token
  activeNavParticles : List Token
  particleInterval : Option Nat
  navParticleInterval : Option Nat
  isDestroyed : Bool
  domCache : Option DomCache
  memoryMonitor : Option MemoryMonitor
  maxParticles : Option Nat
  maxNavParticles : Option Nat
  /-- `this.particleContainer`: `none` while undefined, else whether it still has a parent -/
  particleContainer : Option Bool
  -- host state
  timers : List Timer
  intervals : List Interval
  nextHandle : Nat
  nextToken : Nat
  style : Token → Style
  parentNode : Token → Option Parent
  now : ℤ

/-! ## Host primitives -/

/-- Pointwise update of a per-token table. -/
def setAt {α : Type} (f : Token → α) (t : Token) (a : α) : Token → α :=
  fun x => if x = t then a else f x

/-- `Set.prototype.add`. -/
def setAdd (t : Token) (l : List Token) : List Token :=
  if t ∈ l then l else l ++ [t]

/-- `Set.prototype.delete`. -/
def setDelete (t : Token) (l : List Token) : List Token :=
  l.filter (fun x => x != t)

/-- `setTimeout(cb, delay)`; the returned handle is dropped by every caller. -/
def setTimeout (cb : Callback) (delay : ℚ) (s : State) : State :=
  { s with timers := s.timers ++ [⟨s.nextHandle, delay, cb⟩], nextHandle := s.nextHandle + 1 }

/-- `clearTimeout(handle)`. -/
def clearTimeout (h : Nat) (s : State) : State :=
  { s with timers := s.timers.filter (fun t => t.id != h) }

/-- `clearInterval(handle)`. -/
def clearInterval (h : Nat) (s : State) : State :=
  { s with intervals := s.intervals.filter (fun t => t.id != h) }

/-- The style of an element right after `createElement` and `style.display = 'none'`. -/
def hiddenStyle : Style :=
  { display := Display.none, opacity := none, transition := none, width := none,
    left := none, top := none, animationDuration := none, backgroundAlpha := none }

/-! ## Double arithmetic

JavaScript numbers are IEEE 754 doubles, and every arithmetic operation rounds its exact
result to the nearest double, ties to the one with an even significand. -/

/-- Round to the nearest integer, ties to the even one. -/
def roundHalfEven (y : ℚ) : ℤ :=
  let f := ⌊y⌋
  if y - f < 1 / 2 then f
  else if 1 / 2 < y - f then f + 1
  else if f % 2 = 0 then f else f + 1

/-- The exponent of the spacing of the doubles around `x`: 52 binary digits below the leading
digit of `x`, and -1074 in the subnormal range. -/
def ulpExponent (x : ℚ) : ℤ :=
  max (Int.log 2 |x| - 52) (-1074)

/-- The double nearest to `x`, ties to even; for `x` below the overflow threshold `2 ^ 1024`
in absolute value (the numbers of the particle code stay below 23001). -/
def roundDouble (x : ℚ) : ℚ :=
  (roundHalfEven (x / 2 ^ ulpExponent x) : ℚ) * 2 ^ ulpExponent x

/-! ## Navigation particles (lines 302-426) -/

/-- `createNavParticlePool(container)`. -/
def createNavParticlePool (s : State) : State :=
  let particle := s.nextToken
  { s with
    nextToken := s.nextToken + 1
    style := setAt s.style particle hiddenStyle
    navParticlePool := s.navParticlePool ++ [particle]
    parentNode := setAt s.parentNode particle (some Parent.navContainer) }

/-- `activateNavParticle()`. -/
def activateNavParticle (d : NavDraws) (s : State) : State :=
  if s.isDestroyed || s.navParticlePool.length == 0 then s
  else
    match s.navParticlePool.getLast? with
    | none => s
    | some particle =>
      let duration := roundDouble (3 + roundDouble (d.duration * 4))
      let x := roundDouble (d.x * 100)
      let y := roundDouble (d.y * 100)
      let css : Style :=
        { display := Display.block, opacity := some 0, transition := none, width := some 2,
          left := some x, top := some y, animationDuration := some duration,
          backgroundAlpha := none }
      let faded : Style := { css with transition := some (3 / 10), opacity := some (6 / 10) }
      setTimeout (Callback.navParticleFade particle) (roundDouble (duration * 1000))
        { s with
          navParticlePool := s.navParticlePool.dropLast
          style := setAt s.style particle faded
          activeNavParticles := setAdd particle s.activeNavParticles }

/-- The outer closure of `activateNavParticle` (lines 376-395). -/
def navParticleFade (particle : Token) (s : State) : State :=
  if s.isDestroyed || !(decide (particle ∈ s.activeNavParticles)) then s
  else
    setTimeout (Callback.navParticleRecycle particle) 300
      { s with
        style := setAt s.style particle
          { s.style particle with transition := some (3 / 10), opacity := some 0 } }

/-- The inner closure of `activateNavParticle` (lines 383-390). -/
def navParticleRecycle (particle : Token) (s : State) : State :=
  if s.isDestroyed then s
  else
    { s with
      style := setAt s.style particle
        { s.style particle with display := Display.none, transition := none }
      activeNavParticles := setDelete particle s.activeNavParticles
      navParticlePool := s.navParticlePool ++ [particle] }

/-- The closure `activateNavParticles` of `startNavParticleAnimation`: one scheduler tick.
The `i`-th call of the loop uses the draws `ds i`. -/
def activateNavParticles (ds : Nat → NavDraws) (s : State) : State :=
  if s.isDestroyed then s
  else
    let particlesToActivate := min 2 s.navParticlePool.length
    (List.range particlesToActivate).foldl (fun st i => activateNavParticle (ds i) st) s

/-- `startNavParticleAnimation()`. -/
def startNavParticleAnimation (ds : Nat → NavDraws) (s : State) : State :=
  if s.isDestroyed then s
  else
    let s1 := activateNavParticles ds s
    { s1 with
      intervals := s1.intervals ++ [⟨s1.nextHandle, 3000, IntervalCallback.activateNavParticles⟩]
      nextHandle := s1.nextHandle + 1
      navParticleInterval := some s1.nextHandle }

/-- The part of `createNavigationParticles()` before `startNavParticleAnimation()`:
the pool fields are reset and `maxNavParticles` elements are created. -/
def createNavigationParticlesPool (s : State) : State :=
  let s1 := { s with navParticlePool := [], activeNavParticles := [], maxNavParticles := some 8 }
  Nat.iterate createNavParticlePool 8 s1

/-- `createNavigationParticles()`. -/
def createNavigationParticles (doc : Document) (ds : Nat → NavDraws) (s : State) : State :=
  if !doc.navContainer then s
  else startNavParticleAnimation ds (createNavigationParticlesPool s)

/-! ## Foreground particles (lines 529-680) -/

/-- `createParticlePool(container)`; `container` tells whether the argument is defined. -/
def createParticlePool (container : Bool) (s : State) : State :=
  if !container then s
  else
    let particle := s.nextToken
    { s with
      nextToken := s.nextToken + 1
      style := setAt s.style particle hiddenStyle
      particlePool := s.particlePool ++ [particle]
      parentNode := setAt s.parentNode particle (some Parent.particleContainer) }

/-- `activateParticle()`. -/
def activateParticle (d : ParticleDraws) (s : State) : State :=
  if s.isDestroyed || s.particlePool.length == 0 then s
  else
    match s.particlePool.getLast? with
    | none => s
    | some particle =>
      let size := roundDouble (roundDouble (d.size * 4) + 2)
      let x := roundDouble (d.x * 100)
      let y := roundDouble (d.y * 100)
      let duration := roundDouble (roundDouble (d.duration * 15) + 8)
      let opacity := roundDouble (roundDouble (d.opacity * (1 / 2)) + roundDouble (2 / 10))
      let css : Style :=
        { display := Display.block, opacity := some 0, transition := none, width := some size,
          left := some x, top := some y, animationDuration := some duration,
          backgroundAlpha := some opacity }
      let faded : Style := { css with transition := some (1 / 2), opacity := some 1 }
      setTimeout (Callback.particleFade particle) (roundDouble (duration * 1000))
        { s with
          particlePool := s.particlePool.dropLast
          style := setAt s.style particle faded
          activeParticles := setAdd particle s.activeParticles }

/-- The outer closure of `activateParticle` (lines 627-648). -/
def particleFade (particle : Token) (s : State) : State :=
  if s.isDestroyed || !(decide (particle ∈ s.activeParticles)) then s
  else
    setTimeout (Callback.particleRecycle particle) 500
      { s with
        style := setAt s.style particle
          { s.style particle with transition := some (1 / 2), opacity := some 0 } }

/-- The inner closure of `activateParticle` (lines 635-643). -/
def particleRecycle (particle : Token) (s : State) : State :=
  if s.isDestroyed then s
  else
    { s with
      style := setAt s.style particle
        { s.style particle with display := Display.none, transition := none }
      activeParticles := setDelete particle s.activeParticles
      particlePool := s.particlePool ++ [particle] }

/-- The closure `activateParticles` of `startParticleAnimation`: one scheduler tick.
The `i`-th call of the loop uses the draws `ds i`. -/
def activateParticles (ds : Nat → ParticleDraws) (s : State) : State :=
  if s.isDestroyed then s
  else
    let particlesToActivate := min 3 s.particlePool.length
    (List.range particlesToActivate).foldl (fun st i => activateParticle (ds i) st) s

/-- `startParticleAnimation()`. -/
def startParticleAnimation (ds : Nat → ParticleDraws) (s : State) : State :=
  if s.isDestroyed then s
  else
    let s1 := activateParticles ds s
    { s1 with
      intervals := s1.intervals ++ [⟨s1.nextHandle, 2000, IntervalCallback.activateParticles⟩]
      nextHandle := s1.nextHandle + 1
      particleInterval := some s1.nextHandle }

/-- The part of `initParticleSystem()` before `startParticleAnimation()`: the container is
created and attached, the pool fields are reset and `maxParticles` elements are created. -/
def initParticleSystemPool (s : State) : State :=
  let s1 := { s with particleContainer := some true }
  let s2 := { s1 with particlePool := [], activeParticles := [], maxParticles := some 15 }
  Nat.iterate (createParticlePool true) 15 s2

/-- `initParticleSystem()`. -/
def initParticleSystem (doc : Document) (ds : Nat → ParticleDraws) (s : State) : State :=
  if !doc.heroSection then s
  else startParticleAnimation ds (initParticleSystemPool s)

/-! ## Monitor (lines 970-1070) -/

/-- The body of one `forEach` step of `forceCleanup` on the foreground set. -/
def forceCleanupParticle (s : State) (particle : Token) : State :=
  if (s.parentNode particle).isSome then
    { s with
      style := setAt s.style particle { s.style particle with display := Display.none }
      activeParticles := setDelete particle s.activeParticles
      particlePool := s.particlePool ++ [particle] }
  else s

/-- The body of one `forEach` step of `forceCleanup` on the navigation set. -/
def forceCleanupNavParticle (s : State) (particle : Token) : State :=
  if (s.parentNode particle).isSome then
    { s with
      style := setAt s.style particle { s.style particle with display := Display.none }
      activeNavParticles := setDelete particle s.activeNavParticles
      navParticlePool := s.navParticlePool ++ [particle] }
  else s

/-- `forceCleanup()`. -/
def forceCleanup (s : State) : State :=
  let particlesToClean := s.activeParticles.take 5
  let s1 := particlesToClean.foldl forceCleanupParticle s
  let navParticlesToClean := s1.activeNavParticles.take 3
  navParticlesToClean.foldl forceCleanupNavParticle s1

/-- `monitorMemory()`. Reading `this.memoryMonitor.lastCheck` throws when the monitor is
`null`; the `catch` then logs and the method ends without rescheduling. -/
def monitorMemory (s : State) : State :=
  if s.isDestroyed then s
  else
    match s.memoryMonitor with
    | none => s
    | some m =>
      let s1 :=
        if s.now - m.lastCheck > 30000 then
          let m1 : MemoryMonitor :=
            { lastCheck := s.now
              particleCount := s.activeParticles.length + s.particlePool.length
              navParticleCount := s.activeNavParticles.length + s.navParticlePool.length }
          let s0 := { s with memoryMonitor := some m1 }
          if m1.particleCount > 50 || m1.navParticleCount > 20 then forceCleanup s0 else s0
        else s
      setTimeout Callback.monitorMemory 5000 s1

/-- `monitorPerformance()`. -/
def monitorPerformance (s : State) : State :=
  if s.isDestroyed then s
  else setTimeout Callback.monitorPerformance 30000 s

/-! ## Teardown (lines 1073-1221) and the visibility handler (lines 1312-1324) -/

/-- `particle.parentNode.removeChild(particle)` when the particle has a parent. -/
def removeFromParent (s : State) (particle : Token) : State :=
  if (s.parentNode particle).isSome then
    { s with parentNode := setAt s.parentNode particle none }
  else s

/-- `destroy()`. A stored interval handle is truthy (a browser hands out positive handles),
so `if (this.particleInterval)` is the test for `some`. The scroll observer, the window
listeners and the animation frame it also releases are outside the modelled state. -/
def destroy (s : State) : State :=
  let s1 := { s with isDestroyed := true }
  let s2 :=
    match s1.particleInterval with
    | some h => { clearInterval h s1 with particleInterval := none }
    | none => s1
  let s3 :=
    match s2.navParticleInterval with
    | some h => { clearInterval h s2 with navParticleInterval := none }
    | none => s2
  let s4 := { s3.particleTimers.foldl (fun st h => clearTimeout h st) s3 with particleTimers := [] }
  let s5 :=
    { s4.navParticleTimers.foldl (fun st h => clearTimeout h st) s4 with navParticleTimers := [] }
  let s6 := { s5 with activeParticles := [], activeNavParticles := [] }
  let s7 := { s6.particles.foldl removeFromParent s6 with particles := [] }
  let s8 := { s7.navParticles.foldl removeFromParent s7 with navParticles := [] }
  let s9 := { s8.particlePool.foldl removeFromParent s8 with particlePool := [] }
  let s10 := { s9.navParticlePool.foldl removeFromParent s9 with navParticlePool := [] }
  let s11 :=
    match s10.particleContainer with
    | some true => { s10 with particleContainer := some false }
    | _ => s10
  { s11 with domCache := none, memoryMonitor := none }

/-- The `visibilitychange` listener, while `websiteInstance` is set. -/
def visibilitychange (hidden : Bool) (s : State) : State :=
  { s with isDestroyed := hidden }

/-! ## Construction (lines 3-100) -/

/-- The field assignments of the constructor, on a page where nothing is scheduled yet. -/
def constructorFields (now : ℤ) : State :=
  { particles := [], navParticles := [], particleTimers := [], navParticleTimers := []
    particlePool := [], activeParticles := [], navParticlePool := [], activeNavParticles := []
    particleInterval := none, navParticleInterval := none
    isDestroyed := false
    domCache := some { navLinks := [], sections := [], navContainer := false, heroSection := false }
    memoryMonitor := some { lastCheck := now, particleCount := 0, navParticleCount := 0 }
    maxParticles := none, maxNavParticles := none, particleContainer := none
    timers := [], intervals := [], nextHandle := 1, nextToken := 0
    style := fun _ => hiddenStyle
    parentNode := fun _ => none
    now := now }

/-- `initializeDOMCache()`. -/
def initializeDOMCache (doc : Document) (s : State) : State :=
  match s.domCache with
  | none => s
  | some _ =>
    { s with
      domCache := some { navLinks := doc.navLinks, sections := doc.sections,
                         navContainer := doc.navContainer, heroSection := doc.heroSection } }

/-- `init()`; `initStunningEffects()` touches nothing of the modelled state. -/
def init (doc : Document) (ds : Nat → ParticleDraws) (s : State) : State :=
  monitorPerformance (monitorMemory (initParticleSystem doc ds (initializeDOMCache doc s)))

/-- `new BoroTechWebsite()`: the constructor, `init()` and, of `setupEventListeners()`,
the call chain `setupFuturisticNavigation()` to `createNavigationParticles()`. -/
def construct (doc : Document) (ds : Nat → ParticleDraws) (nds : Nat → NavDraws) (now : ℤ) :
    State :=
  createNavigationParticles doc nds (init doc ds (constructorFields now))

/-- Both pools right after their creation loops, before any animation is started. -/
def freshPools (now : ℤ) : State :=
  createNavigationParticlesPool (initParticleSystemPool (constructorFields now))

/-! ## The event loop -/

/-- Run the closure a timeout stands for. -/
def runCallback (cb : Callback) (s : State) : State :=
  match cb with
  | Callback.particleFade p => particleFade p s
  | Callback.particleRecycle p => particleRecycle p s
  | Callback.navParticleFade p => navParticleFade p s
  | Callback.navParticleRecycle p => navParticleRecycle p s
  | Callback.monitorMemory => monitorMemory s
  | Callback.monitorPerformance => monitorPerformance s

/-- The host fires the `i`-th pending timeout: it leaves the queue and its closure runs. -/
def fireTimer (i : Nat) (s : State) : State :=
  match s.timers.get? i with
  | none => s
  | some t => runCallback t.callback { s with timers := s.timers.eraseIdx i }

/-- The host fires the `i`-th running interval (it stays in the table). -/
def fireInterval (i : Nat) (ds : Nat → ParticleDraws) (nds : Nat → NavDraws) (s : State) :
    State :=
  match s.intervals.get? i with
  | none => s
  | some t =>
    match t.callback with
    | IntervalCallback.activateParticles => activateParticles ds s
    | IntervalCallback.activateNavParticles => activateNavParticles nds s

/-- Whether a closure is one of the four release closures. -/
def Callback.isRelease : Callback → Bool
  | Callback.particleFade _ => true
  | Callback.particleRecycle _ => true
  | Callback.navParticleFade _ => true
  | Callback.navParticleRecycle _ => true
  | _ => false

/-- One thing that can happen to the instance. -/
inductive Op where
  | activateParticle (d : ParticleDraws)
  | activateNavParticle (d : NavDraws)
  | particleTick (ds : Nat → ParticleDraws)
  | navParticleTick (ds : Nat → NavDraws)
  | fireInterval (i : Nat) (ds : Nat → ParticleDraws) (nds : Nat → NavDraws)
  | fireTimer (i : Nat)
  | visibilitychange (hidden : Bool)
  | advanceClock (dt : Nat)
  | forceCleanup
  | destroy

/-- The effect of one `Op`. -/
def Op.apply : Op → State → State
  | Op.activateParticle d, s => BoroTech.activateParticle d s
  | Op.activateNavParticle d, s => BoroTech.activateNavParticle d s
  | Op.particleTick ds, s => activateParticles ds s
  | Op.navParticleTick ds, s => activateNavParticles ds s
  | Op.fireInterval i ds nds, s => BoroTech.fireInterval i ds nds s
  | Op.fireTimer i, s => BoroTech.fireTimer i s
  | Op.visibilitychange h, s => BoroTech.visibilitychange h s
  | Op.advanceClock dt, s => { s with now := s.now + dt }
  | Op.forceCleanup, s => BoroTech.forceCleanup s
  | Op.destroy, s => BoroTech.destroy s

/-- Run a sequence of operations, first to last. -/
def run (ops : List Op) (s : State) : State :=
  ops.foldl (fun st o => o.apply st) s

/-! ## The pool as seen by the invariants -/

/-- What the invariants look at, for one kind of particle: the destroyed flag, the free
pool, the active set, and the particles that have a pending fade (outer) or recycle (inner)
timeout. -/
structure PoolView where
  destroyed : Bool
  free : List Token
  active : List Token
  fading : List Token
  recycling : List Token

/-- The particle of a pending foreground fade timeout. -/
def particleFadeOf (t : Timer) : Option Token :=
  match t.callback with
  | Callback.particleFade p => some p
  | _ => none

/-- The particle of a pending foreground recycle timeout. -/
def particleRecycleOf (t : Timer) : Option Token :=
  match t.callback with
  | Callback.particleRecycle p => some p
  | _ => none

/-- The particle of a pending navigation fade timeout. -/
def navFadeOf (t : Timer) : Option Token :=
  match t.callback with
  | Callback.navParticleFade p => some p
  | _ => none

/-- The particle of a pending navigation recycle timeout. -/
def navRecycleOf (t : Timer) : Option Token :=
  match t.callback with
  | Callback.navParticleRecycle p => some p
  | _ => none

/-- The foreground pool of a state. -/
def particleView (s : State) : PoolView :=
  { destroyed := s.isDestroyed, free := s.particlePool, active := s.activeParticles
    fading := s.timers.filterMap particleFadeOf
    recycling := s.timers.filterMap particleRecycleOf }

/-- The navigation pool of a state. -/
def navView (s : State) : PoolView :=
  { destroyed := s.isDestroyed, free := s.navParticlePool, active := s.activeNavParticles
    fading := s.timers.filterMap navFadeOf
    recycling := s.timers.filterMap navRecycleOf }

/-- Well-formedness of a pool of capacity `cap`: the free pool and the active set have no
repetition, share no token and hold `cap` tokens together; every pending release timeout
belongs to an active token, and no token has two of them. -/
structure PoolView.WF (v : PoolView) (cap : Nat) : Prop where
  free_nodup : v.free.Nodup
  active_nodup : v.active.Nodup
  disjoint : ∀ t ∈ v.free, t ∉ v.active
  size : v.free.length + v.active.length = cap
  pending_nodup : (v.fading ++ v.recycling).Nodup
  pending_active : ∀ t ∈ v.fading ++ v.recycling, t ∈ v.active

/-- The ways one method call or one timeout can change a pool, when no force-cleanup and
no teardown happens: an activation, a fade that schedules the recycle, a fade that finds the
instance destroyed or its particle inactive, a recycle that finds the instance destroyed,
and a recycle. -/
inductive ViewStep : PoolView → PoolView → Prop where
  | activate (v : PoolView) (f : List Token) (t : Token) (h : v.free = f ++ [t]) :
      ViewStep v { destroyed := v.destroyed, free := f, active := setAdd t v.active,
                   fading := v.fading ++ [t], recycling := v.recycling }
  | fade (v : PoolView) (t : Token) (p : List Token) (h : v.fading.Perm (t :: p))
      (ha : t ∈ v.active) :
      ViewStep v { v with fading := p, recycling := v.recycling ++ [t] }
  | dropFade (v : PoolView) (t : Token) (p : List Token) (h : v.fading.Perm (t :: p))
      (hc : v.destroyed = true ∨ t ∉ v.active) :
      ViewStep v { v with fading := p }
  | dropRecycle (v : PoolView) (t : Token) (p : List Token) (h : v.recycling.Perm (t :: p))
      (hc : v.destroyed = true) :
      ViewStep v { v with recycling := p }
  | recycle (v : PoolView) (t : Token) (p : List Token) (h : v.recycling.Perm (t :: p)) :
      ViewStep v { destroyed := v.destroyed, free := v.free ++ [t],
                   active := setDelete t v.active, fading := v.fading, recycling := p }

/-- Zero or more pool changes. -/
abbrev ViewSteps : PoolView → PoolView → Prop := Relation.ReflTransGen ViewStep

/-- Neither pool is above the monitor's high-water marks. -/
def BelowMarks (s : State) : Prop :=
  s.activeParticles.length + s.particlePool.length ≤ 50 ∧
    s.activeNavParticles.length + s.navParticlePool.length ≤ 20

/-- The invariant of the two pools: foreground capacity 15, navigation capacity 8. -/
def Inv (s : State) : Prop :=
  (particleView s).WF 15 ∧ (navView s).WF 8

/-! ## Reachable states and sample states -/

/-- The operations of normal running: everything but a direct `forceCleanup()` and
`destroy()`. -/
def Op.isSafe : Op → Bool
  | Op.forceCleanup => false
  | Op.destroy => false
  | _ => true

/-- An activate call or the firing of a pending timeout (the release callbacks of both
phases are such timeouts). -/
def Op.isActivateOrTimeout : Op → Bool
  | Op.activateParticle _ => true
  | Op.activateNavParticle _ => true
  | Op.fireTimer _ => true
  | _ => false

/-- The states the instance starts from: both pools just created, or the state the
constructor leaves on a page that has a hero section and a navigation container. -/
def Initial (s : State) : Prop :=
  (∃ now, s = freshPools now) ∨
    ∃ doc ds nds now, doc.heroSection = true ∧ doc.navContainer = true ∧
      s = construct doc ds nds now

/-- Sample draws and a sample page, for the concrete runs below. -/
def sampleDraws : ParticleDraws := ⟨0, 0, 0, 0, 0⟩

/-- Sample navigation draws. -/
def sampleNavDraws : NavDraws := ⟨0, 0, 0⟩

/-- A page with a hero section and a navigation container. -/
def samplePage : Document := ⟨true, true, [], []⟩

/-- The state the constructor leaves on the sample page. -/
def sampleState : State :=
  construct samplePage (fun _ => sampleDraws) (fun _ => sampleNavDraws) 0

/-- The sample instance after three more ticks and one more activation: two tokens are left
in the foreground free pool. -/
def twoFreeState : State :=
  run [Op.particleTick (fun _ => sampleDraws), Op.particleTick (fun _ => sampleDraws),
    Op.particleTick (fun _ => sampleDraws), Op.activateParticle sampleDraws] sampleState

/-! ## Repeated activation and repeated firing -/

/-- `k` calls of `activateParticle` in a row, the `i`-th with the draws `ds i`. -/
def activateTimes (ds : Nat → ParticleDraws) (k : Nat) (s : State) : State :=
  (List.range k).foldl (fun st i => activateParticle (ds i) st) s

/-- The host fires pending timeouts one after the other, each named by its position in the
queue at that moment. -/
def fireTimers (is : List Nat) (s : State) : State :=
  is.foldl (fun st i => fireTimer i st) s

/-- Every active token has a pending release timeout. -/
def PoolView.Covered (v : PoolView) : Prop :=
  ∀ t ∈ v.active, t ∈ v.fading ++ v.recycling

/-- A well-formed pool of a live instance whose tokens are those of `tokens` and whose
active tokens all have a pending release timeout. -/
structure PoolView.Live (v : PoolView) (cap : Nat) (tokens : List Token) : Prop where
  wf : v.WF cap
  live : v.destroyed = false
  covered : v.Covered
  perm : (v.free ++ v.active).Perm tokens

/-- The callbacks a release still has to run: two for a pending fade, one for a pending
recycle. -/
def releaseWeight (t : Timer) : Nat :=
  match t.callback with
  | Callback.particleFade _ => 2
  | Callback.particleRecycle _ => 1
  | _ => 0

/-- The number of foreground release callbacks that are still to run. -/
def pendingWork (s : State) : Nat :=
  (s.timers.map releaseWeight).sum

/-- Every pending timeout is a foreground release callback. -/
def OnlyParticleRelease (s : State) : Prop :=
  ∀ tm ∈ s.timers, 0 < releaseWeight tm

/-- The state invariant of the round trip: the foreground pool is live with the tokens
0 to 14, the navigation pool is well-formed. -/
def LiveState (s : State) : Prop :=
  (particleView s).Live 15 (List.range 15) ∧ (navView s).WF 8

/-! ## What the pool methods leave alone -/

/-- The fields that activation, the release callbacks, the ticks, the monitor and
`forceCleanup` never write: from `s` to `s'` they are all the same. -/
structure Frame (s s' : State) : Prop where
  isDestroyed : s'.isDestroyed = s.isDestroyed
  intervals : s'.intervals = s.intervals
  particleInterval : s'.particleInterval = s.particleInterval
  navParticleInterval : s'.navParticleInterval = s.navParticleInterval
  particleTimers : s'.particleTimers = s.particleTimers
  navParticleTimers : s'.navParticleTimers = s.navParticleTimers
  particles : s'.particles = s.particles
  navParticles : s'.navParticles = s.navParticles
  particleContainer : s'.particleContainer = s.particleContainer
  domCache : s'.domCache = s.domCache
  nextToken : s'.nextToken = s.nextToken
  parentNode : s'.parentNode = s.parentNode
  now : s'.now = s.now

/-! ## Pending release timeouts -/

/-- The number of pending foreground release timeouts (fade or recycle) of a token. -/
def particleReleaseTimers (s : State) (t : Token) : Nat :=
  ((particleView s).fading ++ (particleView s).recycling).count t

/-- The number of pending navigation release timeouts (fade or recycle) of a token. -/
def navReleaseTimers (s : State) (t : Token) : Nat :=
  ((navView s).fading ++ (navView s).recycling).count t

/-- The operations of normal running while the tab stays visible: no `forceCleanup()`, no
`destroy()`, no visibility change. -/
def Op.isUnsuspended : Op → Bool
  | Op.forceCleanup => false
  | Op.destroy => false
  | Op.visibilitychange _ => false
  | _ => true

/-- Both pools are live: the foreground pool with the tokens 0 to 14, the navigation pool
with the tokens 15 to 22, and every active token has a pending release timeout. -/
def LivePools (s : State) : Prop :=
  (particleView s).Live 15 (List.range' 0 15) ∧ (navView s).Live 8 (List.range' 15 8)

/-! ## What teardown leaves -/

/-- `clearInterval` of a stored handle, nothing for `null`. -/
def clearHandle (h : Option Nat) (l : List Interval) : List Interval :=
  match h with
  | some h => l.filter (fun t => t.id != h)
  | none => l

/-- Whether a token is part of the page: a navigation particle is a child of the
navigation container of the page, a foreground particle is a child of the particle
container, which is part of the page as long as it has a parent. -/
def attachedToPage (s : State) (t : Token) : Bool :=
  match s.parentNode t with
  | some Parent.navContainer => true
  | some Parent.particleContainer => s.particleContainer == some true
  | none => false

/-- The scheduling fields that the pool creation loops never write. -/
structure Sched (s s' : State) : Prop where
  intervals : s'.intervals = s.intervals
  particleInterval : s'.particleInterval = s.particleInterval
  navParticleInterval : s'.navParticleInterval = s.navParticleInterval
  particleTimers : s'.particleTimers = s.particleTimers
  navParticleTimers : s'.navParticleTimers = s.navParticleTimers
  memoryMonitor : s'.memoryMonitor = s.memoryMonitor
  now : s'.now = s.now

/-- Every running interval is one whose handle the instance has stored, and the legacy
timer arrays are empty. -/
def IntervalsTracked (s : State) : Prop :=
  (∀ iv ∈ s.intervals, some iv.id = s.particleInterval ∨ some iv.id = s.navParticleInterval) ∧
    s.particleTimers = [] ∧ s.navParticleTimers = []

/-! ## The monitor check -/

/-- Whether a call of `monitorMemory` in this state executes the check body (the branch of
`if (now - this.memoryMonitor.lastCheck > 30000)`). -/
def checkRuns (s : State) : Bool :=
  !s.isDestroyed &&
    match s.memoryMonitor with
    | some m => decide (s.now - m.lastCheck > 30000)
    | none => false

/-- The sample instance with a foreground pool artificially filled with 48 further
elements, so that the foreground count is 51, looked at 40 seconds after construction. -/
def overloadedState : State :=
  { sampleState with particlePool := List.range' 100 48, now := 40000 }

/-- The state after the first three assignments of the check body of `monitorMemory`:
`lastCheck` is the current time and both counts are taken. -/
def recount (s : State) : State :=
  let m1 : MemoryMonitor :=
    { lastCheck := s.now
      particleCount := s.activeParticles.length + s.particlePool.length
      navParticleCount := s.activeNavParticles.length + s.navParticlePool.length }
  { s with memoryMonitor := some m1 }

/-- The sample instance with thirteen active foreground particles and a foreground pool
artificially filled with 40 elements (count 53), looked at 40 seconds after construction. -/
def overloadedBusyState : State :=
  { twoFreeState with particlePool := List.range' 100 40, now := 40000 }

/-- Something that happens to the instance while the monitor is watched: a direct call of
`monitorMemory()` when the clock reads `t`, or any operation of the event loop. -/
inductive Event where
  | monitorMemoryAt (t : ℤ)
  | op (o : Op)

/-- The effect of one event. -/
def Event.apply : Event → State → State
  | Event.monitorMemoryAt t, s => monitorMemory { s with now := t }
  | Event.op o, s => o.apply s

/-- Whether an operation is the firing of a pending `monitorMemory` timeout. -/
def Op.firesMonitorMemory (o : Op) (s : State) : Bool :=
  match o with
  | Op.fireTimer i =>
    match s.timers.get? i with
    | some tm => decide (tm.callback = Callback.monitorMemory)
    | none => false
  | _ => false

/-- The clock value at which the check body of `monitorMemory` runs during an event, if it
runs. -/
def Event.checkTime (e : Event) (s : State) : Option ℤ :=
  match e with
  | Event.monitorMemoryAt t => if checkRuns { s with now := t } then some t else none
  | Event.op o => if o.firesMonitorMemory s && checkRuns s then some s.now else none

/-- The clock values of all executions of the check body during a sequence of events. -/
def checkTimes : List Event → State → List ℤ
  | [], _ => []
  | e :: es, s => (e.checkTime s).toList ++ checkTimes es (e.apply s)

/-! ## Initialisation failure (lines 1224-1265) -/

/-- `handleInitializationError(error)`. The notice it shows on the page and the timeout that
removes the notice after 5 seconds are outside the modelled state. -/
def handleInitializationError (s : State) : State :=
  { s with isDestroyed := true }


/-! ## Scroll highlighting (lines 473-523) -/

/-- The loop of `updateActiveNavigation()` over the sections, from the last to the first:
the id of the first section met whose top, less 100, the scroll position has reached; the
empty string when there is none. -/
def currentSection (sections : List Section) (scrollY : ℚ) : String :=
  match sections.reverse.find? (fun sec => decide (scrollY ≥ (sec.offsetTop : ℚ) - 100)) with
  | some sec => sec.id
  | none => ""

/-- The body of the `forEach` of `updateActiveNavigation()` for one link. -/
def updateLink (current : String) (link : NavLink) : NavLink :=
  let isActive := decide (link.dataSection = some current)
  if isActive && !link.active then { link with active := true }
  else if !isActive && link.active then { link with active := false }
  else link

/-- The `navLinks.forEach` of `updateActiveNavigation()`: every cached link is updated. -/
def highlight (current : String) (c : DomCache) : DomCache :=
  { c with navLinks := c.navLinks.map (updateLink current) }

/-- `updateActiveNavigation()`, with `window.pageYOffset` as argument. Reading
`this.domCache.sections` throws when the cache is `null`; the `catch` then logs and nothing
changes. -/
def updateActiveNavigation (scrollY : ℚ) (s : State) : State :=
  match s.domCache with
  | none => s
  | some c =>
    if c.sections.length == 0 then s
    else if c.navLinks.length == 0 then s
    else
      let current := currentSection c.sections scrollY
      { s with domCache := some (highlight current c) }

/-- A cache with three sections and four links, the first of them marked active. -/
def navigationCache : DomCache :=
  { navLinks := [⟨some "hero", true⟩, ⟨some "services", false⟩, ⟨some "mission", false⟩,
                 ⟨none, false⟩]
    sections := [⟨"hero", 0⟩, ⟨"services", 800⟩, ⟨"mission", 1600⟩]
    navContainer := true, heroSection := true }

/-- A state with that cache. -/
def navigationState : State :=
  { constructorFields 0 with domCache := some navigationCache }

/-! ## The token population -/

/-- The tokens of a pool are those of `tokens`: a token is in the free pool or in the active
set exactly if it is one of them, and every pending release timeout belongs to one of them. -/
structure PoolView.Population (v : PoolView) (tokens : List Token) : Prop where
  members : ∀ t, (t ∈ v.free ∨ t ∈ v.active) ↔ t ∈ tokens
  pending : ∀ t ∈ v.fading ++ v.recycling, t ∈ tokens

/-- Both pools hold the tokens they were created with: the foreground pool the tokens
0 to 14, the navigation pool the tokens 15 to 22. -/
def Populated (s : State) : Prop :=
  (particleView s).Population (List.range' 0 15) ∧ (navView s).Population (List.range' 15 8)

/-- Everything that can happen before teardown: every operation but `destroy()`. -/
def Op.isBeforeDestroy : Op → Bool
  | Op.destroy => false
  | _ => true

/-! ## Pools within their population -/

/-- A pool whose tokens all come from `tokens`: the free pool and the active set have no
repetition and share no token, every token in them and every token with a pending release
timeout is one of `tokens`, no token has two pending release timeouts, and no token with a
pending release timeout is in the free pool. Unlike `PoolView.WF` this survives teardown. -/
structure PoolView.Bounded (v : PoolView) (tokens : List Token) : Prop where
  free_nodup : v.free.Nodup
  active_nodup : v.active.Nodup
  disjoint : ∀ t ∈ v.free, t ∉ v.active
  members : ∀ t, t ∈ v.free ∨ t ∈ v.active → t ∈ tokens
  pending_nodup : (v.fading ++ v.recycling).Nodup
  pending_free : ∀ t ∈ v.fading ++ v.recycling, t ∉ v.free
  pending : ∀ t ∈ v.fading ++ v.recycling, t ∈ tokens

/-- Both pools are within a population of at most 15 foreground tokens and at most 8
navigation tokens. -/
def BoundedPools (s : State) : Prop :=
  ∃ T1 T2 : List Token, T1.length ≤ 15 ∧ T2.length ≤ 8 ∧
    (particleView s).Bounded T1 ∧ (navView s).Bounded T2

/-- The states construction leaves: both pools just created, or the state after the
constructor on any page, with or without a hero section and a navigation container. -/
def Constructed (s : State) : Prop :=
  (∃ now, s = freshPools now) ∨ ∃ doc ds nds now, s = construct doc ds nds now

/-- The work the instance does by itself or on a page signal: everything but a direct call
of `forceCleanup()`. -/
def Op.isOwnWork : Op → Bool
  | Op.forceCleanup => false
  | _ => true

/-- Whether a call of `monitorMemory` in this state reaches its call of `forceCleanup`:
the check body runs and one of the two counts it takes exceeds its mark
(`particleCount > 50 || navParticleCount > 20`). -/
def cleanupRuns (s : State) : Bool :=
  checkRuns s &&
    (decide (s.activeParticles.length + s.particlePool.length > 50) ||
      decide (s.activeNavParticles.length + s.navParticlePool.length > 20))

/-! ## The monitor loop -/

/-- Whether a pending timeout is a `monitorMemory` call. -/
def Timer.isMonitorMemory (t : Timer) : Bool :=
  decide (t.callback = Callback.monitorMemory)

/-- The number of pending `monitorMemory` calls. -/
def monitorCalls (s : State) : Nat :=
  s.timers.countP Timer.isMonitorMemory


/-! ## Sets as lists -/

theorem mem_setAdd {t x : Token} {l : List Token} : x ∈ setAdd t l ↔ x = t ∨ x ∈ l := by
  unfold setAdd
  split
  · constructor
    · intro h; exact Or.inr h
    · rintro (rfl | h)
      · assumption
      · exact h
  · simp [or_comm]

theorem nodup_setAdd {t : Token} {l : List Token} (h : l.Nodup) : (setAdd t l).Nodup := by
  unfold setAdd
  split
  · exact h
  · rename_i hn
    rw [List.nodup_append]
    refine ⟨h, List.nodup_singleton t, ?_⟩
    intro a ha hb
    simp only [List.mem_singleton] at hb
    subst hb
    exact hn ha

theorem length_setAdd_of_not_mem {t : Token} {l : List Token} (h : t ∉ l) :
    (setAdd t l).length = l.length + 1 := by
  simp [setAdd, h]

theorem length_setAdd_of_mem {t : Token} {l : List Token} (h : t ∈ l) :
    (setAdd t l).length = l.length := by
  simp [setAdd, h]

theorem mem_setDelete {t x : Token} {l : List Token} : x ∈ setDelete t l ↔ x ∈ l ∧ x ≠ t := by
  simp [setDelete]

theorem nodup_setDelete {t : Token} {l : List Token} (h : l.Nodup) : (setDelete t l).Nodup :=
  h.filter _

theorem setDelete_of_not_mem {t : Token} {l : List Token} (h : t ∉ l) : setDelete t l = l := by
  unfold setDelete
  rw [List.filter_eq_self]
  intro a ha
  simp only [bne_iff_ne, ne_eq]
  intro hat
  exact h (hat ▸ ha)

theorem length_setDelete {t : Token} {l : List Token} (hn : l.Nodup) (ht : t ∈ l) :
    (setDelete t l).length + 1 = l.length := by
  induction l with
  | nil => simp at ht
  | cons a l ih =>
    rw [List.nodup_cons] at hn
    by_cases hat : a = t
    · subst hat
      have : setDelete a (a :: l) = l := by
        have h1 : setDelete a (a :: l) = setDelete a l := by simp [setDelete]
        rw [h1, setDelete_of_not_mem hn.1]
      rw [this]; rfl
    · have htl : t ∈ l := by
        rcases List.mem_cons.mp ht with h | h
        · exact absurd h.symm hat
        · exact h
      have h1 : setDelete t (a :: l) = a :: setDelete t l := by
        simp [setDelete, hat]
      rw [h1]
      simp only [List.length_cons]
      rw [ih hn.2 htl]

/-! ## The pool as seen by the invariants -/

theorem PoolView.WF.wf_step {v w : PoolView} {cap : Nat} (hv : v.WF cap) (h : ViewStep v w) :
    w.WF cap := by
  obtain ⟨fn, an, dj, sz, pn, pa⟩ := hv
  cases h with
  | activate f t h =>
    rw [h] at fn dj sz
    have htf : t ∉ f := by
      intro hm
      have := List.nodup_append.mp fn
      exact this.2.2 hm (List.mem_singleton_self t)
    have hta : t ∉ v.active := dj t (by simp)
    have htp : t ∉ v.fading ++ v.recycling := fun hm => hta (pa t hm)
    refine ⟨(List.nodup_append.mp fn).1, nodup_setAdd an, ?_, ?_, ?_, ?_⟩
    · intro x hx hxa
      rcases mem_setAdd.mp hxa with rfl | hxa
      · exact htf hx
      · exact dj x (by simp [hx]) hxa
    · simp only [length_setAdd_of_not_mem hta]
      simp only [List.length_append, List.length_singleton] at sz
      omega
    · have hperm : (v.fading ++ [t] ++ v.recycling).Perm (t :: (v.fading ++ v.recycling)) := by
        have h1 : (v.fading ++ [t]).Perm (t :: v.fading) := by
          simp
        simp
      exact hperm.nodup_iff.mpr (List.nodup_cons.mpr ⟨htp, pn⟩)
    · intro x hx
      simp only [List.mem_append, List.mem_singleton] at hx
      rcases hx with (hx | rfl) | hx
      · exact mem_setAdd.mpr (Or.inr (pa x (by simp [hx])))
      · exact mem_setAdd.mpr (Or.inl rfl)
      · exact mem_setAdd.mpr (Or.inr (pa x (by simp [hx])))
  | fade t p h ha =>
    have hperm : (p ++ (v.recycling ++ [t])).Perm (v.fading ++ v.recycling) := by
      have h1 : (p ++ (v.recycling ++ [t])).Perm (t :: p ++ v.recycling) := by
        have : (p ++ (v.recycling ++ [t])).Perm ((v.recycling ++ [t]) ++ p) :=
          List.perm_append_comm
        refine this.trans ?_
        have h2 : (v.recycling ++ [t] ++ p).Perm (v.recycling ++ (t :: p)) := by simp
        refine h2.trans ?_
        exact List.perm_append_comm
      exact h1.trans (h.symm.append_right v.recycling)
    refine ⟨fn, an, dj, sz, hperm.nodup_iff.mpr pn, ?_⟩
    intro x hx
    exact pa x (hperm.mem_iff.mp hx)
  | dropFade t p h _ =>
    have hsub : ∀ x, x ∈ p ++ v.recycling → x ∈ v.fading ++ v.recycling := by
      intro x hx
      rcases List.mem_append.mp hx with hx | hx
      · exact List.mem_append.mpr (Or.inl (h.mem_iff.mpr (List.mem_cons_of_mem t hx)))
      · exact List.mem_append.mpr (Or.inr hx)
    have hn : (t :: p ++ v.recycling).Nodup := (h.append_right v.recycling).nodup_iff.mp pn
    refine ⟨fn, an, dj, sz, ?_, fun x hx => pa x (hsub x hx)⟩
    exact (List.nodup_cons.mp hn).2
  | dropRecycle t p h _ =>
    have hsub : ∀ x, x ∈ v.fading ++ p → x ∈ v.fading ++ v.recycling := by
      intro x hx
      rcases List.mem_append.mp hx with hx | hx
      · exact List.mem_append.mpr (Or.inl hx)
      · exact List.mem_append.mpr (Or.inr (h.mem_iff.mpr (List.mem_cons_of_mem t hx)))
    have hn : (v.fading ++ t :: p).Nodup := (h.append_left v.fading).nodup_iff.mp pn
    refine ⟨fn, an, dj, sz, ?_, fun x hx => pa x (hsub x hx)⟩
    exact (List.nodup_cons.mp (List.nodup_middle.mp hn)).2
  | recycle t p h =>
    have hn : (v.fading ++ t :: p).Nodup := (h.append_left v.fading).nodup_iff.mp pn
    have hn2 := List.nodup_cons.mp (List.nodup_middle.mp hn)
    have htr : t ∈ v.recycling := h.mem_iff.mpr (List.mem_cons_self t p)
    have hta : t ∈ v.active := pa t (List.mem_append.mpr (Or.inr htr))
    have htf : t ∉ v.free := fun hm => dj t hm hta
    refine ⟨?_, nodup_setDelete an, ?_, ?_, hn2.2, ?_⟩
    · rw [List.nodup_append]
      refine ⟨fn, List.nodup_singleton t, ?_⟩
      intro a ha hb
      simp only [List.mem_singleton] at hb
      subst hb
      exact htf ha
    · intro x hx hxa
      have hxa2 := mem_setDelete.mp hxa
      rcases List.mem_append.mp hx with hx | hx
      · exact dj x hx hxa2.1
      · simp only [List.mem_singleton] at hx
        exact hxa2.2 hx
    · have := length_setDelete an hta
      simp only [List.length_append, List.length_singleton]
      omega
    · intro x hx
      refine mem_setDelete.mpr ⟨?_, ?_⟩
      · apply pa x
        rcases List.mem_append.mp hx with hx | hx
        · exact List.mem_append.mpr (Or.inl hx)
        · exact List.mem_append.mpr (Or.inr (h.mem_iff.mpr (List.mem_cons_of_mem t hx)))
      · rintro rfl
        exact hn2.1 hx

theorem PoolView.WF.wf_steps {v w : PoolView} {cap : Nat} (hv : v.WF cap) (h : ViewSteps v w) :
    w.WF cap := by
  induction h with
  | refl => exact hv
  | tail _ hstep ih => exact ih.wf_step hstep

/-! ## How the timer queue shows in the views -/

theorem filterMap_eraseIdx_some {f : Timer → Option Token} {ts : List Timer} {i : Nat}
    {tm : Timer} {t : Token} (h : ts.get? i = some tm) (hf : f tm = some t) :
    (ts.filterMap f).Perm (t :: (ts.eraseIdx i).filterMap f) := by
  induction ts generalizing i with
  | nil => simp at h
  | cons a ts ih =>
    cases i with
    | zero =>
      simp only [List.get?_cons_zero, Option.some.injEq] at h
      subst h
      simp [List.filterMap_cons, hf]
    | succ i =>
      simp only [List.get?_cons_succ] at h
      have := ih h
      simp only [List.eraseIdx_cons_succ, List.filterMap_cons]
      cases hfa : f a with
      | none => simpa using this
      | some b =>
        simp only
        exact (this.cons b).trans (List.Perm.swap t b _)

theorem filterMap_eraseIdx_none {f : Timer → Option Token} {ts : List Timer} {i : Nat}
    {tm : Timer} (h : ts.get? i = some tm) (hf : f tm = none) :
    (ts.eraseIdx i).filterMap f = ts.filterMap f := by
  induction ts generalizing i with
  | nil => simp at h
  | cons a ts ih =>
    cases i with
    | zero =>
      simp only [List.get?_cons_zero, Option.some.injEq] at h
      subst h
      simp [List.filterMap_cons, hf]
    | succ i =>
      simp only [List.get?_cons_succ] at h
      simp only [List.eraseIdx_cons_succ, List.filterMap_cons, ih h]

theorem pool_eq_dropLast_append {l : List Token} {t : Token} (h : l.getLast? = some t) :
    l = l.dropLast ++ [t] :=
  (List.dropLast_append_getLast? t (by simp [h])).symm

/-! ## How each method changes the views -/

theorem particleView_activateParticle (d : ParticleDraws) (s : State) :
    particleView (activateParticle d s) = particleView s ∨
      ViewStep (particleView s) (particleView (activateParticle d s)) := by
  unfold activateParticle
  split
  · exact Or.inl rfl
  · split
    · exact Or.inl rfl
    · rename_i particle hlast
      right
      have := ViewStep.activate (particleView s) s.particlePool.dropLast particle
        (pool_eq_dropLast_append hlast)
      simpa [particleView, setTimeout, particleFadeOf, particleRecycleOf] using this

theorem navView_activateParticle (d : ParticleDraws) (s : State) :
    navView (activateParticle d s) = navView s := by
  unfold activateParticle
  split
  · rfl
  · split
    · rfl
    · simp [navView, setTimeout, navFadeOf, navRecycleOf]

theorem navView_activateNavParticle (d : NavDraws) (s : State) :
    navView (activateNavParticle d s) = navView s ∨
      ViewStep (navView s) (navView (activateNavParticle d s)) := by
  unfold activateNavParticle
  split
  · exact Or.inl rfl
  · split
    · exact Or.inl rfl
    · rename_i particle hlast
      right
      have := ViewStep.activate (navView s) s.navParticlePool.dropLast particle
        (pool_eq_dropLast_append hlast)
      simpa [navView, setTimeout, navFadeOf, navRecycleOf] using this

theorem particleView_activateNavParticle (d : NavDraws) (s : State) :
    particleView (activateNavParticle d s) = particleView s := by
  unfold activateNavParticle
  split
  · rfl
  · split
    · rfl
    · simp [particleView, setTimeout, particleFadeOf, particleRecycleOf]

theorem viewSteps_of_eq_or_step {v w : PoolView} (h : w = v ∨ ViewStep v w) : ViewSteps v w := by
  rcases h with h | h
  · rw [h]
  · exact Relation.ReflTransGen.single h

theorem particleView_foldl_activateParticle (ds : Nat → ParticleDraws) (l : List Nat)
    (s : State) :
    ViewSteps (particleView s)
      (particleView (l.foldl (fun st i => activateParticle (ds i) st) s)) := by
  induction l generalizing s with
  | nil => exact Relation.ReflTransGen.refl
  | cons i l ih =>
    simp only [List.foldl_cons]
    exact (viewSteps_of_eq_or_step (particleView_activateParticle (ds i) s)).trans (ih _)

theorem navView_foldl_activateParticle (ds : Nat → ParticleDraws) (l : List Nat) (s : State) :
    navView (l.foldl (fun st i => activateParticle (ds i) st) s) = navView s := by
  induction l generalizing s with
  | nil => rfl
  | cons i l ih => simp only [List.foldl_cons, ih, navView_activateParticle]

theorem navView_foldl_activateNavParticle (ds : Nat → NavDraws) (l : List Nat) (s : State) :
    ViewSteps (navView s)
      (navView (l.foldl (fun st i => activateNavParticle (ds i) st) s)) := by
  induction l generalizing s with
  | nil => exact Relation.ReflTransGen.refl
  | cons i l ih =>
    simp only [List.foldl_cons]
    exact (viewSteps_of_eq_or_step (navView_activateNavParticle (ds i) s)).trans (ih _)

theorem particleView_foldl_activateNavParticle (ds : Nat → NavDraws) (l : List Nat)
    (s : State) :
    particleView (l.foldl (fun st i => activateNavParticle (ds i) st) s) = particleView s := by
  induction l generalizing s with
  | nil => rfl
  | cons i l ih => simp only [List.foldl_cons, ih, particleView_activateNavParticle]

theorem particleView_activateParticles (ds : Nat → ParticleDraws) (s : State) :
    ViewSteps (particleView s) (particleView (activateParticles ds s)) := by
  unfold activateParticles
  split
  · exact Relation.ReflTransGen.refl
  · exact particleView_foldl_activateParticle ds _ s

theorem navView_activateParticles (ds : Nat → ParticleDraws) (s : State) :
    navView (activateParticles ds s) = navView s := by
  unfold activateParticles
  split
  · rfl
  · exact navView_foldl_activateParticle ds _ s

theorem navView_activateNavParticles (ds : Nat → NavDraws) (s : State) :
    ViewSteps (navView s) (navView (activateNavParticles ds s)) := by
  unfold activateNavParticles
  split
  · exact Relation.ReflTransGen.refl
  · exact navView_foldl_activateNavParticle ds _ s

theorem particleView_activateNavParticles (ds : Nat → NavDraws) (s : State) :
    particleView (activateNavParticles ds s) = particleView s := by
  unfold activateNavParticles
  split
  · rfl
  · exact particleView_foldl_activateNavParticle ds _ s

theorem monitorMemory_views (s : State) (h : BelowMarks s) :
    particleView (monitorMemory s) = particleView s ∧ navView (monitorMemory s) = navView s := by
  obtain ⟨h1, h2⟩ := h
  unfold monitorMemory
  split
  · exact ⟨rfl, rfl⟩
  · split
    · exact ⟨rfl, rfl⟩
    · have hc : ¬ (s.activeParticles.length + s.particlePool.length > 50) := by omega
      have hn : ¬ (s.activeNavParticles.length + s.navParticlePool.length > 20) := by omega
      split <;>
        simp [particleView, navView, setTimeout, particleFadeOf, particleRecycleOf, navFadeOf,
          navRecycleOf, hc, hn]

theorem monitorPerformance_views (s : State) :
    particleView (monitorPerformance s) = particleView s ∧
      navView (monitorPerformance s) = navView s := by
  unfold monitorPerformance
  split
  · exact ⟨rfl, rfl⟩
  · simp [particleView, navView, setTimeout, particleFadeOf, particleRecycleOf, navFadeOf,
      navRecycleOf]

theorem fireTimer_views_of_callback (i : Nat) (s : State)
    (h : ∀ tm, s.timers.get? i = some tm → tm.callback = Callback.monitorMemory →
      BelowMarks s) :
    ViewSteps (particleView s) (particleView (fireTimer i s)) ∧
      ViewSteps (navView s) (navView (fireTimer i s)) := by
  unfold fireTimer
  split
  · exact ⟨Relation.ReflTransGen.refl, Relation.ReflTransGen.refl⟩
  · rename_i tm hget
    cases hcb : tm.callback with
    | particleFade p =>
      have hF : particleFadeOf tm = some p := by simp [particleFadeOf, hcb]
      have hR : particleRecycleOf tm = none := by simp [particleRecycleOf, hcb]
      have hNF : navFadeOf tm = none := by simp [navFadeOf, hcb]
      have hNR : navRecycleOf tm = none := by simp [navRecycleOf, hcb]
      have hperm := filterMap_eraseIdx_some hget hF
      simp only [runCallback, particleFade]
      split
      · rename_i hcond
        have hc : (particleView s).destroyed = true ∨ p ∉ (particleView s).active := by
          simpa [particleView] using hcond
        refine ⟨Relation.ReflTransGen.single ?_, ?_⟩
        · have := ViewStep.dropFade (particleView s) p _ hperm hc
          simpa [particleView, filterMap_eraseIdx_none hget hR] using this
        · simp [navView, filterMap_eraseIdx_none hget hNF, filterMap_eraseIdx_none hget hNR,
            Relation.ReflTransGen.refl]
      · rename_i hcond
        have hmem : p ∈ s.activeParticles := by
          simp only [Bool.or_eq_true, Bool.not_eq_true', decide_eq_false_iff_not, not_or,
            Bool.not_eq_true, not_not] at hcond
          exact hcond.2
        refine ⟨Relation.ReflTransGen.single ?_, ?_⟩
        · have := ViewStep.fade (particleView s) p _ hperm hmem
          simpa [particleView, setTimeout, particleFadeOf, particleRecycleOf,
            filterMap_eraseIdx_none hget hR] using this
        · simp [navView, setTimeout, navFadeOf, navRecycleOf,
            filterMap_eraseIdx_none hget hNF, filterMap_eraseIdx_none hget hNR,
            Relation.ReflTransGen.refl]
    | particleRecycle p =>
      have hF : particleFadeOf tm = none := by simp [particleFadeOf, hcb]
      have hR : particleRecycleOf tm = some p := by simp [particleRecycleOf, hcb]
      have hNF : navFadeOf tm = none := by simp [navFadeOf, hcb]
      have hNR : navRecycleOf tm = none := by simp [navRecycleOf, hcb]
      have hperm := filterMap_eraseIdx_some hget hR
      simp only [runCallback, particleRecycle]
      split
      · rename_i hcond
        have hc : (particleView s).destroyed = true := by
          simpa [particleView] using hcond
        refine ⟨Relation.ReflTransGen.single ?_, ?_⟩
        · have := ViewStep.dropRecycle (particleView s) p _ hperm hc
          simpa [particleView, filterMap_eraseIdx_none hget hF] using this
        · simp [navView, filterMap_eraseIdx_none hget hNF, filterMap_eraseIdx_none hget hNR,
            Relation.ReflTransGen.refl]
      · refine ⟨Relation.ReflTransGen.single ?_, ?_⟩
        · have := ViewStep.recycle (particleView s) p _ hperm
          simpa [particleView, filterMap_eraseIdx_none hget hF] using this
        · simp [navView, filterMap_eraseIdx_none hget hNF, filterMap_eraseIdx_none hget hNR,
            Relation.ReflTransGen.refl]
    | navParticleFade p =>
      have hF : particleFadeOf tm = none := by simp [particleFadeOf, hcb]
      have hR : particleRecycleOf tm = none := by simp [particleRecycleOf, hcb]
      have hNF : navFadeOf tm = some p := by simp [navFadeOf, hcb]
      have hNR : navRecycleOf tm = none := by simp [navRecycleOf, hcb]
      have hperm := filterMap_eraseIdx_some hget hNF
      simp only [runCallback, navParticleFade]
      split
      · rename_i hcond
        have hc : (navView s).destroyed = true ∨ p ∉ (navView s).active := by
          simpa [navView] using hcond
        refine ⟨?_, Relation.ReflTransGen.single ?_⟩
        · simp [particleView, filterMap_eraseIdx_none hget hF, filterMap_eraseIdx_none hget hR,
            Relation.ReflTransGen.refl]
        · have := ViewStep.dropFade (navView s) p _ hperm hc
          simpa [navView, filterMap_eraseIdx_none hget hNR] using this
      · rename_i hcond
        have hmem : p ∈ s.activeNavParticles := by
          simp only [Bool.or_eq_true, Bool.not_eq_true', decide_eq_false_iff_not, not_or,
            Bool.not_eq_true, not_not] at hcond
          exact hcond.2
        refine ⟨?_, Relation.ReflTransGen.single ?_⟩
        · simp [particleView, setTimeout, particleFadeOf, particleRecycleOf,
            filterMap_eraseIdx_none hget hF, filterMap_eraseIdx_none hget hR,
            Relation.ReflTransGen.refl]
        · have := ViewStep.fade (navView s) p _ hperm hmem
          simpa [navView, setTimeout, navFadeOf, navRecycleOf,
            filterMap_eraseIdx_none hget hNR] using this
    | navParticleRecycle p =>
      have hF : particleFadeOf tm = none := by simp [particleFadeOf, hcb]
      have hR : particleRecycleOf tm = none := by simp [particleRecycleOf, hcb]
      have hNF : navFadeOf tm = none := by simp [navFadeOf, hcb]
      have hNR : navRecycleOf tm = some p := by simp [navRecycleOf, hcb]
      have hperm := filterMap_eraseIdx_some hget hNR
      simp only [runCallback, navParticleRecycle]
      split
      · rename_i hcond
        have hc : (navView s).destroyed = true := by
          simpa [navView] using hcond
        refine ⟨?_, Relation.ReflTransGen.single ?_⟩
        · simp [particleView, filterMap_eraseIdx_none hget hF, filterMap_eraseIdx_none hget hR,
            Relation.ReflTransGen.refl]
        · have := ViewStep.dropRecycle (navView s) p _ hperm hc
          simpa [navView, filterMap_eraseIdx_none hget hNF] using this
      · refine ⟨?_, Relation.ReflTransGen.single ?_⟩
        · simp [particleView, filterMap_eraseIdx_none hget hF, filterMap_eraseIdx_none hget hR,
            Relation.ReflTransGen.refl]
        · have := ViewStep.recycle (navView s) p _ hperm
          simpa [navView, filterMap_eraseIdx_none hget hNF] using this
    | monitorMemory =>
      have hF : particleFadeOf tm = none := by simp [particleFadeOf, hcb]
      have hR : particleRecycleOf tm = none := by simp [particleRecycleOf, hcb]
      have hNF : navFadeOf tm = none := by simp [navFadeOf, hcb]
      have hNR : navRecycleOf tm = none := by simp [navRecycleOf, hcb]
      simp only [runCallback]
      have hv := monitorMemory_views { s with timers := s.timers.eraseIdx i } (h tm hget hcb)
      rw [hv.1, hv.2]
      simp [particleView, navView, filterMap_eraseIdx_none hget hF,
        filterMap_eraseIdx_none hget hR, filterMap_eraseIdx_none hget hNF,
        filterMap_eraseIdx_none hget hNR, Relation.ReflTransGen.refl]
    | monitorPerformance =>
      have hF : particleFadeOf tm = none := by simp [particleFadeOf, hcb]
      have hR : particleRecycleOf tm = none := by simp [particleRecycleOf, hcb]
      have hNF : navFadeOf tm = none := by simp [navFadeOf, hcb]
      have hNR : navRecycleOf tm = none := by simp [navRecycleOf, hcb]
      simp only [runCallback]
      have hv := monitorPerformance_views { s with timers := s.timers.eraseIdx i }
      rw [hv.1, hv.2]
      simp [particleView, navView, filterMap_eraseIdx_none hget hF,
        filterMap_eraseIdx_none hget hR, filterMap_eraseIdx_none hget hNF,
        filterMap_eraseIdx_none hget hNR, Relation.ReflTransGen.refl]

theorem fireTimer_views (i : Nat) (s : State) (h : BelowMarks s) :
    ViewSteps (particleView s) (particleView (fireTimer i s)) ∧
      ViewSteps (navView s) (navView (fireTimer i s)) :=
  fireTimer_views_of_callback i s (fun _ _ _ => h)

/-! ## Pool creation -/

theorem iterate_createParticlePool (k : Nat) (s : State) :
    let r := Nat.iterate (createParticlePool true) k s
    r.particlePool = s.particlePool ++ List.range' s.nextToken k ∧
      r.nextToken = s.nextToken + k ∧
      r.activeParticles = s.activeParticles ∧ r.timers = s.timers ∧
      r.isDestroyed = s.isDestroyed ∧ navView r = navView s := by
  induction k generalizing s with
  | zero => simp
  | succ k ih =>
    have h := ih (createParticlePool true s)
    simp only [Function.iterate_succ, Function.comp_apply]
    obtain ⟨h1, h2, h3, h4, h5, h6⟩ := h
    refine ⟨?_, ?_, ?_, ?_, ?_, ?_⟩
    · rw [h1]; simp [createParticlePool, List.range'_succ]
    · rw [h2]; simp [createParticlePool]; omega
    · rw [h3]; simp [createParticlePool]
    · rw [h4]; simp [createParticlePool]
    · rw [h5]; simp [createParticlePool]
    · rw [h6]; simp [createParticlePool, navView]

theorem iterate_createNavParticlePool (k : Nat) (s : State) :
    let r := Nat.iterate createNavParticlePool k s
    r.navParticlePool = s.navParticlePool ++ List.range' s.nextToken k ∧
      r.nextToken = s.nextToken + k ∧
      r.activeNavParticles = s.activeNavParticles ∧ r.timers = s.timers ∧
      r.isDestroyed = s.isDestroyed ∧ particleView r = particleView s := by
  induction k generalizing s with
  | zero => simp
  | succ k ih =>
    have h := ih (createNavParticlePool s)
    simp only [Function.iterate_succ, Function.comp_apply]
    obtain ⟨h1, h2, h3, h4, h5, h6⟩ := h
    refine ⟨?_, ?_, ?_, ?_, ?_, ?_⟩
    · rw [h1]; simp [createNavParticlePool, List.range'_succ]
    · rw [h2]; simp [createNavParticlePool]; omega
    · rw [h3]; simp [createNavParticlePool]
    · rw [h4]; simp [createNavParticlePool]
    · rw [h5]; simp [createNavParticlePool]
    · rw [h6]; simp [createNavParticlePool, particleView]

/-- A pool of `cap` distinct free tokens, nothing active, nothing pending. -/
theorem wf_of_fresh {v : PoolView} {n cap : Nat} (hf : v.free = List.range' n cap)
    (ha : v.active = []) (h1 : v.fading = []) (h2 : v.recycling = []) : v.WF cap := by
  refine ⟨?_, ?_, ?_, ?_, ?_, ?_⟩
  · rw [hf]; exact List.nodup_range' n cap
  · rw [ha]; exact List.nodup_nil
  · rw [ha]; intro t _; simp
  · rw [hf, ha]; simp
  · rw [h1, h2]; simp
  · rw [h1, h2]; intro t ht; simp at ht

theorem initParticleSystemPool_views (s : State) :
    (particleView (initParticleSystemPool s)).free = List.range' s.nextToken 15 ∧
      (particleView (initParticleSystemPool s)).active = [] ∧
      (particleView (initParticleSystemPool s)).fading = (particleView s).fading ∧
      (particleView (initParticleSystemPool s)).recycling = (particleView s).recycling ∧
      navView (initParticleSystemPool s) = navView s ∧
      (initParticleSystemPool s).isDestroyed = s.isDestroyed := by
  unfold initParticleSystemPool
  have h := iterate_createParticlePool 15
    { s with particleContainer := some true, particlePool := [], activeParticles := [],
             maxParticles := some 15 }
  simp only at h
  obtain ⟨h1, -, h3, h4, h5, h6⟩ := h
  refine ⟨?_, ?_, ?_, ?_, ?_, ?_⟩
  · simp only [particleView]; rw [h1]; simp
  · simp only [particleView]; rw [h3]
  · simp only [particleView]; rw [h4]
  · simp only [particleView]; rw [h4]
  · rw [h6]; simp [navView]
  · rw [h5]

theorem createNavigationParticlesPool_views (s : State) :
    (navView (createNavigationParticlesPool s)).free = List.range' s.nextToken 8 ∧
      (navView (createNavigationParticlesPool s)).active = [] ∧
      (navView (createNavigationParticlesPool s)).fading = (navView s).fading ∧
      (navView (createNavigationParticlesPool s)).recycling = (navView s).recycling ∧
      particleView (createNavigationParticlesPool s) = particleView s ∧
      (createNavigationParticlesPool s).isDestroyed = s.isDestroyed := by
  unfold createNavigationParticlesPool
  have h := iterate_createNavParticlePool 8
    { s with navParticlePool := [], activeNavParticles := [], maxNavParticles := some 8 }
  simp only at h
  obtain ⟨h1, -, h3, h4, h5, h6⟩ := h
  refine ⟨?_, ?_, ?_, ?_, ?_, ?_⟩
  · simp only [navView]; rw [h1]; simp
  · simp only [navView]; rw [h3]
  · simp only [navView]; rw [h4]
  · simp only [navView]; rw [h4]
  · rw [h6]; simp [particleView]
  · rw [h5]

theorem Inv.inv_belowMarks {s : State} (h : Inv s) : BelowMarks s := by
  have h1 := h.1.size
  have h2 := h.2.size
  simp only [particleView, navView] at h1 h2
  unfold BelowMarks
  omega

theorem inv_freshPools (now : ℤ) : Inv (freshPools now) := by
  unfold freshPools
  obtain ⟨a1, a2, a3, a4, a5, -⟩ := initParticleSystemPool_views (constructorFields now)
  obtain ⟨b1, b2, b3, b4, b5, -⟩ :=
    createNavigationParticlesPool_views (initParticleSystemPool (constructorFields now))
  constructor
  · rw [b5]
    exact wf_of_fresh a1 a2 (by rw [a3]; rfl) (by rw [a4]; rfl)
  · refine wf_of_fresh b1 b2 ?_ ?_
    · rw [b3, a5]; rfl
    · rw [b4, a5]; rfl

/-! ## Construction -/

theorem startParticleAnimation_views (ds : Nat → ParticleDraws) (s : State) :
    ViewSteps (particleView s) (particleView (startParticleAnimation ds s)) ∧
      navView (startParticleAnimation ds s) = navView s := by
  unfold startParticleAnimation
  split
  · exact ⟨Relation.ReflTransGen.refl, rfl⟩
  · exact ⟨particleView_activateParticles ds s, navView_activateParticles ds s⟩

theorem startNavParticleAnimation_views (ds : Nat → NavDraws) (s : State) :
    ViewSteps (navView s) (navView (startNavParticleAnimation ds s)) ∧
      particleView (startNavParticleAnimation ds s) = particleView s := by
  unfold startNavParticleAnimation
  split
  · exact ⟨Relation.ReflTransGen.refl, rfl⟩
  · exact ⟨navView_activateNavParticles ds s, particleView_activateNavParticles ds s⟩

theorem inv_construct (doc : Document) (ds : Nat → ParticleDraws) (nds : Nat → NavDraws)
    (now : ℤ) (hh : doc.heroSection = true) (hn : doc.navContainer = true) :
    Inv (construct doc ds nds now) := by
  unfold construct createNavigationParticles init initParticleSystem
  simp only [hh, hn, Bool.not_true, Bool.false_eq_true, if_false]
  -- the state after the DOM cache is filled
  have hc : initializeDOMCache doc (constructorFields now) =
      { constructorFields now with
        domCache := some { navLinks := doc.navLinks, sections := doc.sections,
                           navContainer := doc.navContainer, heroSection := doc.heroSection } } :=
    rfl
  rw [hc]
  generalize hs0 : ({ constructorFields now with
        domCache := some { navLinks := doc.navLinks, sections := doc.sections,
                           navContainer := doc.navContainer, heroSection := doc.heroSection } } :
        State) = s0
  have t0 : s0.timers = [] := by rw [← hs0]; rfl
  obtain ⟨a1, a2, a3, a4, a5, -⟩ := initParticleSystemPool_views s0
  have wf1 : (particleView (initParticleSystemPool s0)).WF 15 :=
    wf_of_fresh a1 a2 (by rw [a3]; simp [particleView, t0]) (by rw [a4]; simp [particleView, t0])
  obtain ⟨c1, c2⟩ := startParticleAnimation_views ds (initParticleSystemPool s0)
  have wf2 := wf1.wf_steps c1
  generalize startParticleAnimation ds (initParticleSystemPool s0) = s2 at c2 wf2
  have bm2 : BelowMarks s2 := by
    have h1 := wf2.size
    have h2 : (navView s2).free = [] ∧ (navView s2).active = [] := by
      rw [c2, a5, ← hs0]; exact ⟨rfl, rfl⟩
    simp only [particleView, navView] at h1 h2
    unfold BelowMarks
    rw [h2.1, h2.2]
    simp only [List.length_nil]
    omega
  obtain ⟨d1, d2⟩ := monitorMemory_views s2 bm2
  obtain ⟨e1, e2⟩ := monitorPerformance_views (monitorMemory s2)
  generalize hs4 : monitorPerformance (monitorMemory s2) = s4 at e1 e2
  obtain ⟨b1, b2, b3, b4, b5, -⟩ := createNavigationParticlesPool_views s4
  have nv4 : navView s4 = navView s0 := by rw [e2, d2, c2, a5]
  have wf3 : (navView (createNavigationParticlesPool s4)).WF 8 :=
    wf_of_fresh b1 b2 (by rw [b3, nv4]; simp [navView, t0]) (by rw [b4, nv4]; simp [navView, t0])
  obtain ⟨f1, f2⟩ := startNavParticleAnimation_views nds (createNavigationParticlesPool s4)
  constructor
  · rw [f2, b5, e1, d1]; exact wf2
  · exact wf3.wf_steps f1

/-! ## Reachable states -/

theorem Initial.initial_inv {s : State} (h : Initial s) : Inv s := by
  rcases h with ⟨now, rfl⟩ | ⟨doc, ds, nds, now, hh, hn, rfl⟩
  · exact inv_freshPools now
  · exact inv_construct doc ds nds now hh hn

theorem Inv.inv_apply {s : State} (hs : Inv s) (o : Op) (ho : o.isSafe = true) :
    Inv (o.apply s) := by
  cases o with
  | activateParticle d =>
    refine ⟨hs.1.wf_steps (viewSteps_of_eq_or_step (particleView_activateParticle d s)), ?_⟩
    simp only [Op.apply, navView_activateParticle]
    exact hs.2
  | activateNavParticle d =>
    refine ⟨?_, hs.2.wf_steps (viewSteps_of_eq_or_step (navView_activateNavParticle d s))⟩
    simp only [Op.apply, particleView_activateNavParticle]
    exact hs.1
  | particleTick ds =>
    refine ⟨hs.1.wf_steps (particleView_activateParticles ds s), ?_⟩
    simp only [Op.apply, navView_activateParticles]
    exact hs.2
  | navParticleTick ds =>
    refine ⟨?_, hs.2.wf_steps (navView_activateNavParticles ds s)⟩
    simp only [Op.apply, particleView_activateNavParticles]
    exact hs.1
  | fireInterval i ds nds =>
    simp only [Op.apply, fireInterval]
    split
    · exact hs
    · split
      · refine ⟨hs.1.wf_steps (particleView_activateParticles ds s), ?_⟩
        rw [navView_activateParticles]
        exact hs.2
      · refine ⟨?_, hs.2.wf_steps (navView_activateNavParticles nds s)⟩
        rw [particleView_activateNavParticles]
        exact hs.1
  | fireTimer i =>
    obtain ⟨h1, h2⟩ := fireTimer_views i s hs.inv_belowMarks
    exact ⟨hs.1.wf_steps h1, hs.2.wf_steps h2⟩
  | visibilitychange h =>
    exact ⟨⟨hs.1.free_nodup, hs.1.active_nodup, hs.1.disjoint, hs.1.size, hs.1.pending_nodup,
      hs.1.pending_active⟩, ⟨hs.2.free_nodup, hs.2.active_nodup, hs.2.disjoint, hs.2.size,
      hs.2.pending_nodup, hs.2.pending_active⟩⟩
  | advanceClock dt => exact hs
  | forceCleanup => simp [Op.isSafe] at ho
  | destroy => simp [Op.isSafe] at ho

theorem Inv.inv_run {s : State} (hs : Inv s) (ops : List Op) (ho : ∀ o ∈ ops, o.isSafe = true) :
    Inv (run ops s) := by
  induction ops generalizing s with
  | nil => exact hs
  | cons o ops ih =>
    simp only [BoroTech.run, List.foldl_cons]
    exact ih (hs.inv_apply o (ho o (List.mem_cons_self o ops)))
      (fun o' ho' => ho o' (List.mem_cons_of_mem o ho'))

theorem Op.isSafe_of_isActivateOrTimeout {o : Op} (h : o.isActivateOrTimeout = true) :
    o.isSafe = true := by
  cases o <;> simp_all [Op.isSafe, Op.isActivateOrTimeout]

theorem initial_sampleState : Initial sampleState :=
  Or.inr ⟨samplePage, fun _ => sampleDraws, fun _ => sampleNavDraws, 0, rfl, rfl, rfl⟩

/-! ## Claims -/

/-- C1. Capacity invariant: from the freshly initialised pools (or from the constructed
instance), after every finite sequence of activate calls and timeout firings (the outer fade
callback and the inner hide-and-recycle callback are such timeouts), the free pool and the
active set of the foreground kind hold 15 tokens together, and those of the navigation kind
hold 8. -/
theorem capacity_invariant (s0 : State) (ops : List Op) (h0 : Initial s0)
    (hops : ∀ o ∈ ops, o.isActivateOrTimeout = true) :
    (run ops s0).particlePool.length + (run ops s0).activeParticles.length = 15 ∧
      (run ops s0).navParticlePool.length + (run ops s0).activeNavParticles.length = 8 := by
  have h := h0.initial_inv.inv_run ops (fun o ho => Op.isSafe_of_isActivateOrTimeout (hops o ho))
  exact ⟨h.1.size, h.2.size⟩

/-- The capacity invariant at a concrete run: two activations, the fade and the recycle of
the first of them, on the freshly created pools. -/
theorem capacity_invariant_witness :
    Initial (freshPools 0) ∧
      (∀ o ∈ [Op.activateParticle sampleDraws, Op.activateNavParticle sampleNavDraws,
          Op.fireTimer 0, Op.fireTimer 1], o.isActivateOrTimeout = true) ∧
      (run [Op.activateParticle sampleDraws, Op.activateNavParticle sampleNavDraws,
          Op.fireTimer 0, Op.fireTimer 1] (freshPools 0)).particlePool.length +
        (run [Op.activateParticle sampleDraws, Op.activateNavParticle sampleNavDraws,
          Op.fireTimer 0, Op.fireTimer 1] (freshPools 0)).activeParticles.length = 15 ∧
      (run [Op.activateParticle sampleDraws, Op.activateNavParticle sampleNavDraws,
          Op.fireTimer 0, Op.fireTimer 1] (freshPools 0)).navParticlePool.length +
        (run [Op.activateParticle sampleDraws, Op.activateNavParticle sampleNavDraws,
          Op.fireTimer 0, Op.fireTimer 1] (freshPools 0)).activeNavParticles.length = 8 :=
  ⟨Or.inl ⟨0, rfl⟩, by simp [Op.isActivateOrTimeout],
    capacity_invariant (freshPools 0) _ (Or.inl ⟨0, rfl⟩) (by simp [Op.isActivateOrTimeout])⟩

/-- C3. No double activation: in every state reached from the initial states by activate
calls, scheduler ticks, timeout firings (release callbacks of both phases included),
visibility flips of isDestroyed and clock advances, the free pool of either kind has no
repeated token and no token that is in the active set; in particular the token that
activateParticle (activateNavParticle) is about to pop is not active. -/
theorem no_double_activation (s0 : State) (ops : List Op) (h0 : Initial s0)
    (hops : ∀ o ∈ ops, o.isSafe = true) :
    (run ops s0).particlePool.Nodup ∧
      (∀ t ∈ (run ops s0).particlePool, t ∉ (run ops s0).activeParticles) ∧
      (∀ t, (run ops s0).particlePool.getLast? = some t → t ∉ (run ops s0).activeParticles) ∧
      (run ops s0).navParticlePool.Nodup ∧
      (∀ t ∈ (run ops s0).navParticlePool, t ∉ (run ops s0).activeNavParticles) ∧
      (∀ t, (run ops s0).navParticlePool.getLast? = some t →
        t ∉ (run ops s0).activeNavParticles) := by
  have h := h0.initial_inv.inv_run ops hops
  refine ⟨h.1.free_nodup, h.1.disjoint, ?_, h.2.free_nodup, h.2.disjoint, ?_⟩
  · intro t ht
    exact h.1.disjoint t (List.mem_of_getLast?_eq_some ht)
  · intro t ht
    exact h.2.disjoint t (List.mem_of_getLast?_eq_some ht)

/-- No double activation at a concrete run from the constructed sample instance: a tick, a
fade, a tab switch away and back, and the recycle. -/
theorem no_double_activation_witness :
    Initial sampleState ∧
      (∀ o ∈ [Op.particleTick (fun _ => sampleDraws), Op.fireTimer 0,
          Op.visibilitychange true, Op.visibilitychange false, Op.fireTimer 9],
        o.isSafe = true) ∧
      (run [Op.particleTick (fun _ => sampleDraws), Op.fireTimer 0,
          Op.visibilitychange true, Op.visibilitychange false, Op.fireTimer 9]
        sampleState).particlePool.Nodup :=
  ⟨initial_sampleState, by simp [Op.isSafe],
    (no_double_activation sampleState _ initial_sampleState (by simp [Op.isSafe])).1⟩

/-- C2. The code at the failing input: on the constructed sample instance the fade callback
of particle 14 fires, forceCleanup runs, the recycle callback of particle 14 fires and one
more particle is activated. Particle 14 is then both in the free pool and in the active set,
and the free pool holds it twice before the activation; the same happens to navigation
particle 22. -/
theorem disjointness_broken_after_forceCleanup :
    14 ∈ (run [Op.fireTimer 0, Op.forceCleanup, Op.fireTimer 6,
        Op.activateParticle sampleDraws] sampleState).particlePool ∧
      14 ∈ (run [Op.fireTimer 0, Op.forceCleanup, Op.fireTimer 6,
        Op.activateParticle sampleDraws] sampleState).activeParticles ∧
      (run [Op.fireTimer 0, Op.forceCleanup, Op.fireTimer 6] sampleState).particlePool =
        [0, 1, 2, 3, 4, 5, 6, 7, 8, 9, 10, 11, 14, 13, 12, 14] ∧
      22 ∈ (run [Op.fireTimer 5, Op.forceCleanup, Op.fireTimer 6,
        Op.activateNavParticle sampleNavDraws] sampleState).navParticlePool ∧
      22 ∈ (run [Op.fireTimer 5, Op.forceCleanup, Op.fireTimer 6,
        Op.activateNavParticle sampleNavDraws] sampleState).activeNavParticles := by
  decide

/-! ## Teardown -/

theorem foldl_removeFromParent_fields (l : List Token) (s : State) :
    (l.foldl removeFromParent s).isDestroyed = s.isDestroyed ∧
      (l.foldl removeFromParent s).particlePool = s.particlePool ∧
      (l.foldl removeFromParent s).navParticlePool = s.navParticlePool ∧
      (l.foldl removeFromParent s).activeParticles = s.activeParticles ∧
      (l.foldl removeFromParent s).activeNavParticles = s.activeNavParticles ∧
      (l.foldl removeFromParent s).particles = s.particles ∧
      (l.foldl removeFromParent s).navParticles = s.navParticles ∧
      (l.foldl removeFromParent s).particleContainer = s.particleContainer := by
  induction l generalizing s with
  | nil => simp
  | cons a l ih =>
    simp only [List.foldl_cons]
    obtain ⟨h1, h2, h3, h4, h5, h6, h7, h8⟩ := ih (removeFromParent s a)
    rw [h1, h2, h3, h4, h5, h6, h7, h8]
    unfold removeFromParent
    split <;> simp

theorem foldl_clearTimeout_fields (l : List Nat) (s : State) :
    (l.foldl (fun st h => clearTimeout h st) s).isDestroyed = s.isDestroyed ∧
      (l.foldl (fun st h => clearTimeout h st) s).particlePool = s.particlePool ∧
      (l.foldl (fun st h => clearTimeout h st) s).navParticlePool = s.navParticlePool ∧
      (l.foldl (fun st h => clearTimeout h st) s).particles = s.particles ∧
      (l.foldl (fun st h => clearTimeout h st) s).navParticles = s.navParticles ∧
      (l.foldl (fun st h => clearTimeout h st) s).navParticleTimers = s.navParticleTimers ∧
      (l.foldl (fun st h => clearTimeout h st) s).particleContainer = s.particleContainer := by
  induction l generalizing s with
  | nil => simp
  | cons a l ih =>
    simp only [List.foldl_cons]
    obtain ⟨h1, h2, h3, h4, h5, h6, h7⟩ := ih (clearTimeout a s)
    rw [h1, h2, h3, h4, h5, h6, h7]
    simp [clearTimeout]

theorem isDestroyed_destroy (s : State) : (destroy s).isDestroyed = true := by
  unfold destroy
  simp only
  split <;> split <;> split <;>
    simp [(foldl_removeFromParent_fields _ _).1, (foldl_clearTimeout_fields _ _).1, clearInterval]

/-! ## The destroyed flag as a guard -/

theorem activateParticle_of_isDestroyed {s : State} (h : s.isDestroyed = true)
    (d : ParticleDraws) : activateParticle d s = s := by
  simp [activateParticle, h]

theorem activateNavParticle_of_isDestroyed {s : State} (h : s.isDestroyed = true)
    (d : NavDraws) : activateNavParticle d s = s := by
  simp [activateNavParticle, h]

theorem activateParticles_of_isDestroyed {s : State} (h : s.isDestroyed = true)
    (ds : Nat → ParticleDraws) : activateParticles ds s = s := by
  simp [activateParticles, h]

theorem activateNavParticles_of_isDestroyed {s : State} (h : s.isDestroyed = true)
    (ds : Nat → NavDraws) : activateNavParticles ds s = s := by
  simp [activateNavParticles, h]

theorem particleFade_of_isDestroyed {s : State} (h : s.isDestroyed = true) (p : Token) :
    particleFade p s = s := by
  simp [particleFade, h]

theorem particleRecycle_of_isDestroyed {s : State} (h : s.isDestroyed = true) (p : Token) :
    particleRecycle p s = s := by
  simp [particleRecycle, h]

theorem navParticleFade_of_isDestroyed {s : State} (h : s.isDestroyed = true) (p : Token) :
    navParticleFade p s = s := by
  simp [navParticleFade, h]

theorem navParticleRecycle_of_isDestroyed {s : State} (h : s.isDestroyed = true) (p : Token) :
    navParticleRecycle p s = s := by
  simp [navParticleRecycle, h]

theorem monitorMemory_of_isDestroyed {s : State} (h : s.isDestroyed = true) :
    monitorMemory s = s := by
  simp [monitorMemory, h]

theorem monitorPerformance_of_isDestroyed {s : State} (h : s.isDestroyed = true) :
    monitorPerformance s = s := by
  simp [monitorPerformance, h]

theorem runCallback_of_isDestroyed {s : State} (h : s.isDestroyed = true) (cb : Callback) :
    runCallback cb s = s := by
  cases cb <;>
    simp [runCallback, particleFade_of_isDestroyed h, particleRecycle_of_isDestroyed h,
      navParticleFade_of_isDestroyed h, navParticleRecycle_of_isDestroyed h,
      monitorMemory_of_isDestroyed h, monitorPerformance_of_isDestroyed h]

theorem fireTimer_of_isDestroyed {s : State} (h : s.isDestroyed = true) (i : Nat) :
    fireTimer i s = { s with timers := s.timers.eraseIdx i } := by
  unfold fireTimer
  split
  · rename_i hget
    have : s.timers.eraseIdx i = s.timers := by
      apply List.eraseIdx_of_length_le
      exact List.get?_eq_none.mp hget
    rw [this]
  · exact runCallback_of_isDestroyed (s := { s with timers := s.timers.eraseIdx i }) h _

theorem fireInterval_of_isDestroyed {s : State} (h : s.isDestroyed = true) (i : Nat)
    (ds : Nat → ParticleDraws) (nds : Nat → NavDraws) : fireInterval i ds nds s = s := by
  unfold fireInterval
  split
  · rfl
  · split
    · exact activateParticles_of_isDestroyed h ds
    · exact activateNavParticles_of_isDestroyed h nds

/-- C4. Post-destroy no-op: in the state `destroy s`, for every state `s`, a call of
activateParticle or activateNavParticle, a scheduler tick of either kind (the closure itself
or an interval firing) and each of the four release closures return the state unchanged
(no pool, no active set, no style, no timer is touched); when the host fires any timeout
that is still pending, only the timer queue loses that entry: both pools, both active sets
and every style stay as they are. -/
theorem post_destroy_noop (s : State) (d : ParticleDraws) (nd : NavDraws)
    (ds : Nat → ParticleDraws) (nds : Nat → NavDraws) (p : Token) (i : Nat) :
    activateParticle d (destroy s) = destroy s ∧
      activateNavParticle nd (destroy s) = destroy s ∧
      activateParticles ds (destroy s) = destroy s ∧
      activateNavParticles nds (destroy s) = destroy s ∧
      fireInterval i ds nds (destroy s) = destroy s ∧
      particleFade p (destroy s) = destroy s ∧
      particleRecycle p (destroy s) = destroy s ∧
      navParticleFade p (destroy s) = destroy s ∧
      navParticleRecycle p (destroy s) = destroy s ∧
      (fireTimer i (destroy s)).particlePool = (destroy s).particlePool ∧
      (fireTimer i (destroy s)).navParticlePool = (destroy s).navParticlePool ∧
      (fireTimer i (destroy s)).activeParticles = (destroy s).activeParticles ∧
      (fireTimer i (destroy s)).activeNavParticles = (destroy s).activeNavParticles ∧
      (fireTimer i (destroy s)).style = (destroy s).style := by
  have h := isDestroyed_destroy s
  refine ⟨activateParticle_of_isDestroyed h d, activateNavParticle_of_isDestroyed h nd,
    activateParticles_of_isDestroyed h ds, activateNavParticles_of_isDestroyed h nds,
    fireInterval_of_isDestroyed h i ds nds, particleFade_of_isDestroyed h p,
    particleRecycle_of_isDestroyed h p, navParticleFade_of_isDestroyed h p,
    navParticleRecycle_of_isDestroyed h p, ?_, ?_, ?_, ?_, ?_⟩ <;>
  rw [fireTimer_of_isDestroyed h i]

/-- C5. Activate is a no-op on a failed precondition: when isDestroyed is true or the free
pool of the kind is empty, activateParticle (activateNavParticle) returns the state as it
was: pools, active sets, styles and the timer queue are unchanged; being a total function
of the state, it raises nothing. -/
theorem activate_noop_on_failed_precondition (s : State) (d : ParticleDraws) (nd : NavDraws) :
    ((s.isDestroyed = true ∨ s.particlePool = []) → activateParticle d s = s) ∧
      ((s.isDestroyed = true ∨ s.navParticlePool = []) → activateNavParticle nd s = s) := by
  constructor
  · rintro (h | h)
    · exact activateParticle_of_isDestroyed h d
    · simp [activateParticle, h]
  · rintro (h | h)
    · exact activateNavParticle_of_isDestroyed h nd
    · simp [activateNavParticle, h]

/-- The no-op of activate at concrete states: the sample instance after the tab was hidden
(isDestroyed true, 12 free tokens) and the bare constructor fields (both pools empty). -/
theorem activate_noop_on_failed_precondition_witness :
    (visibilitychange true sampleState).isDestroyed = true ∧
      activateParticle sampleDraws (visibilitychange true sampleState) =
        visibilitychange true sampleState ∧
      (constructorFields 0).navParticlePool = [] ∧
      activateNavParticle sampleNavDraws (constructorFields 0) = constructorFields 0 :=
  ⟨rfl,
    (activate_noop_on_failed_precondition (visibilitychange true sampleState) sampleDraws
      sampleNavDraws).1 (Or.inl rfl),
    rfl,
    (activate_noop_on_failed_precondition (constructorFields 0) sampleDraws
      sampleNavDraws).2 (Or.inr rfl)⟩

/-- C6, as stated, fails: on the state reached from the constructed sample instance when the
fade callback of particle 12 fires, forceCleanup runs, the recycle callback of particle 12
fires and one particle is activated, isDestroyed is false and the free pool is non-empty
(its last element is 12), yet activateParticle leaves the size of the active set at 1:
particle 12 was already a member. -/
theorem activate_active_size_unchanged :
    (run [Op.fireTimer 2, Op.forceCleanup, Op.fireTimer 6, Op.activateParticle sampleDraws]
        sampleState).isDestroyed = false ∧
      (run [Op.fireTimer 2, Op.forceCleanup, Op.fireTimer 6, Op.activateParticle sampleDraws]
        sampleState).particlePool.getLast? = some 12 ∧
      (run [Op.fireTimer 2, Op.forceCleanup, Op.fireTimer 6, Op.activateParticle sampleDraws]
        sampleState).activeParticles = [12] ∧
      (activateParticle sampleDraws
        (run [Op.fireTimer 2, Op.forceCleanup, Op.fireTimer 6, Op.activateParticle sampleDraws]
          sampleState)).activeParticles.length ≠
        (run [Op.fireTimer 2, Op.forceCleanup, Op.fireTimer 6, Op.activateParticle sampleDraws]
          sampleState).activeParticles.length + 1 := by
  decide

theorem mem_dropLast_iff_of_ne {l : List Token} {t x : Token} (h : l.getLast? = some t)
    (hx : x ≠ t) : x ∈ l.dropLast ↔ x ∈ l := by
  have hl := pool_eq_dropLast_append h
  constructor
  · intro hm
    rw [hl]
    exact List.mem_append_left _ hm
  · intro hm
    rw [hl] at hm
    rcases List.mem_append.mp hm with hm | hm
    · exact hm
    · simp only [List.mem_singleton] at hm
      exact absurd hm hx

theorem length_dropLast_of_getLast {l : List Token} {t : Token} (h : l.getLast? = some t) :
    l.dropLast.length + 1 = l.length := by
  have hl := pool_eq_dropLast_append h
  conv_rhs => rw [hl]
  simp

theorem activateParticle_of_getLast {s : State} {t : Token} (d : ParticleDraws)
    (hd : s.isDestroyed = false) (ht : s.particlePool.getLast? = some t) :
    activateParticle d s =
      setTimeout (Callback.particleFade t)
        (roundDouble (roundDouble (roundDouble (d.duration * 15) + 8) * 1000))
        { s with
          particlePool := s.particlePool.dropLast
          style := setAt s.style t
            { display := Display.block, opacity := some 1, transition := some (1 / 2),
              width := some (roundDouble (roundDouble (d.size * 4) + 2)),
              left := some (roundDouble (d.x * 100)), top := some (roundDouble (d.y * 100)),
              animationDuration := some (roundDouble (roundDouble (d.duration * 15) + 8)),
              backgroundAlpha :=
                some (roundDouble (roundDouble (d.opacity * (1 / 2)) + roundDouble (2 / 10))) }
          activeParticles := setAdd t s.activeParticles } := by
  have hne : s.particlePool ≠ [] := by
    intro h
    rw [h] at ht
    simp at ht
  simp [activateParticle, hd, ht, hne]

theorem activateNavParticle_of_getLast {s : State} {t : Token} (d : NavDraws)
    (hd : s.isDestroyed = false) (ht : s.navParticlePool.getLast? = some t) :
    activateNavParticle d s =
      setTimeout (Callback.navParticleFade t)
        (roundDouble (roundDouble (3 + roundDouble (d.duration * 4)) * 1000))
        { s with
          navParticlePool := s.navParticlePool.dropLast
          style := setAt s.style t
            { display := Display.block, opacity := some (6 / 10), transition := some (3 / 10),
              width := some 2, left := some (roundDouble (d.x * 100)),
              top := some (roundDouble (d.y * 100)),
              animationDuration := some (roundDouble (3 + roundDouble (d.duration * 4))),
              backgroundAlpha := none }
          activeNavParticles := setAdd t s.activeNavParticles } := by
  have hne : s.navParticlePool ≠ [] := by
    intro h
    rw [h] at ht
    simp at ht
  simp [activateNavParticle, hd, ht, hne]

/-- C6, amended. For every state with isDestroyed false whose free pool is non-empty with
last element t, activateParticle (activateNavParticle) removes exactly that last element
(stack pop), adds t to the active set, shows t (display block), appends exactly one timeout
to the queue, the fade callback of t with delay duration * 1000 ms, and leaves the pool
membership, the active membership and the style of every other token unchanged; the free
pool gets shorter by 1, and the active set gets larger by 1 provided t was not already a
member of it. -/
theorem activate_postcondition (s : State) (d : ParticleDraws) (nd : NavDraws) (t : Token) :
    (s.isDestroyed = false → s.particlePool.getLast? = some t →
      (activateParticle d s).particlePool = s.particlePool.dropLast ∧
      s.particlePool = (activateParticle d s).particlePool ++ [t] ∧
      (activateParticle d s).activeParticles = setAdd t s.activeParticles ∧
      t ∈ (activateParticle d s).activeParticles ∧
      ((activateParticle d s).style t).display = Display.block ∧
      (activateParticle d s).timers =
        s.timers ++ [⟨s.nextHandle,
          roundDouble (roundDouble (roundDouble (d.duration * 15) + 8) * 1000),
          Callback.particleFade t⟩] ∧
      (∀ x, x ≠ t →
        (x ∈ (activateParticle d s).particlePool ↔ x ∈ s.particlePool) ∧
        (x ∈ (activateParticle d s).activeParticles ↔ x ∈ s.activeParticles) ∧
        (activateParticle d s).style x = s.style x) ∧
      (activateParticle d s).particlePool.length + 1 = s.particlePool.length ∧
      (t ∉ s.activeParticles →
        (activateParticle d s).activeParticles.length = s.activeParticles.length + 1)) ∧
    (s.isDestroyed = false → s.navParticlePool.getLast? = some t →
      (activateNavParticle nd s).navParticlePool = s.navParticlePool.dropLast ∧
      s.navParticlePool = (activateNavParticle nd s).navParticlePool ++ [t] ∧
      (activateNavParticle nd s).activeNavParticles = setAdd t s.activeNavParticles ∧
      t ∈ (activateNavParticle nd s).activeNavParticles ∧
      ((activateNavParticle nd s).style t).display = Display.block ∧
      (activateNavParticle nd s).timers =
        s.timers ++ [⟨s.nextHandle,
          roundDouble (roundDouble (3 + roundDouble (nd.duration * 4)) * 1000),
          Callback.navParticleFade t⟩] ∧
      (∀ x, x ≠ t →
        (x ∈ (activateNavParticle nd s).navParticlePool ↔ x ∈ s.navParticlePool) ∧
        (x ∈ (activateNavParticle nd s).activeNavParticles ↔ x ∈ s.activeNavParticles) ∧
        (activateNavParticle nd s).style x = s.style x) ∧
      (activateNavParticle nd s).navParticlePool.length + 1 = s.navParticlePool.length ∧
      (t ∉ s.activeNavParticles →
        (activateNavParticle nd s).activeNavParticles.length =
          s.activeNavParticles.length + 1)) := by
  constructor
  · intro hd ht
    rw [activateParticle_of_getLast d hd ht]
    refine ⟨rfl, pool_eq_dropLast_append ht, rfl, mem_setAdd.mpr (Or.inl rfl), ?_, rfl, ?_,
      length_dropLast_of_getLast ht, fun h => length_setAdd_of_not_mem h⟩
    · simp [setTimeout, setAt]
    · intro x hx
      refine ⟨mem_dropLast_iff_of_ne ht hx, ?_, ?_⟩
      · simp [setTimeout, mem_setAdd, hx]
      · simp [setTimeout, setAt, hx]
  · intro hd ht
    rw [activateNavParticle_of_getLast nd hd ht]
    refine ⟨rfl, pool_eq_dropLast_append ht, rfl, mem_setAdd.mpr (Or.inl rfl), ?_, rfl, ?_,
      length_dropLast_of_getLast ht, fun h => length_setAdd_of_not_mem h⟩
    · simp [setTimeout, setAt]
    · intro x hx
      refine ⟨mem_dropLast_iff_of_ne ht hx, ?_, ?_⟩
      · simp [setTimeout, mem_setAdd, hx]
      · simp [setTimeout, setAt, hx]

/-- The activate postcondition on the constructed sample instance: the foreground pool ends
with token 11 and the navigation pool with token 20. -/
theorem activate_postcondition_witness :
    sampleState.isDestroyed = false ∧ sampleState.particlePool.getLast? = some 11 ∧
      (activateParticle sampleDraws sampleState).particlePool.length + 1 =
        sampleState.particlePool.length ∧
      (activateParticle sampleDraws sampleState).activeParticles.length =
        sampleState.activeParticles.length + 1 ∧
      sampleState.navParticlePool.getLast? = some 20 ∧
      (activateNavParticle sampleNavDraws sampleState).navParticlePool.length + 1 =
        sampleState.navParticlePool.length :=
  ⟨rfl, by decide,
    ((activate_postcondition sampleState sampleDraws sampleNavDraws 11).1 rfl
      (by decide)).2.2.2.2.2.2.2.1,
    ((activate_postcondition sampleState sampleDraws sampleNavDraws 11).1 rfl
      (by decide)).2.2.2.2.2.2.2.2 (by decide),
    by decide,
    ((activate_postcondition sampleState sampleDraws sampleNavDraws 20).2 rfl
      (by decide)).2.2.2.2.2.2.2.1⟩

theorem particleFade_of_mem {s : State} {t : Token} (hd : s.isDestroyed = false)
    (ha : t ∈ s.activeParticles) :
    particleFade t s =
      setTimeout (Callback.particleRecycle t) 500
        { s with
          style := setAt s.style t
            { s.style t with transition := some (1 / 2), opacity := some 0 } } := by
  simp [particleFade, hd, ha]

theorem navParticleFade_of_mem {s : State} {t : Token} (hd : s.isDestroyed = false)
    (ha : t ∈ s.activeNavParticles) :
    navParticleFade t s =
      setTimeout (Callback.navParticleRecycle t) 300
        { s with
          style := setAt s.style t
            { s.style t with transition := some (3 / 10), opacity := some 0 } } := by
  simp [navParticleFade, hd, ha]

theorem particleFade_of_not_mem {s : State} {t : Token} (ha : t ∉ s.activeParticles) :
    particleFade t s = s := by
  simp [particleFade, ha]

theorem navParticleFade_of_not_mem {s : State} {t : Token} (ha : t ∉ s.activeNavParticles) :
    navParticleFade t s = s := by
  simp [navParticleFade, ha]

theorem particleRecycle_of_live {s : State} (t : Token) (hd : s.isDestroyed = false) :
    particleRecycle t s =
      { s with
        style := setAt s.style t { s.style t with display := Display.none, transition := none }
        activeParticles := setDelete t s.activeParticles
        particlePool := s.particlePool ++ [t] } := by
  simp [particleRecycle, hd]

theorem navParticleRecycle_of_live {s : State} (t : Token) (hd : s.isDestroyed = false) :
    navParticleRecycle t s =
      { s with
        style := setAt s.style t { s.style t with display := Display.none, transition := none }
        activeNavParticles := setDelete t s.activeNavParticles
        navParticlePool := s.navParticlePool ++ [t] } := by
  simp [navParticleRecycle, hd]

/-- C7. Two-phase release: for a token t of the active set and isDestroyed false, the outer
release callback sets the opacity of t to 0, changes neither the active set (t stays in it)
nor the free pool (t stays out of it if it was out), and appends exactly one timeout to the
queue, the inner callback of t with delay 500 ms (foreground) or 300 ms (navigation); the
inner callback, run in any state with isDestroyed false, hides t (display none), removes t
from the active set and pushes t onto the end of the free pool. -/
theorem two_phase_release (s s2 : State) (t : Token) :
    (s.isDestroyed = false → t ∈ s.activeParticles →
      ((particleFade t s).style t).opacity = some 0 ∧
      (particleFade t s).activeParticles = s.activeParticles ∧
      t ∈ (particleFade t s).activeParticles ∧
      (particleFade t s).particlePool = s.particlePool ∧
      (t ∉ s.particlePool → t ∉ (particleFade t s).particlePool) ∧
      (particleFade t s).timers = s.timers ++ [⟨s.nextHandle, 500, Callback.particleRecycle t⟩]) ∧
    (s2.isDestroyed = false →
      ((particleRecycle t s2).style t).display = Display.none ∧
      t ∉ (particleRecycle t s2).activeParticles ∧
      (particleRecycle t s2).activeParticles = setDelete t s2.activeParticles ∧
      (particleRecycle t s2).particlePool = s2.particlePool ++ [t] ∧
      (particleRecycle t s2).timers = s2.timers) ∧
    (s.isDestroyed = false → t ∈ s.activeNavParticles →
      ((navParticleFade t s).style t).opacity = some 0 ∧
      (navParticleFade t s).activeNavParticles = s.activeNavParticles ∧
      t ∈ (navParticleFade t s).activeNavParticles ∧
      (navParticleFade t s).navParticlePool = s.navParticlePool ∧
      (t ∉ s.navParticlePool → t ∉ (navParticleFade t s).navParticlePool) ∧
      (navParticleFade t s).timers =
        s.timers ++ [⟨s.nextHandle, 300, Callback.navParticleRecycle t⟩]) ∧
    (s2.isDestroyed = false →
      ((navParticleRecycle t s2).style t).display = Display.none ∧
      t ∉ (navParticleRecycle t s2).activeNavParticles ∧
      (navParticleRecycle t s2).activeNavParticles = setDelete t s2.activeNavParticles ∧
      (navParticleRecycle t s2).navParticlePool = s2.navParticlePool ++ [t] ∧
      (navParticleRecycle t s2).timers = s2.timers) := by
  refine ⟨?_, ?_, ?_, ?_⟩
  · intro hd ha
    rw [particleFade_of_mem hd ha]
    exact ⟨by simp [setTimeout, setAt], rfl, ha, rfl, fun h => h, rfl⟩
  · intro hd
    rw [particleRecycle_of_live t hd]
    exact ⟨by simp [setAt], by simp [mem_setDelete], rfl, rfl, rfl⟩
  · intro hd ha
    rw [navParticleFade_of_mem hd ha]
    exact ⟨by simp [setTimeout, setAt], rfl, ha, rfl, fun h => h, rfl⟩
  · intro hd
    rw [navParticleRecycle_of_live t hd]
    exact ⟨by simp [setAt], by simp [mem_setDelete], rfl, rfl, rfl⟩

/-- The two-phase release of particle 14 on the constructed sample instance: after the fade
the particle is still active and one recycle timeout is pending; after the recycle it is the
last element of the free pool. -/
theorem two_phase_release_witness :
    sampleState.isDestroyed = false ∧ 14 ∈ sampleState.activeParticles ∧
      14 ∈ (particleFade 14 sampleState).activeParticles ∧
      (particleRecycle 14 (particleFade 14 sampleState)).particlePool =
        (particleFade 14 sampleState).particlePool ++ [14] ∧
      22 ∈ sampleState.activeNavParticles ∧
      22 ∈ (navParticleFade 22 sampleState).activeNavParticles ∧
      (navParticleRecycle 22 (navParticleFade 22 sampleState)).navParticlePool =
        (navParticleFade 22 sampleState).navParticlePool ++ [22] :=
  ⟨rfl, by decide,
    ((two_phase_release sampleState (particleFade 14 sampleState) 14).1 rfl (by decide)).2.2.1,
    ((two_phase_release sampleState (particleFade 14 sampleState) 14).2.1 (by decide)).2.2.2.1,
    by decide,
    ((two_phase_release sampleState (navParticleFade 22 sampleState) 22).2.2.1 rfl
      (by decide)).2.2.1,
    ((two_phase_release sampleState (navParticleFade 22 sampleState) 22).2.2.2
      (by decide)).2.2.2.1⟩

/-- C8. The code at the failing input: on the constructed sample instance the fade callback
of particle 14 fires and forceCleanup recycles the particle. Particle 14 is then not in the
active set and is once in the free pool; the outer callback of particle 14 would change
nothing, but its pending inner callback pushes particle 14 onto the free pool a second time.
The inner callback of navigation particle 22 does the same. -/
theorem recycle_of_inactive_token_pushes :
    14 ∉ (run [Op.fireTimer 0, Op.forceCleanup] sampleState).activeParticles ∧
      (run [Op.fireTimer 0, Op.forceCleanup] sampleState).isDestroyed = false ∧
      (run [Op.fireTimer 0, Op.forceCleanup] sampleState).particlePool =
        [0, 1, 2, 3, 4, 5, 6, 7, 8, 9, 10, 11, 14, 13, 12] ∧
      (particleFade 14 (run [Op.fireTimer 0, Op.forceCleanup] sampleState)).particlePool =
        [0, 1, 2, 3, 4, 5, 6, 7, 8, 9, 10, 11, 14, 13, 12] ∧
      (particleRecycle 14 (run [Op.fireTimer 0, Op.forceCleanup] sampleState)).particlePool =
        [0, 1, 2, 3, 4, 5, 6, 7, 8, 9, 10, 11, 14, 13, 12, 14] ∧
      (fireTimer 6 (run [Op.fireTimer 0, Op.forceCleanup] sampleState)).particlePool =
        [0, 1, 2, 3, 4, 5, 6, 7, 8, 9, 10, 11, 14, 13, 12, 14] ∧
      22 ∉ (run [Op.fireTimer 5, Op.forceCleanup] sampleState).activeNavParticles ∧
      (navParticleRecycle 22
        (run [Op.fireTimer 5, Op.forceCleanup] sampleState)).navParticlePool =
        [15, 16, 17, 18, 19, 20, 22, 21, 22] := by
  decide

/-! ## The scheduler tick -/

/-- The loop of a foreground tick, for a number of rounds that does not exceed the free
pool: every round pops one token and appends one timeout. -/
theorem foldl_activateParticle_fields (ds : Nat → ParticleDraws) (l : List Nat) (s : State)
    (hd : s.isDestroyed = false) (hl : l.length ≤ s.particlePool.length) :
    (l.foldl (fun st i => activateParticle (ds i) st) s).isDestroyed = false ∧
      (l.foldl (fun st i => activateParticle (ds i) st) s).particlePool =
        s.particlePool.take (s.particlePool.length - l.length) ∧
      (l.foldl (fun st i => activateParticle (ds i) st) s).timers.length =
        s.timers.length + l.length := by
  induction l generalizing s with
  | nil => simp [hd]
  | cons i l ih =>
    simp only [List.length_cons] at hl
    have hne : s.particlePool ≠ [] := by
      intro h
      rw [h] at hl
      simp at hl
    obtain ⟨t, ht⟩ : ∃ t, s.particlePool.getLast? = some t := by
      cases h : s.particlePool.getLast? with
      | none => exact absurd (List.getLast?_eq_none_iff.mp h) hne
      | some t => exact ⟨t, rfl⟩
    have hs1 := activateParticle_of_getLast (ds i) hd ht
    have hlen := length_dropLast_of_getLast ht
    have hd1 : (activateParticle (ds i) s).isDestroyed = false := by rw [hs1]; exact hd
    have hp1 : (activateParticle (ds i) s).particlePool = s.particlePool.dropLast := by
      rw [hs1]; rfl
    have ht1 : (activateParticle (ds i) s).timers.length = s.timers.length + 1 := by
      rw [hs1]; simp [setTimeout]
    have hl1 : l.length ≤ (activateParticle (ds i) s).particlePool.length := by
      rw [hp1]; omega
    obtain ⟨a, b, c⟩ := ih (activateParticle (ds i) s) hd1 hl1
    simp only [List.foldl_cons, List.length_cons]
    refine ⟨a, ?_, by rw [c, ht1]; omega⟩
    rw [b, hp1, List.dropLast_eq_take, List.take_take]
    congr 1
    simp only [List.length_take]
    omega

theorem foldl_activateNavParticle_fields (ds : Nat → NavDraws) (l : List Nat) (s : State)
    (hd : s.isDestroyed = false) (hl : l.length ≤ s.navParticlePool.length) :
    (l.foldl (fun st i => activateNavParticle (ds i) st) s).isDestroyed = false ∧
      (l.foldl (fun st i => activateNavParticle (ds i) st) s).navParticlePool =
        s.navParticlePool.take (s.navParticlePool.length - l.length) ∧
      (l.foldl (fun st i => activateNavParticle (ds i) st) s).timers.length =
        s.timers.length + l.length := by
  induction l generalizing s with
  | nil => simp [hd]
  | cons i l ih =>
    simp only [List.length_cons] at hl
    have hne : s.navParticlePool ≠ [] := by
      intro h
      rw [h] at hl
      simp at hl
    obtain ⟨t, ht⟩ : ∃ t, s.navParticlePool.getLast? = some t := by
      cases h : s.navParticlePool.getLast? with
      | none => exact absurd (List.getLast?_eq_none_iff.mp h) hne
      | some t => exact ⟨t, rfl⟩
    have hs1 := activateNavParticle_of_getLast (ds i) hd ht
    have hlen := length_dropLast_of_getLast ht
    have hd1 : (activateNavParticle (ds i) s).isDestroyed = false := by rw [hs1]; exact hd
    have hp1 : (activateNavParticle (ds i) s).navParticlePool = s.navParticlePool.dropLast := by
      rw [hs1]; rfl
    have ht1 : (activateNavParticle (ds i) s).timers.length = s.timers.length + 1 := by
      rw [hs1]; simp [setTimeout]
    have hl1 : l.length ≤ (activateNavParticle (ds i) s).navParticlePool.length := by
      rw [hp1]; omega
    obtain ⟨a, b, c⟩ := ih (activateNavParticle (ds i) s) hd1 hl1
    simp only [List.foldl_cons, List.length_cons]
    refine ⟨a, ?_, by rw [c, ht1]; omega⟩
    rw [b, hp1, List.dropLast_eq_take, List.take_take]
    congr 1
    simp only [List.length_take]
    omega

/-- C10. Batch cap: with isDestroyed false, one scheduler tick is the loop that calls
activateParticle exactly min(3, free) times (activateNavParticle exactly min(2, free) times
for the navigation pool), free being the length of the free pool when the tick starts; that
number never exceeds free; every one of these calls is made with isDestroyed false and a
non-empty free pool, so it succeeds; and the tick pops exactly that many tokens from the end
of the free pool and adds exactly that many timeouts. -/
theorem batch_cap (s : State) (ds : Nat → ParticleDraws) (nds : Nat → NavDraws)
    (hd : s.isDestroyed = false) :
    (activateParticles ds s =
        (List.range (min 3 s.particlePool.length)).foldl
          (fun st i => activateParticle (ds i) st) s ∧
      min 3 s.particlePool.length ≤ s.particlePool.length ∧
      (∀ i, i < min 3 s.particlePool.length →
        ((List.range i).foldl (fun st j => activateParticle (ds j) st) s).isDestroyed = false ∧
        ((List.range i).foldl (fun st j => activateParticle (ds j) st) s).particlePool ≠ []) ∧
      (activateParticles ds s).particlePool =
        s.particlePool.take (s.particlePool.length - min 3 s.particlePool.length) ∧
      (activateParticles ds s).particlePool.length + min 3 s.particlePool.length =
        s.particlePool.length ∧
      (activateParticles ds s).timers.length =
        s.timers.length + min 3 s.particlePool.length) ∧
    (activateNavParticles nds s =
        (List.range (min 2 s.navParticlePool.length)).foldl
          (fun st i => activateNavParticle (nds i) st) s ∧
      min 2 s.navParticlePool.length ≤ s.navParticlePool.length ∧
      (∀ i, i < min 2 s.navParticlePool.length →
        ((List.range i).foldl
          (fun st j => activateNavParticle (nds j) st) s).isDestroyed = false ∧
        ((List.range i).foldl
          (fun st j => activateNavParticle (nds j) st) s).navParticlePool ≠ []) ∧
      (activateNavParticles nds s).navParticlePool =
        s.navParticlePool.take (s.navParticlePool.length - min 2 s.navParticlePool.length) ∧
      (activateNavParticles nds s).navParticlePool.length + min 2 s.navParticlePool.length =
        s.navParticlePool.length ∧
      (activateNavParticles nds s).timers.length =
        s.timers.length + min 2 s.navParticlePool.length) := by
  constructor
  · have hdef : activateParticles ds s =
        (List.range (min 3 s.particlePool.length)).foldl
          (fun st i => activateParticle (ds i) st) s := by
      simp [activateParticles, hd]
    have hmin : min 3 s.particlePool.length ≤ s.particlePool.length := Nat.min_le_right _ _
    obtain ⟨-, b, c⟩ := foldl_activateParticle_fields ds
      (List.range (min 3 s.particlePool.length)) s hd (by simp)
    simp only [List.length_range] at b c
    refine ⟨hdef, hmin, ?_, by rw [hdef, b], ?_, by rw [hdef, c]⟩
    · intro i hi
      obtain ⟨a', b', -⟩ := foldl_activateParticle_fields ds (List.range i) s hd
        (by simp only [List.length_range]; omega)
      refine ⟨a', ?_⟩
      rw [b']
      intro h
      have := congrArg List.length h
      simp only [List.length_take, List.length_range, List.length_nil] at this
      omega
    · rw [hdef, b]
      simp only [List.length_take]
      omega
  · have hdef : activateNavParticles nds s =
        (List.range (min 2 s.navParticlePool.length)).foldl
          (fun st i => activateNavParticle (nds i) st) s := by
      simp [activateNavParticles, hd]
    have hmin : min 2 s.navParticlePool.length ≤ s.navParticlePool.length :=
      Nat.min_le_right _ _
    obtain ⟨-, b, c⟩ := foldl_activateNavParticle_fields nds
      (List.range (min 2 s.navParticlePool.length)) s hd (by simp)
    simp only [List.length_range] at b c
    refine ⟨hdef, hmin, ?_, by rw [hdef, b], ?_, by rw [hdef, c]⟩
    · intro i hi
      obtain ⟨a', b', -⟩ := foldl_activateNavParticle_fields nds (List.range i) s hd
        (by simp only [List.length_range]; omega)
      refine ⟨a', ?_⟩
      rw [b']
      intro h
      have := congrArg List.length h
      simp only [List.length_take, List.length_range, List.length_nil] at this
      omega
    · rw [hdef, b]
      simp only [List.length_take]
      omega

/-- The batch cap on a pool of 15 with 2 free tokens: the tick activates 2, not 3, and
empties the free pool. -/
theorem batch_cap_witness :
    twoFreeState.isDestroyed = false ∧ twoFreeState.particlePool.length = 2 ∧
      min 3 twoFreeState.particlePool.length = 2 ∧
      (activateParticles (fun _ => sampleDraws) twoFreeState).particlePool.length +
        min 3 twoFreeState.particlePool.length = twoFreeState.particlePool.length ∧
      (activateParticles (fun _ => sampleDraws) twoFreeState).timers.length =
        twoFreeState.timers.length + min 3 twoFreeState.particlePool.length :=
  ⟨by decide, by decide, by decide,
    (batch_cap twoFreeState (fun _ => sampleDraws) (fun _ => sampleNavDraws)
      (by decide)).1.2.2.2.2.1,
    (batch_cap twoFreeState (fun _ => sampleDraws) (fun _ => sampleNavDraws)
      (by decide)).1.2.2.2.2.2⟩

/-! ## The round trip -/

theorem ViewStep.destroyed_eq {v w : PoolView} (h : ViewStep v w) :
    w.destroyed = v.destroyed := by
  cases h <;> rfl

theorem perm_cons_setDelete {t : Token} {l : List Token} (hn : l.Nodup) (ht : t ∈ l) :
    l.Perm (t :: setDelete t l) := by
  have h1 : setDelete t l = l.erase t := by
    unfold setDelete
    rw [hn.erase_eq_filter]
  rw [h1]
  exact List.perm_cons_erase ht

theorem PoolView.Live.live_step {v w : PoolView} {cap : Nat} {tokens : List Token}
    (hv : v.Live cap tokens) (h : ViewStep v w) : w.Live cap tokens := by
  obtain ⟨wf, live, cov, perm⟩ := hv
  refine ⟨wf.wf_step h, by rw [h.destroyed_eq]; exact live, ?_, ?_⟩
  · cases h with
    | activate f t h =>
      intro x hx
      rcases mem_setAdd.mp hx with rfl | hx
      · simp
      · have := cov x hx
        simp only [List.mem_append] at this ⊢
        rcases this with h1 | h1
        · exact Or.inl (Or.inl h1)
        · exact Or.inr h1
    | fade t p h ha =>
      intro x hx
      have := cov x hx
      simp only [List.mem_append, List.mem_singleton] at this ⊢
      rcases this with h1 | h1
      · rcases List.mem_cons.mp (h.mem_iff.mp h1) with rfl | h2
        · exact Or.inr (Or.inr rfl)
        · exact Or.inl h2
      · exact Or.inr (Or.inl h1)
    | dropFade t p h hc =>
      exfalso
      rcases hc with hc | hc
      · rw [live] at hc; exact Bool.false_ne_true hc
      · exact hc (wf.pending_active t
          (List.mem_append.mpr (Or.inl (h.mem_iff.mpr (List.mem_cons_self t p)))))
    | dropRecycle t p h hc =>
      exfalso
      rw [live] at hc; exact Bool.false_ne_true hc
    | recycle t p h =>
      intro x hx
      obtain ⟨hxa, hxt⟩ := mem_setDelete.mp hx
      have := cov x hxa
      simp only [List.mem_append] at this ⊢
      rcases this with h1 | h1
      · exact Or.inl h1
      · rcases List.mem_cons.mp (h.mem_iff.mp h1) with h2 | h2
        · exact absurd h2 hxt
        · exact Or.inr h2
  · refine List.Perm.trans ?_ perm
    cases h with
    | activate f t h =>
      have hta : t ∉ v.active := wf.disjoint t (by rw [h]; simp)
      simp only [setAdd, hta, if_false]
      rw [h]
      simp only [List.append_assoc]
      exact List.Perm.append_left f List.perm_append_comm
    | fade t p h ha => exact List.Perm.refl _
    | dropFade t p h hc => exact List.Perm.refl _
    | dropRecycle t p h hc => exact List.Perm.refl _
    | recycle t p h =>
      have hta : t ∈ v.active :=
        wf.pending_active t (List.mem_append.mpr (Or.inr (h.mem_iff.mpr
          (List.mem_cons_self t p))))
      have h1 := perm_cons_setDelete wf.active_nodup hta
      simp only [List.append_assoc, List.singleton_append]
      exact List.Perm.append_left v.free h1.symm

theorem PoolView.Live.live_steps {v w : PoolView} {cap : Nat} {tokens : List Token}
    (hv : v.Live cap tokens) (h : ViewSteps v w) : w.Live cap tokens := by
  induction h with
  | refl => exact hv
  | tail _ hstep ih => exact ih.live_step hstep

theorem LiveState.live_inv {s : State} (h : LiveState s) : Inv s := ⟨h.1.wf, h.2⟩

theorem liveState_freshPools (now : ℤ) : LiveState (freshPools now) := by
  have hinv := inv_freshPools now
  refine ⟨⟨hinv.1, ?_, ?_, ?_⟩, hinv.2⟩
  · unfold freshPools
    obtain ⟨-, -, -, -, -, a6⟩ := initParticleSystemPool_views (constructorFields now)
    obtain ⟨-, -, -, -, -, b6⟩ :=
      createNavigationParticlesPool_views (initParticleSystemPool (constructorFields now))
    simp only [particleView]
    rw [b6, a6]
    rfl
  · unfold freshPools
    obtain ⟨-, a2, -, -, -, -⟩ := initParticleSystemPool_views (constructorFields now)
    obtain ⟨-, -, -, -, b5, -⟩ :=
      createNavigationParticlesPool_views (initParticleSystemPool (constructorFields now))
    intro t ht
    rw [b5, a2] at ht
    simp at ht
  · unfold freshPools
    obtain ⟨a1, a2, -, -, -, -⟩ := initParticleSystemPool_views (constructorFields now)
    obtain ⟨-, -, -, -, b5, -⟩ :=
      createNavigationParticlesPool_views (initParticleSystemPool (constructorFields now))
    rw [b5, a1, a2]
    have : (constructorFields now).nextToken = 0 := rfl
    rw [this, List.append_nil, List.range_eq_range']

theorem LiveState.live_activateParticle {s : State} (h : LiveState s) (d : ParticleDraws) :
    LiveState (activateParticle d s) := by
  refine ⟨h.1.live_steps (viewSteps_of_eq_or_step (particleView_activateParticle d s)), ?_⟩
  rw [navView_activateParticle]
  exact h.2

theorem LiveState.live_fireTimer {s : State} (h : LiveState s) (i : Nat) :
    LiveState (fireTimer i s) := by
  obtain ⟨h1, h2⟩ := fireTimer_views i s h.live_inv.inv_belowMarks
  exact ⟨h.1.live_steps h1, h.2.wf_steps h2⟩

theorem LiveState.live_activateTimes {s : State} (h : LiveState s) (ds : Nat → ParticleDraws)
    (k : Nat) : LiveState (activateTimes ds k s) := by
  unfold BoroTech.activateTimes
  generalize List.range k = l
  induction l generalizing s with
  | nil => exact h
  | cons i l ih => exact ih (h.live_activateParticle (ds i))

theorem LiveState.live_fireTimers {s : State} (h : LiveState s) (is : List Nat) :
    LiveState (fireTimers is s) := by
  unfold BoroTech.fireTimers
  induction is generalizing s with
  | nil => exact h
  | cons i l ih => exact ih (h.live_fireTimer i)

theorem foldl_activateParticle_work (ds : Nat → ParticleDraws) (l : List Nat) (s : State)
    (hd : s.isDestroyed = false) (hl : l.length ≤ s.particlePool.length)
    (ho : OnlyParticleRelease s) :
    pendingWork (l.foldl (fun st i => activateParticle (ds i) st) s) =
        pendingWork s + 2 * l.length ∧
      OnlyParticleRelease (l.foldl (fun st i => activateParticle (ds i) st) s) := by
  induction l generalizing s with
  | nil => exact ⟨rfl, ho⟩
  | cons i l ih =>
    simp only [List.length_cons] at hl
    have hne : s.particlePool ≠ [] := by
      intro h
      rw [h] at hl
      simp at hl
    obtain ⟨t, ht⟩ : ∃ t, s.particlePool.getLast? = some t := by
      cases h : s.particlePool.getLast? with
      | none => exact absurd (List.getLast?_eq_none_iff.mp h) hne
      | some t => exact ⟨t, rfl⟩
    have hs1 := activateParticle_of_getLast (ds i) hd ht
    have hlen := length_dropLast_of_getLast ht
    have hd1 : (activateParticle (ds i) s).isDestroyed = false := by rw [hs1]; exact hd
    have hl1 : l.length ≤ (activateParticle (ds i) s).particlePool.length := by
      have : (activateParticle (ds i) s).particlePool = s.particlePool.dropLast := by
        rw [hs1]; rfl
      rw [this]; omega
    have hw1 : pendingWork (activateParticle (ds i) s) = pendingWork s + 2 := by
      rw [hs1]; simp [pendingWork, setTimeout, releaseWeight]
    have ho1 : OnlyParticleRelease (activateParticle (ds i) s) := by
      rw [hs1]
      intro tm htm
      simp only [setTimeout, List.mem_append, List.mem_singleton] at htm
      rcases htm with htm | rfl
      · exact ho tm htm
      · simp [releaseWeight]
    obtain ⟨a, b⟩ := ih (activateParticle (ds i) s) hd1 hl1 ho1
    simp only [List.foldl_cons, List.length_cons]
    exact ⟨by rw [a, hw1]; omega, b⟩

theorem mem_fading_of_head {s : State} {tm : Timer} {rest : List Timer} {p : Token}
    (ht : s.timers = tm :: rest) (hcb : tm.callback = Callback.particleFade p) :
    p ∈ (particleView s).fading ++ (particleView s).recycling := by
  apply List.mem_append_left
  simp only [particleView, ht, List.filterMap_cons, particleFadeOf, hcb]
  exact List.mem_cons_self p _

/-- Firing the head of the queue of a live instance whose pending timeouts are all
foreground release callbacks runs exactly one of them. -/
theorem fireTimer_head_work {s : State} {tm : Timer} {rest : List Timer} (h : LiveState s)
    (ho : OnlyParticleRelease s) (ht : s.timers = tm :: rest) :
    pendingWork (fireTimer 0 s) + 1 = pendingWork s ∧ OnlyParticleRelease (fireTimer 0 s) := by
  have hd : s.isDestroyed = false := h.1.live
  have hrest : ∀ x ∈ rest, 0 < releaseWeight x := fun x hx =>
    ho x (by rw [ht]; exact List.mem_cons_of_mem tm hx)
  have hfire : fireTimer 0 s = runCallback tm.callback { s with timers := rest } := by
    simp [fireTimer, ht]
  rw [hfire]
  cases hcb : tm.callback with
  | particleFade p =>
    have hp : p ∈ s.activeParticles := h.1.wf.pending_active p (mem_fading_of_head ht hcb)
    have hw : releaseWeight tm = 2 := by simp [releaseWeight, hcb]
    simp only [runCallback]
    rw [particleFade_of_mem (s := { s with timers := rest }) hd hp]
    constructor
    · simp [pendingWork, setTimeout, releaseWeight, ht, hcb]
      omega
    · intro x hx
      simp only [setTimeout, List.mem_append, List.mem_singleton] at hx
      rcases hx with hx | rfl
      · exact hrest x hx
      · simp [releaseWeight]
  | particleRecycle p =>
    simp only [runCallback]
    rw [particleRecycle_of_live (s := { s with timers := rest }) p hd]
    constructor
    · simp [pendingWork, releaseWeight, ht, hcb]
      omega
    · intro x hx
      exact hrest x hx
  | navParticleFade p =>
    have := ho tm (by rw [ht]; exact List.mem_cons_self tm rest)
    simp [releaseWeight, hcb] at this
  | navParticleRecycle p =>
    have := ho tm (by rw [ht]; exact List.mem_cons_self tm rest)
    simp [releaseWeight, hcb] at this
  | monitorMemory =>
    have := ho tm (by rw [ht]; exact List.mem_cons_self tm rest)
    simp [releaseWeight, hcb] at this
  | monitorPerformance =>
    have := ho tm (by rw [ht]; exact List.mem_cons_self tm rest)
    simp [releaseWeight, hcb] at this

/-- Firing the head of the queue as often as there are callbacks to run empties the queue. -/
theorem fireTimers_head_drains (n : Nat) (s : State) (h : LiveState s)
    (ho : OnlyParticleRelease s) (hw : pendingWork s = n) :
    (fireTimers (List.replicate n 0) s).timers = [] := by
  induction n generalizing s with
  | zero =>
    simp only [List.replicate_zero, fireTimers, List.foldl_nil]
    cases ht : s.timers with
    | nil => rfl
    | cons tm rest =>
      exfalso
      have h1 := ho tm (by rw [ht]; exact List.mem_cons_self tm rest)
      simp only [pendingWork, ht, List.map_cons, List.sum_cons] at hw
      omega
  | succ n ih =>
    cases ht : s.timers with
    | nil =>
      exfalso
      simp [pendingWork, ht] at hw
    | cons tm rest =>
      obtain ⟨h1, h2⟩ := fireTimer_head_work h ho ht
      have := ih (fireTimer 0 s) (h.live_fireTimer 0) h2 (by omega)
      simpa [fireTimers, List.replicate_succ] using this

theorem fireTimer_fade_active {s : State} (h : LiveState s) {i : Nat} {tm : Timer} {t : Token}
    (hget : s.timers.get? i = some tm) (hcb : tm.callback = Callback.particleFade t) :
    t ∈ s.activeParticles ∧ (fireTimer i s).activeParticles = s.activeParticles := by
  have hmem : t ∈ s.activeParticles := by
    apply h.1.wf.pending_active t
    apply List.mem_append_left
    simp only [particleView, List.mem_filterMap]
    exact ⟨tm, List.get?_mem hget, by simp [particleFadeOf, hcb]⟩
  refine ⟨hmem, ?_⟩
  have hd : s.isDestroyed = false := h.1.live
  simp only [fireTimer, hget, hcb, runCallback]
  rw [particleFade_of_mem (s := { s with timers := s.timers.eraseIdx i }) hd hmem]
  rfl

theorem timers_freshPools (now : ℤ) : (freshPools now).timers = [] := by
  have h1 : ∀ s : State, (initParticleSystemPool s).timers = s.timers := by
    intro s
    unfold initParticleSystemPool
    exact (iterate_createParticlePool 15 _).2.2.2.1
  have h2 : ∀ s : State, (createNavigationParticlesPool s).timers = s.timers := by
    intro s
    unfold createNavigationParticlesPool
    exact (iterate_createNavParticlePool 8 _).2.2.2.1
  unfold freshPools
  rw [h2, h1]
  rfl

theorem onlyParticleRelease_freshPools (now : ℤ) : OnlyParticleRelease (freshPools now) := by
  unfold OnlyParticleRelease
  rw [timers_freshPools]
  intro tm htm
  simp at htm

theorem length_particlePool_freshPools (now : ℤ) :
    (freshPools now).particlePool.length = 15 := by
  have hfresh := liveState_freshPools now
  have := hfresh.1.wf.size
  have ha : (particleView (freshPools now)).active = [] := by
    unfold freshPools
    obtain ⟨-, a2, -, -, -, -⟩ := initParticleSystemPool_views (constructorFields now)
    obtain ⟨-, -, -, -, b5, -⟩ :=
      createNavigationParticlesPool_views (initParticleSystemPool (constructorFields now))
    rw [b5, a2]
  rw [ha] at this
  simpa [particleView] using this

/-- C9. Activate/release round trip: on the freshly created pools and for every k up to 15,
k calls of activateParticle leave k tokens active and 15 - k free (3 and 12 for k = 3).
Whatever timeouts the host fires afterwards, and in whatever order: when the fade callback of
a token fires, the token is active before and the active set is the same after; and once no
timeout is pending any more, so that both release callbacks of all k tokens have fired, the
active set is empty, isDestroyed is still false and the free pool holds the 15 original
tokens 0 to 14, each once. Firing the head of the queue 2k times is such a run. -/
theorem activate_release_round_trip (now : ℤ) (ds : Nat → ParticleDraws) (k : Nat)
    (hk : k ≤ 15) :
    (activateTimes ds k (freshPools now)).activeParticles.length = k ∧
      (activateTimes ds k (freshPools now)).particlePool.length = 15 - k ∧
      (∀ (is : List Nat),
        (∀ i tm t,
          (fireTimers is (activateTimes ds k (freshPools now))).timers.get? i = some tm →
          tm.callback = Callback.particleFade t →
          t ∈ (fireTimers is (activateTimes ds k (freshPools now))).activeParticles ∧
          (fireTimer i (fireTimers is (activateTimes ds k (freshPools now)))).activeParticles =
            (fireTimers is (activateTimes ds k (freshPools now))).activeParticles) ∧
        ((fireTimers is (activateTimes ds k (freshPools now))).timers = [] →
          (fireTimers is (activateTimes ds k (freshPools now))).activeParticles = [] ∧
          (fireTimers is (activateTimes ds k (freshPools now))).isDestroyed = false ∧
          (fireTimers is (activateTimes ds k (freshPools now))).particlePool.length = 15 ∧
          (fireTimers is (activateTimes ds k (freshPools now))).particlePool.Perm
            (List.range 15))) ∧
      (fireTimers (List.replicate (2 * k) 0) (activateTimes ds k (freshPools now))).timers
        = [] := by
  have hfresh := liveState_freshPools now
  have hpool := length_particlePool_freshPools now
  have htimers := timers_freshPools now
  have hlive := hfresh.live_activateTimes ds k
  have hd0 : (freshPools now).isDestroyed = false := hfresh.1.live
  obtain ⟨-, b, -⟩ := foldl_activateParticle_fields ds (List.range k) (freshPools now)
    hd0 (by simp only [List.length_range]; omega)
  have hplen : (activateTimes ds k (freshPools now)).particlePool.length = 15 - k := by
    unfold activateTimes
    rw [b]
    simp only [List.length_take, List.length_range, hpool]
    omega
  have hd : (freshPools now).isDestroyed = false := hfresh.1.live
  have hwork := foldl_activateParticle_work ds (List.range k) (freshPools now)
    hd (by simp only [List.length_range]; omega) (onlyParticleRelease_freshPools now)
  refine ⟨?_, hplen, ?_, ?_⟩
  · have := hlive.1.wf.size
    simp only [particleView] at this
    omega
  · intro is
    have hl := hlive.live_fireTimers is
    refine ⟨fun i tm t hget hcb => fireTimer_fade_active hl hget hcb, ?_⟩
    intro ht
    have hact : (fireTimers is (activateTimes ds k (freshPools now))).activeParticles = [] := by
      apply List.eq_nil_iff_forall_not_mem.mpr
      intro t hta
      have := hl.1.covered t hta
      simp [particleView, ht] at this
    have hperm := hl.1.perm
    simp only [particleView, hact, List.append_nil] at hperm
    refine ⟨hact, hl.1.live, ?_, hperm⟩
    simpa using hperm.length_eq
  · apply fireTimers_head_drains (2 * k) _ hlive hwork.2
    have := hwork.1
    simp only [List.length_range] at this
    unfold activateTimes
    rw [this]
    simp [pendingWork, htimers]

/-- The round trip for three activations: 3 active and 12 free, and the queue is empty after
six head firings. -/
theorem activate_release_round_trip_witness :
    (3 : Nat) ≤ 15 ∧
      (activateTimes (fun _ => sampleDraws) 3 (freshPools 0)).activeParticles.length = 3 ∧
      (activateTimes (fun _ => sampleDraws) 3 (freshPools 0)).particlePool.length = 15 - 3 ∧
      (fireTimers (List.replicate (2 * 3) 0)
        (activateTimes (fun _ => sampleDraws) 3 (freshPools 0))).timers = [] :=
  ⟨by decide,
    (activate_release_round_trip 0 (fun _ => sampleDraws) 3 (by decide)).1,
    (activate_release_round_trip 0 (fun _ => sampleDraws) 3 (by decide)).2.1,
    (activate_release_round_trip 0 (fun _ => sampleDraws) 3 (by decide)).2.2.2⟩

/-! ## Frame lemmas -/

theorem Frame.frame_refl (s : State) : Frame s s :=
  ⟨rfl, rfl, rfl, rfl, rfl, rfl, rfl, rfl, rfl, rfl, rfl, rfl, rfl⟩

theorem Frame.frame_trans {s t u : State} (h1 : Frame s t) (h2 : Frame t u) : Frame s u :=
  ⟨h2.isDestroyed.trans h1.isDestroyed, h2.intervals.trans h1.intervals,
    h2.particleInterval.trans h1.particleInterval,
    h2.navParticleInterval.trans h1.navParticleInterval,
    h2.particleTimers.trans h1.particleTimers, h2.navParticleTimers.trans h1.navParticleTimers,
    h2.particles.trans h1.particles, h2.navParticles.trans h1.navParticles,
    h2.particleContainer.trans h1.particleContainer, h2.domCache.trans h1.domCache,
    h2.nextToken.trans h1.nextToken, h2.parentNode.trans h1.parentNode, h2.now.trans h1.now⟩

theorem frame_foldl {α : Type} (f : State → α → State) (hf : ∀ s a, Frame s (f s a))
    (l : List α) (s : State) : Frame s (l.foldl f s) := by
  induction l generalizing s with
  | nil => exact Frame.frame_refl s
  | cons a l ih => exact (hf s a).frame_trans (ih (f s a))

theorem frame_activateParticle (d : ParticleDraws) (s : State) :
    Frame s (activateParticle d s) ∧ (activateParticle d s).memoryMonitor = s.memoryMonitor := by
  unfold activateParticle
  split
  · exact ⟨Frame.frame_refl s, rfl⟩
  · split
    · exact ⟨Frame.frame_refl s, rfl⟩
    · exact ⟨⟨rfl, rfl, rfl, rfl, rfl, rfl, rfl, rfl, rfl, rfl, rfl, rfl, rfl⟩, rfl⟩

theorem frame_activateNavParticle (d : NavDraws) (s : State) :
    Frame s (activateNavParticle d s) ∧
      (activateNavParticle d s).memoryMonitor = s.memoryMonitor := by
  unfold activateNavParticle
  split
  · exact ⟨Frame.frame_refl s, rfl⟩
  · split
    · exact ⟨Frame.frame_refl s, rfl⟩
    · exact ⟨⟨rfl, rfl, rfl, rfl, rfl, rfl, rfl, rfl, rfl, rfl, rfl, rfl, rfl⟩, rfl⟩

theorem memoryMonitor_foldl {α : Type} (f : State → α → State)
    (hf : ∀ s a, (f s a).memoryMonitor = s.memoryMonitor) (l : List α) (s : State) :
    (l.foldl f s).memoryMonitor = s.memoryMonitor := by
  induction l generalizing s with
  | nil => rfl
  | cons a l ih => exact (ih (f s a)).trans (hf s a)

theorem frame_activateParticles (ds : Nat → ParticleDraws) (s : State) :
    Frame s (activateParticles ds s) ∧
      (activateParticles ds s).memoryMonitor = s.memoryMonitor := by
  unfold activateParticles
  split
  · exact ⟨Frame.frame_refl s, rfl⟩
  · exact ⟨frame_foldl _ (fun st i => (frame_activateParticle (ds i) st).1) _ s,
      memoryMonitor_foldl _ (fun st i => (frame_activateParticle (ds i) st).2) _ s⟩

theorem frame_activateNavParticles (ds : Nat → NavDraws) (s : State) :
    Frame s (activateNavParticles ds s) ∧
      (activateNavParticles ds s).memoryMonitor = s.memoryMonitor := by
  unfold activateNavParticles
  split
  · exact ⟨Frame.frame_refl s, rfl⟩
  · exact ⟨frame_foldl _ (fun st i => (frame_activateNavParticle (ds i) st).1) _ s,
      memoryMonitor_foldl _ (fun st i => (frame_activateNavParticle (ds i) st).2) _ s⟩

theorem frame_fireInterval (i : Nat) (ds : Nat → ParticleDraws) (nds : Nat → NavDraws)
    (s : State) :
    Frame s (fireInterval i ds nds s) ∧
      (fireInterval i ds nds s).memoryMonitor = s.memoryMonitor := by
  unfold fireInterval
  split
  · exact ⟨Frame.frame_refl s, rfl⟩
  · split
    · exact frame_activateParticles ds s
    · exact frame_activateNavParticles nds s

theorem frame_particleFade (p : Token) (s : State) :
    Frame s (particleFade p s) ∧ (particleFade p s).memoryMonitor = s.memoryMonitor := by
  unfold particleFade
  split
  · exact ⟨Frame.frame_refl s, rfl⟩
  · exact ⟨⟨rfl, rfl, rfl, rfl, rfl, rfl, rfl, rfl, rfl, rfl, rfl, rfl, rfl⟩, rfl⟩

theorem frame_navParticleFade (p : Token) (s : State) :
    Frame s (navParticleFade p s) ∧ (navParticleFade p s).memoryMonitor = s.memoryMonitor := by
  unfold navParticleFade
  split
  · exact ⟨Frame.frame_refl s, rfl⟩
  · exact ⟨⟨rfl, rfl, rfl, rfl, rfl, rfl, rfl, rfl, rfl, rfl, rfl, rfl, rfl⟩, rfl⟩

theorem frame_particleRecycle (p : Token) (s : State) :
    Frame s (particleRecycle p s) ∧ (particleRecycle p s).memoryMonitor = s.memoryMonitor := by
  unfold particleRecycle
  split
  · exact ⟨Frame.frame_refl s, rfl⟩
  · exact ⟨⟨rfl, rfl, rfl, rfl, rfl, rfl, rfl, rfl, rfl, rfl, rfl, rfl, rfl⟩, rfl⟩

theorem frame_navParticleRecycle (p : Token) (s : State) :
    Frame s (navParticleRecycle p s) ∧
      (navParticleRecycle p s).memoryMonitor = s.memoryMonitor := by
  unfold navParticleRecycle
  split
  · exact ⟨Frame.frame_refl s, rfl⟩
  · exact ⟨⟨rfl, rfl, rfl, rfl, rfl, rfl, rfl, rfl, rfl, rfl, rfl, rfl, rfl⟩, rfl⟩

theorem frame_forceCleanupParticle (s : State) (p : Token) :
    Frame s (forceCleanupParticle s p) ∧
      (forceCleanupParticle s p).memoryMonitor = s.memoryMonitor := by
  unfold forceCleanupParticle
  split
  · exact ⟨⟨rfl, rfl, rfl, rfl, rfl, rfl, rfl, rfl, rfl, rfl, rfl, rfl, rfl⟩, rfl⟩
  · exact ⟨Frame.frame_refl s, rfl⟩

theorem frame_forceCleanupNavParticle (s : State) (p : Token) :
    Frame s (forceCleanupNavParticle s p) ∧
      (forceCleanupNavParticle s p).memoryMonitor = s.memoryMonitor := by
  unfold forceCleanupNavParticle
  split
  · exact ⟨⟨rfl, rfl, rfl, rfl, rfl, rfl, rfl, rfl, rfl, rfl, rfl, rfl, rfl⟩, rfl⟩
  · exact ⟨Frame.frame_refl s, rfl⟩

theorem frame_forceCleanup (s : State) :
    Frame s (forceCleanup s) ∧ (forceCleanup s).memoryMonitor = s.memoryMonitor := by
  unfold forceCleanup
  constructor
  · exact (frame_foldl _ (fun st p => (frame_forceCleanupParticle st p).1) _ s).frame_trans
      (frame_foldl _ (fun st p => (frame_forceCleanupNavParticle st p).1) _ _)
  · exact (memoryMonitor_foldl _ (fun st p => (frame_forceCleanupNavParticle st p).2) _ _).trans
      (memoryMonitor_foldl _ (fun st p => (frame_forceCleanupParticle st p).2) _ s)

theorem frame_monitorMemory (s : State) : Frame s (monitorMemory s) := by
  unfold monitorMemory
  split
  · exact Frame.frame_refl s
  · split
    · exact Frame.frame_refl s
    · rename_i m hm
      have hset : ∀ t : State, Frame t (setTimeout Callback.monitorMemory 5000 t) :=
        fun t => ⟨rfl, rfl, rfl, rfl, rfl, rfl, rfl, rfl, rfl, rfl, rfl, rfl, rfl⟩
      have hmm : ∀ (t : State) (mm : Option MemoryMonitor),
          Frame t { t with memoryMonitor := mm } :=
        fun _ _ => ⟨rfl, rfl, rfl, rfl, rfl, rfl, rfl, rfl, rfl, rfl, rfl, rfl, rfl⟩
      refine Frame.frame_trans ?_ (hset _)
      split
      · dsimp only
        split
        · exact (hmm s _).frame_trans (frame_forceCleanup _).1
        · exact hmm s _
      · exact Frame.frame_refl s

theorem frame_monitorPerformance (s : State) :
    Frame s (monitorPerformance s) ∧ (monitorPerformance s).memoryMonitor = s.memoryMonitor := by
  unfold monitorPerformance
  split
  · exact ⟨Frame.frame_refl s, rfl⟩
  · exact ⟨⟨rfl, rfl, rfl, rfl, rfl, rfl, rfl, rfl, rfl, rfl, rfl, rfl, rfl⟩, rfl⟩

theorem frame_runCallback (cb : Callback) (s : State) : Frame s (runCallback cb s) := by
  cases cb with
  | particleFade p => exact (frame_particleFade p s).1
  | particleRecycle p => exact (frame_particleRecycle p s).1
  | navParticleFade p => exact (frame_navParticleFade p s).1
  | navParticleRecycle p => exact (frame_navParticleRecycle p s).1
  | monitorMemory => exact frame_monitorMemory s
  | monitorPerformance => exact (frame_monitorPerformance s).1

theorem frame_fireTimer (i : Nat) (s : State) : Frame s (fireTimer i s) := by
  unfold fireTimer
  split
  · exact Frame.frame_refl s
  · rename_i tm hget
    have h0 : Frame s { s with timers := s.timers.eraseIdx i } :=
      ⟨rfl, rfl, rfl, rfl, rfl, rfl, rfl, rfl, rfl, rfl, rfl, rfl, rfl⟩
    exact h0.frame_trans (frame_runCallback tm.callback _)

/-! ## Live pools -/

theorem live_of_fresh {v : PoolView} {n cap : Nat} (hd : v.destroyed = false)
    (hf : v.free = List.range' n cap) (ha : v.active = []) (h1 : v.fading = [])
    (h2 : v.recycling = []) : v.Live cap (List.range' n cap) := by
  refine ⟨wf_of_fresh hf ha h1 h2, hd, ?_, ?_⟩
  · intro t ht
    rw [ha] at ht
    simp at ht
  · rw [hf, ha, List.append_nil]

theorem LivePools.livePools_inv {s : State} (h : LivePools s) : Inv s := ⟨h.1.wf, h.2.wf⟩

theorem nextToken_initParticleSystemPool (s : State) :
    (initParticleSystemPool s).nextToken = s.nextToken + 15 := by
  unfold initParticleSystemPool
  exact (iterate_createParticlePool 15 _).2.1

theorem nextToken_startParticleAnimation (ds : Nat → ParticleDraws) (s : State) :
    (startParticleAnimation ds s).nextToken = s.nextToken := by
  unfold startParticleAnimation
  split
  · rfl
  · exact (frame_activateParticles ds s).1.nextToken

theorem livePools_freshPools (now : ℤ) : LivePools (freshPools now) := by
  unfold freshPools
  obtain ⟨a1, a2, a3, a4, a5, a6⟩ := initParticleSystemPool_views (constructorFields now)
  obtain ⟨b1, b2, b3, b4, b5, b6⟩ :=
    createNavigationParticlesPool_views (initParticleSystemPool (constructorFields now))
  have hn : (initParticleSystemPool (constructorFields now)).nextToken = 15 := by
    rw [nextToken_initParticleSystemPool]; rfl
  have hd0 : (constructorFields now).isDestroyed = false := rfl
  have hd1 : (particleView (initParticleSystemPool (constructorFields now))).destroyed
      = false := a6.trans hd0
  have hd2 : (navView (createNavigationParticlesPool
      (initParticleSystemPool (constructorFields now)))).destroyed = false := by
    simp only [navView]
    rw [b6, a6]
    exact hd0
  have hf0 : (navView (constructorFields now)).fading = [] := rfl
  have hr0 : (navView (constructorFields now)).recycling = [] := rfl
  have hf1 : (particleView (constructorFields now)).fading = [] := rfl
  have hr1 : (particleView (constructorFields now)).recycling = [] := rfl
  constructor
  · rw [b5]
    exact live_of_fresh hd1 a1 a2 (a3.trans hf1) (a4.trans hr1)
  · rw [hn] at b1
    refine live_of_fresh hd2 b1 b2 ?_ ?_
    · rw [b3, a5]; exact hf0
    · rw [b4, a5]; exact hr0

theorem livePools_construct (doc : Document) (ds : Nat → ParticleDraws) (nds : Nat → NavDraws)
    (now : ℤ) (hh : doc.heroSection = true) (hn : doc.navContainer = true) :
    LivePools (construct doc ds nds now) := by
  unfold construct createNavigationParticles init initParticleSystem
  simp only [hh, hn, Bool.not_true, Bool.false_eq_true, if_false]
  have hc : initializeDOMCache doc (constructorFields now) =
      { constructorFields now with
        domCache := some { navLinks := doc.navLinks, sections := doc.sections,
                           navContainer := doc.navContainer, heroSection := doc.heroSection } } :=
    rfl
  rw [hc]
  generalize hs0 : ({ constructorFields now with
        domCache := some { navLinks := doc.navLinks, sections := doc.sections,
                           navContainer := doc.navContainer, heroSection := doc.heroSection } } :
        State) = s0
  have t0 : s0.timers = [] := by rw [← hs0]; rfl
  have n0 : s0.nextToken = 0 := by rw [← hs0]; rfl
  have d0 : s0.isDestroyed = false := by rw [← hs0]; rfl
  obtain ⟨a1, a2, a3, a4, a5, a6⟩ := initParticleSystemPool_views s0
  rw [n0] at a1
  have lv1 : (particleView (initParticleSystemPool s0)).Live 15 (List.range' 0 15) :=
    live_of_fresh (a6.trans d0) a1 a2 (by rw [a3]; simp [particleView, t0])
      (by rw [a4]; simp [particleView, t0])
  obtain ⟨c1, c2⟩ := startParticleAnimation_views ds (initParticleSystemPool s0)
  have lv2 := lv1.live_steps c1
  have n2 : (startParticleAnimation ds (initParticleSystemPool s0)).nextToken = 15 := by
    rw [nextToken_startParticleAnimation, nextToken_initParticleSystemPool, n0]
  generalize startParticleAnimation ds (initParticleSystemPool s0) = s2 at c2 lv2 n2
  have bm2 : BelowMarks s2 := by
    have h1 := lv2.wf.size
    have h2 : (navView s2).free = [] ∧ (navView s2).active = [] := by
      rw [c2, a5, ← hs0]; exact ⟨rfl, rfl⟩
    simp only [particleView, navView] at h1 h2
    unfold BelowMarks
    rw [h2.1, h2.2]
    simp only [List.length_nil]
    omega
  obtain ⟨d1, d2⟩ := monitorMemory_views s2 bm2
  obtain ⟨e1, e2⟩ := monitorPerformance_views (monitorMemory s2)
  have n4 : (monitorPerformance (monitorMemory s2)).nextToken = 15 := by
    rw [(frame_monitorPerformance _).1.nextToken, (frame_monitorMemory s2).nextToken, n2]
  have d4 : (monitorPerformance (monitorMemory s2)).isDestroyed = false := by
    rw [(frame_monitorPerformance _).1.isDestroyed, (frame_monitorMemory s2).isDestroyed]
    exact lv2.live
  generalize hs4 : monitorPerformance (monitorMemory s2) = s4 at e1 e2 n4 d4
  obtain ⟨b1, b2, b3, b4, b5, b6⟩ := createNavigationParticlesPool_views s4
  rw [n4] at b1
  have nv4 : navView s4 = navView s0 := by rw [e2, d2, c2, a5]
  have lv3 : (navView (createNavigationParticlesPool s4)).Live 8 (List.range' 15 8) :=
    live_of_fresh (b6.trans d4) b1 b2 (by rw [b3, nv4]; simp [navView, t0])
      (by rw [b4, nv4]; simp [navView, t0])
  obtain ⟨f1, f2⟩ := startNavParticleAnimation_views nds (createNavigationParticlesPool s4)
  constructor
  · rw [f2, b5, e1, d1]; exact lv2
  · exact lv3.live_steps f1

theorem Initial.initial_livePools {s : State} (h : Initial s) : LivePools s := by
  rcases h with ⟨now, rfl⟩ | ⟨doc, ds, nds, now, hh, hn, rfl⟩
  · exact livePools_freshPools now
  · exact livePools_construct doc ds nds now hh hn

/-- Without a visibility change every operation of normal running is a sequence of pool
steps on both views. -/
theorem viewSteps_apply_of_callback {s : State} (o : Op) (ho : o.isUnsuspended = true)
    (hb : o.firesMonitorMemory s = true → BelowMarks s) :
    ViewSteps (particleView s) (particleView (o.apply s)) ∧
      ViewSteps (navView s) (navView (o.apply s)) := by
  cases o with
  | activateParticle d =>
    refine ⟨viewSteps_of_eq_or_step (particleView_activateParticle d s), ?_⟩
    simp only [Op.apply, navView_activateParticle]
    exact Relation.ReflTransGen.refl
  | activateNavParticle d =>
    refine ⟨?_, viewSteps_of_eq_or_step (navView_activateNavParticle d s)⟩
    simp only [Op.apply, particleView_activateNavParticle]
    exact Relation.ReflTransGen.refl
  | particleTick ds =>
    refine ⟨particleView_activateParticles ds s, ?_⟩
    simp only [Op.apply, navView_activateParticles]
    exact Relation.ReflTransGen.refl
  | navParticleTick ds =>
    refine ⟨?_, navView_activateNavParticles ds s⟩
    simp only [Op.apply, particleView_activateNavParticles]
    exact Relation.ReflTransGen.refl
  | fireInterval i ds nds =>
    simp only [Op.apply, fireInterval]
    split
    · exact ⟨Relation.ReflTransGen.refl, Relation.ReflTransGen.refl⟩
    · split
      · refine ⟨particleView_activateParticles ds s, ?_⟩
        rw [navView_activateParticles]
      · refine ⟨?_, navView_activateNavParticles nds s⟩
        rw [particleView_activateNavParticles]
  | fireTimer i =>
    exact fireTimer_views_of_callback i s
      (fun tm hget hcb => hb (by
        show (match s.timers.get? i with
          | some tm => decide (tm.callback = Callback.monitorMemory)
          | none => false) = true
        rw [hget]
        exact decide_eq_true hcb))
  | visibilitychange h => simp [Op.isUnsuspended] at ho
  | advanceClock dt => exact ⟨Relation.ReflTransGen.refl, Relation.ReflTransGen.refl⟩
  | forceCleanup => simp [Op.isUnsuspended] at ho
  | destroy => simp [Op.isUnsuspended] at ho

theorem viewSteps_apply {s : State} (o : Op) (ho : o.isUnsuspended = true)
    (hb : BelowMarks s) :
    ViewSteps (particleView s) (particleView (o.apply s)) ∧
      ViewSteps (navView s) (navView (o.apply s)) :=
  viewSteps_apply_of_callback o ho (fun _ => hb)

theorem LivePools.livePools_run {s : State} (hs : LivePools s) (ops : List Op)
    (ho : ∀ o ∈ ops, o.isUnsuspended = true) : LivePools (run ops s) := by
  induction ops generalizing s with
  | nil => exact hs
  | cons o ops ih =>
    simp only [BoroTech.run, List.foldl_cons]
    obtain ⟨h1, h2⟩ := viewSteps_apply o (ho o (List.mem_cons_self o ops))
      hs.livePools_inv.inv_belowMarks
    exact ih ⟨hs.1.live_steps h1, hs.2.live_steps h2⟩
      (fun o' ho' => ho o' (List.mem_cons_of_mem o ho'))

theorem count_eq_one_of_live {v : PoolView} {cap : Nat} {tokens : List Token}
    (h : v.Live cap tokens) {t : Token} (ht : t ∈ v.active) :
    (v.fading ++ v.recycling).count t = 1 :=
  List.count_eq_one_of_mem h.wf.pending_nodup (h.covered t ht)

theorem count_le_one_of_wf {v : PoolView} {cap : Nat} (h : v.WF cap) (t : Token) :
    (v.fading ++ v.recycling).count t ≤ 1 :=
  List.nodup_iff_count_le_one.mp h.pending_nodup t

/-- C11. The code at the failing input: on the constructed sample instance the tab is
hidden, the fade timeout of particle 14 fires (and returns at its isDestroyed check without
scheduling the recycle), and the tab is shown again. The instance is live again, particle 14
is in the active set and has no pending release timeout, so it never returns to the pool. -/
theorem active_token_without_timer :
    14 ∈ (run [Op.visibilitychange true, Op.fireTimer 0, Op.visibilitychange false]
        sampleState).activeParticles ∧
      particleReleaseTimers
        (run [Op.visibilitychange true, Op.fireTimer 0, Op.visibilitychange false]
          sampleState) 14 = 0 ∧
      (run [Op.visibilitychange true, Op.fireTimer 0, Op.visibilitychange false]
        sampleState).isDestroyed = false := by
  decide

/-- Pending release timeouts in normal running: in every state reached from initialisation
by activate calls, scheduler ticks, timeout firings and clock advances, with or without
visibility flips of isDestroyed, no token has more than one pending release timeout and
every pending release timeout belongs to a token of the active set; in every such state
reached without a visibility flip, every token of the active set has exactly one pending
release timeout (its fade or its recycle). This holds for the foreground and for the
navigation pool. -/
theorem active_token_pending_timer (s0 : State) (ops : List Op) (h0 : Initial s0) :
    ((∀ o ∈ ops, o.isSafe = true) →
      (∀ t, particleReleaseTimers (run ops s0) t ≤ 1) ∧
      (∀ t, 0 < particleReleaseTimers (run ops s0) t → t ∈ (run ops s0).activeParticles) ∧
      (∀ t, navReleaseTimers (run ops s0) t ≤ 1) ∧
      (∀ t, 0 < navReleaseTimers (run ops s0) t → t ∈ (run ops s0).activeNavParticles)) ∧
    ((∀ o ∈ ops, o.isUnsuspended = true) →
      (∀ t ∈ (run ops s0).activeParticles, particleReleaseTimers (run ops s0) t = 1) ∧
      (∀ t ∈ (run ops s0).activeNavParticles, navReleaseTimers (run ops s0) t = 1)) := by
  constructor
  · intro hops
    have h := h0.initial_inv.inv_run ops hops
    refine ⟨count_le_one_of_wf h.1, ?_, count_le_one_of_wf h.2, ?_⟩
    · intro t ht
      exact h.1.pending_active t (List.count_pos_iff.mp ht)
    · intro t ht
      exact h.2.pending_active t (List.count_pos_iff.mp ht)
  · intro hops
    have h := h0.initial_livePools.livePools_run ops hops
    exact ⟨fun t ht => count_eq_one_of_live h.1 ht, fun t ht => count_eq_one_of_live h.2 ht⟩

/-- On the constructed sample instance after a tick and the fade of
particle 14: particle 14 is active and has exactly one pending release timeout. -/
theorem active_token_pending_timer_witness :
    Initial sampleState ∧
      (∀ o ∈ [Op.particleTick (fun _ => sampleDraws), Op.fireTimer 0],
        o.isUnsuspended = true) ∧
      14 ∈ (run [Op.particleTick (fun _ => sampleDraws), Op.fireTimer 0]
        sampleState).activeParticles ∧
      particleReleaseTimers
        (run [Op.particleTick (fun _ => sampleDraws), Op.fireTimer 0] sampleState) 14 = 1 :=
  ⟨initial_sampleState, by simp [Op.isUnsuspended], by decide,
    ((active_token_pending_timer sampleState
      [Op.particleTick (fun _ => sampleDraws), Op.fireTimer 0] initial_sampleState).2
      (by simp [Op.isUnsuspended])).1 14 (by decide)⟩

/-! ## Teardown, field by field -/

theorem removeFromParent_eq (s : State) (a : Token) :
    removeFromParent s a = { s with parentNode := setAt s.parentNode a none } := by
  unfold removeFromParent
  split
  · rfl
  · rename_i h
    have hn : s.parentNode a = none := by
      cases hp : s.parentNode a with
      | none => rfl
      | some p => simp [hp] at h
    have : setAt s.parentNode a none = s.parentNode := by
      funext x
      unfold setAt
      split
      · rename_i hx; rw [hx, hn]
      · rfl
    rw [this]

theorem foldl_removeFromParent_eq (l : List Token) (s : State) :
    l.foldl removeFromParent s =
      { s with parentNode := fun t => if t ∈ l then none else s.parentNode t } := by
  induction l generalizing s with
  | nil => simp
  | cons a l ih =>
    rw [List.foldl_cons, ih, removeFromParent_eq]
    have : (fun t => if t ∈ l then none else setAt s.parentNode a none t) =
        (fun t => if t ∈ a :: l then none else s.parentNode t) := by
      funext t
      by_cases h1 : t ∈ l
      · simp [h1]
      · by_cases h2 : t = a
        · simp [h2, setAt]
        · simp [h1, h2, setAt]
    simp only [this]

theorem foldl_clearTimeout_eq (l : List Nat) (s : State) :
    l.foldl (fun st h => clearTimeout h st) s =
      { s with timers := s.timers.filter (fun t => decide (t.id ∉ l)) } := by
  induction l generalizing s with
  | nil => simp
  | cons a l ih =>
    rw [List.foldl_cons, ih]
    simp only [clearTimeout, List.filter_filter]
    congr 1
    apply List.filter_congr
    intro t _
    by_cases h1 : t.id = a <;> by_cases h2 : t.id ∈ l <;> simp [h1, h2]

/-- `destroy()` written out field by field. -/
theorem destroy_eq (s : State) :
    destroy s =
      { particles := [], navParticles := [], particleTimers := [], navParticleTimers := []
        particlePool := [], activeParticles := [], navParticlePool := []
        activeNavParticles := [], particleInterval := none, navParticleInterval := none
        isDestroyed := true, domCache := none, memoryMonitor := none
        maxParticles := s.maxParticles, maxNavParticles := s.maxNavParticles
        particleContainer :=
          (match s.particleContainer with
           | some true => some false
           | x => x)
        timers := (s.timers.filter (fun t => decide (t.id ∉ s.particleTimers))).filter
          (fun t => decide (t.id ∉ s.navParticleTimers))
        intervals := clearHandle s.navParticleInterval (clearHandle s.particleInterval s.intervals)
        nextHandle := s.nextHandle, nextToken := s.nextToken, style := s.style
        parentNode := fun t =>
          if t ∈ s.navParticlePool then none
          else if t ∈ s.particlePool then none
          else if t ∈ s.navParticles then none
          else if t ∈ s.particles then none
          else s.parentNode t
        now := s.now } := by
  obtain ⟨p, np, pt, npt, pool, act, npool, nact, pi, npi, d, dc, mm, mp, mnp, pc, ts, ivs, nh,
    nt, st, pn, now⟩ := s
  unfold destroy
  simp only [foldl_removeFromParent_eq, foldl_clearTimeout_eq]
  cases pi <;> cases npi <;> rcases pc with _ | _ | _ <;>
    simp [clearHandle, clearInterval]

/-- A second `destroy()` changes no field. -/
theorem destroy_destroy (s : State) : destroy (destroy s) = destroy s := by
  have h := destroy_eq s
  generalize destroy s = d at h ⊢
  subst h
  rw [destroy_eq]
  rcases hc : s.particleContainer with _ | _ | _ <;> simp [clearHandle]

/-- C12. Idempotent teardown: destroy is a total function of the state (every step of the
source sits in its own try/catch and none can throw on a state of the instance), and a
second destroy changes nothing: destroy (destroy s) and destroy s agree on isDestroyed, both
interval handles, both pools, both active sets, the legacy arrays, domCache, memoryMonitor
and on every other field, the host's timer queue and interval table included. -/
theorem destroy_idempotent (s : State) :
    destroy (destroy s) = destroy s ∧ (destroy s).isDestroyed = true :=
  ⟨destroy_destroy s, isDestroyed_destroy s⟩

/-- C14. Destroy postcondition on the logical state: after destroy, for every state,
isDestroyed is true, particleInterval and navParticleInterval are null and no interval with
one of the two stored handles is running any more, both active sets are empty, both pools
are empty arrays, and domCache and memoryMonitor are null. -/
theorem destroy_postcondition (s : State) :
    (destroy s).isDestroyed = true ∧
      (destroy s).particleInterval = none ∧ (destroy s).navParticleInterval = none ∧
      (∀ iv ∈ (destroy s).intervals,
        some iv.id ≠ s.particleInterval ∧ some iv.id ≠ s.navParticleInterval) ∧
      (destroy s).activeParticles = [] ∧ (destroy s).activeNavParticles = [] ∧
      (destroy s).particlePool = [] ∧ (destroy s).navParticlePool = [] ∧
      (destroy s).domCache = none ∧ (destroy s).memoryMonitor = none := by
  rw [destroy_eq]
  refine ⟨rfl, rfl, rfl, ?_, rfl, rfl, rfl, rfl, rfl, rfl⟩
  intro iv hiv
  simp only at hiv
  cases h1 : s.particleInterval <;> cases h2 : s.navParticleInterval <;>
    simp_all [clearHandle]

/-! ## Scheduled work -/

theorem Sched.sched_refl (s : State) : Sched s s := ⟨rfl, rfl, rfl, rfl, rfl, rfl, rfl⟩

theorem Sched.sched_trans {s t u : State} (h1 : Sched s t) (h2 : Sched t u) : Sched s u :=
  ⟨h2.intervals.trans h1.intervals, h2.particleInterval.trans h1.particleInterval,
    h2.navParticleInterval.trans h1.navParticleInterval,
    h2.particleTimers.trans h1.particleTimers, h2.navParticleTimers.trans h1.navParticleTimers,
    h2.memoryMonitor.trans h1.memoryMonitor, h2.now.trans h1.now⟩

theorem sched_iterate (f : State → State) (hf : ∀ s, Sched s (f s)) (k : Nat) (s : State) :
    Sched s (Nat.iterate f k s) := by
  induction k generalizing s with
  | zero => exact Sched.sched_refl s
  | succ k ih =>
    simp only [Function.iterate_succ, Function.comp_apply]
    exact (hf s).sched_trans (ih (f s))

theorem sched_initParticleSystemPool (s : State) : Sched s (initParticleSystemPool s) := by
  unfold initParticleSystemPool
  have h0 : ∀ (c : Option Bool) (a b : List Token) (m : Option Nat),
      Sched s { s with particleContainer := c, particlePool := a, activeParticles := b,
                       maxParticles := m } :=
    fun _ _ _ _ => ⟨rfl, rfl, rfl, rfl, rfl, rfl, rfl⟩
  refine (h0 _ _ _ _).sched_trans (sched_iterate _ ?_ 15 _)
  intro t
  exact ⟨rfl, rfl, rfl, rfl, rfl, rfl, rfl⟩

theorem sched_createNavigationParticlesPool (s : State) :
    Sched s (createNavigationParticlesPool s) := by
  unfold createNavigationParticlesPool
  have h0 : ∀ (a b : List Token) (m : Option Nat),
      Sched s { s with navParticlePool := a, activeNavParticles := b, maxNavParticles := m } :=
    fun _ _ _ => ⟨rfl, rfl, rfl, rfl, rfl, rfl, rfl⟩
  refine (h0 _ _ _).sched_trans (sched_iterate _ ?_ 8 _)
  intro t
  exact ⟨rfl, rfl, rfl, rfl, rfl, rfl, rfl⟩

theorem IntervalsTracked.tracked_of_frame {s t : State} (h : IntervalsTracked s)
    (hf : Frame s t) : IntervalsTracked t := by
  unfold IntervalsTracked
  rw [hf.intervals, hf.particleInterval, hf.navParticleInterval, hf.particleTimers,
    hf.navParticleTimers]
  exact h

theorem IntervalsTracked.tracked_of_sched {s t : State} (h : IntervalsTracked s)
    (hf : Sched s t) : IntervalsTracked t := by
  unfold IntervalsTracked
  rw [hf.intervals, hf.particleInterval, hf.navParticleInterval, hf.particleTimers,
    hf.navParticleTimers]
  exact h

theorem tracked_startParticleAnimation (ds : Nat → ParticleDraws) {s : State}
    (h : IntervalsTracked s) (hp : s.particleInterval = none) :
    IntervalsTracked (startParticleAnimation ds s) ∧
      (startParticleAnimation ds s).navParticleInterval = s.navParticleInterval := by
  unfold startParticleAnimation
  split
  · exact ⟨h, rfl⟩
  · obtain ⟨hf, -⟩ := frame_activateParticles ds s
    have h1 := h.tracked_of_frame hf
    refine ⟨⟨?_, h1.2.1, h1.2.2⟩, hf.navParticleInterval⟩
    intro iv hiv
    simp only [List.mem_append, List.mem_singleton] at hiv
    rcases hiv with hiv | rfl
    · right
      rcases h1.1 iv hiv with h2 | h2
      · rw [hf.particleInterval, hp] at h2
        exact absurd h2 (by simp)
      · exact h2
    · left; rfl

theorem tracked_startNavParticleAnimation (ds : Nat → NavDraws) {s : State}
    (h : IntervalsTracked s) (hp : s.navParticleInterval = none) :
    IntervalsTracked (startNavParticleAnimation ds s) := by
  unfold startNavParticleAnimation
  split
  · exact h
  · obtain ⟨hf, -⟩ := frame_activateNavParticles ds s
    have h1 := h.tracked_of_frame hf
    refine ⟨?_, h1.2.1, h1.2.2⟩
    intro iv hiv
    simp only [List.mem_append, List.mem_singleton] at hiv
    rcases hiv with hiv | rfl
    · left
      rcases h1.1 iv hiv with h2 | h2
      · exact h2
      · rw [hf.navParticleInterval, hp] at h2
        exact absurd h2 (by simp)
    · right; rfl

theorem tracked_constructorFields (now : ℤ) : IntervalsTracked (constructorFields now) :=
  ⟨fun iv hiv => by simp [constructorFields] at hiv, rfl, rfl⟩

theorem tracked_freshPools (now : ℤ) : IntervalsTracked (freshPools now) := by
  unfold freshPools
  exact ((tracked_constructorFields now).tracked_of_sched
    (sched_initParticleSystemPool _)).tracked_of_sched (sched_createNavigationParticlesPool _)

theorem tracked_construct (doc : Document) (ds : Nat → ParticleDraws) (nds : Nat → NavDraws)
    (now : ℤ) : IntervalsTracked (construct doc ds nds now) := by
  have hc : initializeDOMCache doc (constructorFields now) =
      { constructorFields now with
        domCache := some { navLinks := doc.navLinks, sections := doc.sections,
                           navContainer := doc.navContainer, heroSection := doc.heroSection } } :=
    rfl
  have t0 : IntervalsTracked (initializeDOMCache doc (constructorFields now)) := by
    rw [hc]; exact ⟨fun iv hiv => by simp [constructorFields] at hiv, rfl, rfl⟩
  have p0 : (initializeDOMCache doc (constructorFields now)).particleInterval = none := by
    rw [hc]; rfl
  have n0 : (initializeDOMCache doc (constructorFields now)).navParticleInterval = none := by
    rw [hc]; rfl
  unfold construct init
  generalize initializeDOMCache doc (constructorFields now) = s0 at t0 p0 n0 ⊢
  -- the foreground part of init
  have t2 : IntervalsTracked (initParticleSystem doc ds s0) ∧
      (initParticleSystem doc ds s0).navParticleInterval = none := by
    unfold initParticleSystem
    split
    · exact ⟨t0, n0⟩
    · have hs := sched_initParticleSystemPool s0
      obtain ⟨a, b⟩ := tracked_startParticleAnimation ds (t0.tracked_of_sched hs)
        (hs.particleInterval.trans p0)
      exact ⟨a, b.trans (hs.navParticleInterval.trans n0)⟩
  generalize initParticleSystem doc ds s0 = s2 at t2 ⊢
  have f3 := frame_monitorMemory s2
  have f4 := (frame_monitorPerformance (monitorMemory s2)).1
  have t4 : IntervalsTracked (monitorPerformance (monitorMemory s2)) :=
    (t2.1.tracked_of_frame f3).tracked_of_frame f4
  have n4 : (monitorPerformance (monitorMemory s2)).navParticleInterval = none := by
    rw [f4.navParticleInterval, f3.navParticleInterval]; exact t2.2
  generalize monitorPerformance (monitorMemory s2) = s4 at t4 n4 ⊢
  unfold createNavigationParticles
  split
  · exact t4
  · have hs := sched_createNavigationParticlesPool s4
    exact tracked_startNavParticleAnimation nds (t4.tracked_of_sched hs)
      (hs.navParticleInterval.trans n4)

theorem intervals_destroy_of_tracked {s : State} (h : IntervalsTracked s) :
    (destroy s).intervals = [] ∧ (destroy s).timers = s.timers := by
  rw [destroy_eq]
  simp only
  constructor
  · apply List.eq_nil_iff_forall_not_mem.mpr
    intro iv hiv
    have h1 := h.1 iv
    cases hp : s.particleInterval <;> cases hn : s.navParticleInterval <;>
      simp_all [clearHandle]
  · rw [h.2.1, h.2.2]
    simp

theorem tracked_destroy {s : State} (h : IntervalsTracked s) : IntervalsTracked (destroy s) := by
  refine ⟨?_, ?_, ?_⟩
  · intro iv hiv
    rw [(intervals_destroy_of_tracked h).1] at hiv
    simp at hiv
  · rw [destroy_eq]
  · rw [destroy_eq]

theorem IntervalsTracked.tracked_apply {s : State} (h : IntervalsTracked s) (o : Op) :
    IntervalsTracked (o.apply s) := by
  cases o with
  | activateParticle d => exact h.tracked_of_frame (frame_activateParticle d s).1
  | activateNavParticle d => exact h.tracked_of_frame (frame_activateNavParticle d s).1
  | particleTick ds => exact h.tracked_of_frame (frame_activateParticles ds s).1
  | navParticleTick ds => exact h.tracked_of_frame (frame_activateNavParticles ds s).1
  | fireInterval i ds nds => exact h.tracked_of_frame (frame_fireInterval i ds nds s).1
  | fireTimer i => exact h.tracked_of_frame (frame_fireTimer i s)
  | visibilitychange b => exact h
  | advanceClock dt => exact h
  | forceCleanup => exact h.tracked_of_frame (frame_forceCleanup s).1
  | destroy => exact tracked_destroy h

theorem IntervalsTracked.tracked_run {s : State} (h : IntervalsTracked s) (ops : List Op) :
    IntervalsTracked (run ops s) := by
  induction ops generalizing s with
  | nil => exact h
  | cons o ops ih =>
    simp only [BoroTech.run, List.foldl_cons]
    exact ih (h.tracked_apply o)

theorem Initial.initial_tracked {s : State} (h : Initial s) : IntervalsTracked s := by
  rcases h with ⟨now, rfl⟩ | ⟨doc, ds, nds, now, -, -, rfl⟩
  · exact tracked_freshPools now
  · exact tracked_construct doc ds nds now

/-- C13. The code at the failing input: the two timer arrays that destroy walks with
clearTimeout are empty on the constructed sample instance, and destroy leaves seven timeouts
pending (three foreground fades, the memory-monitor and the performance-monitor reschedule
and two navigation fades); a second destroy leaves them pending as well. -/
theorem timeouts_pending_after_destroy :
    sampleState.particleTimers = [] ∧ sampleState.navParticleTimers = [] ∧
      (destroy sampleState).timers.map (fun t => t.callback) =
        [Callback.particleFade 14, Callback.particleFade 13, Callback.particleFade 12,
          Callback.monitorMemory, Callback.monitorPerformance, Callback.navParticleFade 22,
          Callback.navParticleFade 21] ∧
      (destroy (destroy sampleState)).timers.length = 7 := by
  decide

/-- What teardown does to scheduled work: in every state reached from initialisation by any
operations, destroy (and a second destroy) leaves no scheduler interval running; it cancels
no timeout, since no handle of a release callback or of a monitor reschedule is ever stored:
the timeouts that were pending before destroy are still pending after it, and each of them,
when the host fires it in the destroyed state, only leaves the queue and changes nothing
else. -/
theorem teardown_scheduled_work (s0 : State) (ops : List Op) (h0 : Initial s0) (i : Nat) :
    (destroy (run ops s0)).intervals = [] ∧
      (destroy (destroy (run ops s0))).intervals = [] ∧
      (destroy (run ops s0)).timers = (run ops s0).timers ∧
      (destroy (destroy (run ops s0))).timers = (run ops s0).timers ∧
      fireTimer i (destroy (run ops s0)) =
        { destroy (run ops s0) with timers := (destroy (run ops s0)).timers.eraseIdx i } := by
  have h := h0.initial_tracked.tracked_run ops
  obtain ⟨h1, h2⟩ := intervals_destroy_of_tracked h
  have hid := destroy_destroy (run ops s0)
  refine ⟨h1, by rw [hid]; exact h1, h2, by rw [hid]; exact h2, ?_⟩
  exact fireTimer_of_isDestroyed (isDestroyed_destroy _) i

/-- On the constructed sample instance after a tick: no interval is left
after destroy, the ten pending timeouts are still pending. -/
theorem teardown_scheduled_work_witness :
    Initial sampleState ∧
      (destroy (run [Op.particleTick (fun _ => sampleDraws)] sampleState)).intervals = [] ∧
      (destroy (run [Op.particleTick (fun _ => sampleDraws)] sampleState)).timers =
        (run [Op.particleTick (fun _ => sampleDraws)] sampleState).timers ∧
      (run [Op.particleTick (fun _ => sampleDraws)] sampleState).timers.length = 10 :=
  ⟨initial_sampleState,
    (teardown_scheduled_work sampleState [Op.particleTick (fun _ => sampleDraws)]
      initial_sampleState 0).1,
    (teardown_scheduled_work sampleState [Op.particleTick (fun _ => sampleDraws)]
      initial_sampleState 0).2.2.1,
    by decide⟩

/-- C15. The code at the failing input: on the constructed sample instance, navigation
particles 22 and 21 are active when destroy runs. Destroy empties the active sets before it
removes anything and then removes only the particles of the two pools, so after destroy the
particles 22 and 21 still are children of the navigation container of the page. The free
navigation particles (15) and all foreground particles (free 0, active 14, which leave the
page with their container) are detached. -/
theorem active_nav_particle_attached_after_destroy :
    sampleState.activeNavParticles = [22, 21] ∧
      attachedToPage sampleState 22 = true ∧
      attachedToPage (destroy sampleState) 22 = true ∧
      attachedToPage (destroy sampleState) 21 = true ∧
      (destroy sampleState).parentNode 22 = some Parent.navContainer ∧
      attachedToPage (destroy sampleState) 15 = false ∧
      attachedToPage (destroy sampleState) 0 = false ∧
      attachedToPage (destroy sampleState) 14 = false := by
  decide

/-! ## Force cleanup -/

theorem filter_not_mem_take {l : List Token} (hn : l.Nodup) (n : Nat) :
    l.filter (fun x => decide (x ∉ l.take n)) = l.drop n := by
  have hd : List.Disjoint (l.take n) (l.drop n) := List.disjoint_take_drop hn (le_refl n)
  conv_lhs => arg 2; rw [← List.take_append_drop n l]
  rw [List.filter_append]
  have h1 : (l.take n).filter (fun x => decide (x ∉ l.take n)) = [] := by
    rw [List.filter_eq_nil_iff]
    intro a ha
    simp [ha]
  have h2 : (l.drop n).filter (fun x => decide (x ∉ l.take n)) = l.drop n := by
    rw [List.filter_eq_self]
    intro a ha
    simp only [decide_eq_true_eq]
    exact fun hmem => hd hmem ha
  rw [h1, h2, List.nil_append]

theorem foldl_forceCleanupParticle_fields (l : List Token) (s : State)
    (hp : ∀ t ∈ l, (s.parentNode t).isSome = true) :
    (l.foldl forceCleanupParticle s).particlePool = s.particlePool ++ l ∧
      (l.foldl forceCleanupParticle s).activeParticles =
        s.activeParticles.filter (fun x => decide (x ∉ l)) ∧
      (∀ t, (l.foldl forceCleanupParticle s).style t =
        if t ∈ l then { s.style t with display := Display.none } else s.style t) := by
  induction l generalizing s with
  | nil => simp
  | cons a l ih =>
    have ha : (s.parentNode a).isSome = true := hp a (List.mem_cons_self a l)
    have hs1 : forceCleanupParticle s a =
        { s with
          style := setAt s.style a { s.style a with display := Display.none }
          activeParticles := setDelete a s.activeParticles
          particlePool := s.particlePool ++ [a] } := by
      simp [forceCleanupParticle, ha]
    have hp1 : ∀ t ∈ l, ((forceCleanupParticle s a).parentNode t).isSome = true := by
      intro t ht
      rw [(frame_forceCleanupParticle s a).1.parentNode]
      exact hp t (List.mem_cons_of_mem a ht)
    obtain ⟨i1, i2, i3⟩ := ih (forceCleanupParticle s a) hp1
    simp only [List.foldl_cons]
    refine ⟨?_, ?_, ?_⟩
    · rw [i1, hs1]; simp
    · rw [i2, hs1]
      simp only [setDelete, List.filter_filter]
      apply List.filter_congr
      intro x _
      by_cases h1 : x = a <;> by_cases h2 : x ∈ l <;> simp [h1, h2]
    · intro t
      rw [i3, hs1]
      by_cases h1 : t = a <;> by_cases h2 : t ∈ l <;> simp [h1, h2, setAt]

theorem foldl_forceCleanupNavParticle_fields (l : List Token) (s : State)
    (hp : ∀ t ∈ l, (s.parentNode t).isSome = true) :
    (l.foldl forceCleanupNavParticle s).navParticlePool = s.navParticlePool ++ l ∧
      (l.foldl forceCleanupNavParticle s).activeNavParticles =
        s.activeNavParticles.filter (fun x => decide (x ∉ l)) ∧
      (∀ t, (l.foldl forceCleanupNavParticle s).style t =
        if t ∈ l then { s.style t with display := Display.none } else s.style t) := by
  induction l generalizing s with
  | nil => simp
  | cons a l ih =>
    have ha : (s.parentNode a).isSome = true := hp a (List.mem_cons_self a l)
    have hs1 : forceCleanupNavParticle s a =
        { s with
          style := setAt s.style a { s.style a with display := Display.none }
          activeNavParticles := setDelete a s.activeNavParticles
          navParticlePool := s.navParticlePool ++ [a] } := by
      simp [forceCleanupNavParticle, ha]
    have hp1 : ∀ t ∈ l, ((forceCleanupNavParticle s a).parentNode t).isSome = true := by
      intro t ht
      rw [(frame_forceCleanupNavParticle s a).1.parentNode]
      exact hp t (List.mem_cons_of_mem a ht)
    obtain ⟨i1, i2, i3⟩ := ih (forceCleanupNavParticle s a) hp1
    simp only [List.foldl_cons]
    refine ⟨?_, ?_, ?_⟩
    · rw [i1, hs1]; simp
    · rw [i2, hs1]
      simp only [setDelete, List.filter_filter]
      apply List.filter_congr
      intro x _
      by_cases h1 : x = a <;> by_cases h2 : x ∈ l <;> simp [h1, h2]
    · intro t
      rw [i3, hs1]
      by_cases h1 : t = a <;> by_cases h2 : t ∈ l <;> simp [h1, h2, setAt]

/-- The foreground loop of `forceCleanup` leaves the navigation pool alone, and the
navigation loop leaves the foreground pool alone. -/
theorem foldl_forceCleanup_other (l : List Token) (s : State) :
    (l.foldl forceCleanupParticle s).navParticlePool = s.navParticlePool ∧
      (l.foldl forceCleanupParticle s).activeNavParticles = s.activeNavParticles ∧
      (l.foldl forceCleanupNavParticle s).particlePool = s.particlePool ∧
      (l.foldl forceCleanupNavParticle s).activeParticles = s.activeParticles := by
  induction l generalizing s with
  | nil => simp
  | cons a l ih =>
    simp only [List.foldl_cons]
    obtain ⟨i1, i2, -, -⟩ := ih (forceCleanupParticle s a)
    obtain ⟨-, -, i3, i4⟩ := ih (forceCleanupNavParticle s a)
    rw [i1, i2, i3, i4]
    refine ⟨?_, ?_, ?_, ?_⟩
    · unfold forceCleanupParticle; split <;> rfl
    · unfold forceCleanupParticle; split <;> rfl
    · unfold forceCleanupNavParticle; split <;> rfl
    · unfold forceCleanupNavParticle; split <;> rfl

theorem forceCleanup_particle_fields (s : State) (hn : s.activeParticles.Nodup)
    (hp : ∀ t ∈ s.activeParticles, (s.parentNode t).isSome = true) :
    (forceCleanup s).particlePool = s.particlePool ++ s.activeParticles.take 5 ∧
      (forceCleanup s).activeParticles = s.activeParticles.drop 5 := by
  unfold forceCleanup
  obtain ⟨a1, a2, -⟩ := foldl_forceCleanupParticle_fields (s.activeParticles.take 5) s
    (fun t ht => hp t (List.mem_of_mem_take ht))
  obtain ⟨-, -, b3, b4⟩ := foldl_forceCleanup_other
    ((List.foldl forceCleanupParticle s (s.activeParticles.take 5)).activeNavParticles.take 3)
    (List.foldl forceCleanupParticle s (s.activeParticles.take 5))
  simp only
  rw [b3, b4, a1, a2, filter_not_mem_take hn]
  exact ⟨rfl, rfl⟩

theorem forceCleanup_nav_fields (s : State) (hn : s.activeNavParticles.Nodup)
    (hp : ∀ t ∈ s.activeNavParticles, (s.parentNode t).isSome = true) :
    (forceCleanup s).navParticlePool = s.navParticlePool ++ s.activeNavParticles.take 3 ∧
      (forceCleanup s).activeNavParticles = s.activeNavParticles.drop 3 := by
  unfold forceCleanup
  obtain ⟨a1, a2, -, -⟩ := foldl_forceCleanup_other (s.activeParticles.take 5) s
  have hpn : (List.foldl forceCleanupParticle s (s.activeParticles.take 5)).parentNode =
      s.parentNode := (frame_foldl _ (fun st p => (frame_forceCleanupParticle st p).1) _ s).parentNode
  simp only
  rw [a2]
  obtain ⟨b1, b2, -⟩ := foldl_forceCleanupNavParticle_fields (s.activeNavParticles.take 3)
    (List.foldl forceCleanupParticle s (s.activeParticles.take 5))
    (fun t ht => by rw [hpn]; exact hp t (List.mem_of_mem_take ht))
  rw [b1, b2, a1, a2, filter_not_mem_take hn]
  exact ⟨rfl, rfl⟩

theorem forceCleanup_style (s : State)
    (hp : ∀ t ∈ s.activeParticles, (s.parentNode t).isSome = true)
    (hp2 : ∀ t ∈ s.activeNavParticles, (s.parentNode t).isSome = true) (t : Token) :
    (forceCleanup s).style t =
      if t ∈ s.activeParticles.take 5 ∨ t ∈ s.activeNavParticles.take 3 then
        { s.style t with display := Display.none }
      else s.style t := by
  unfold forceCleanup
  obtain ⟨-, a2, -, -⟩ := foldl_forceCleanup_other (s.activeParticles.take 5) s
  have hpn : (List.foldl forceCleanupParticle s (s.activeParticles.take 5)).parentNode =
      s.parentNode := (frame_foldl _ (fun st p => (frame_forceCleanupParticle st p).1) _ s).parentNode
  obtain ⟨-, -, c3⟩ := foldl_forceCleanupParticle_fields (s.activeParticles.take 5) s
    (fun t ht => hp t (List.mem_of_mem_take ht))
  simp only
  rw [a2]
  obtain ⟨-, -, b3⟩ := foldl_forceCleanupNavParticle_fields (s.activeNavParticles.take 3)
    (List.foldl forceCleanupParticle s (s.activeParticles.take 5))
    (fun t ht => by rw [hpn]; exact hp2 t (List.mem_of_mem_take ht))
  rw [b3, c3]
  by_cases h1 : t ∈ s.activeParticles.take 5 <;>
    by_cases h2 : t ∈ s.activeNavParticles.take 3 <;> simp [h1, h2]

/-- C16. Force-release postcondition: in a state whose active sets are sets (no repeated
member) and whose active tokens all have a parent node (as every token attached to the page
has), forceCleanup moves exactly the first min(5, size) foreground tokens and the first
min(3, size) navigation tokens of the active sets, in insertion order, to the end of the
free pools; each moved token gets display none at once while its opacity and transition
stay as they were (no fade); every other token keeps its place and its style; and free plus
active keeps its size for each pool. -/
theorem force_release_postcondition (s : State) (hn : s.activeParticles.Nodup)
    (hn2 : s.activeNavParticles.Nodup)
    (hp : ∀ t ∈ s.activeParticles, (s.parentNode t).isSome = true)
    (hp2 : ∀ t ∈ s.activeNavParticles, (s.parentNode t).isSome = true) :
    (forceCleanup s).particlePool = s.particlePool ++ s.activeParticles.take 5 ∧
      (forceCleanup s).activeParticles = s.activeParticles.drop 5 ∧
      (s.activeParticles.take 5).length = min 5 s.activeParticles.length ∧
      (forceCleanup s).navParticlePool = s.navParticlePool ++ s.activeNavParticles.take 3 ∧
      (forceCleanup s).activeNavParticles = s.activeNavParticles.drop 3 ∧
      (s.activeNavParticles.take 3).length = min 3 s.activeNavParticles.length ∧
      (∀ t, t ∈ s.activeParticles.take 5 ∨ t ∈ s.activeNavParticles.take 3 →
        (forceCleanup s).style t = { s.style t with display := Display.none }) ∧
      (∀ t, t ∉ s.activeParticles.take 5 → t ∉ s.activeNavParticles.take 3 →
        (forceCleanup s).style t = s.style t) ∧
      (forceCleanup s).particlePool.length + (forceCleanup s).activeParticles.length =
        s.particlePool.length + s.activeParticles.length ∧
      (forceCleanup s).navParticlePool.length + (forceCleanup s).activeNavParticles.length =
        s.navParticlePool.length + s.activeNavParticles.length := by
  obtain ⟨a1, a2⟩ := forceCleanup_particle_fields s hn hp
  obtain ⟨b1, b2⟩ := forceCleanup_nav_fields s hn2 hp2
  refine ⟨a1, a2, List.length_take _ _, b1, b2, List.length_take _ _, ?_, ?_, ?_, ?_⟩
  · intro t ht
    rw [forceCleanup_style s hp hp2 t, if_pos ht]
  · intro t h1 h2
    rw [forceCleanup_style s hp hp2 t, if_neg (by simp [h1, h2])]
  · rw [a1, a2]
    simp only [List.length_append, List.length_take, List.length_drop]
    omega
  · rw [b1, b2]
    simp only [List.length_append, List.length_take, List.length_drop]
    omega

/-- The force-release postcondition on the sample instance with thirteen active foreground
particles and two active navigation particles: five and two of them are moved to the
pools. -/
theorem force_release_postcondition_witness :
    twoFreeState.activeParticles.Nodup ∧ twoFreeState.activeNavParticles.Nodup ∧
      (∀ t ∈ twoFreeState.activeParticles, (twoFreeState.parentNode t).isSome = true) ∧
      (∀ t ∈ twoFreeState.activeNavParticles, (twoFreeState.parentNode t).isSome = true) ∧
      (forceCleanup twoFreeState).particlePool =
        twoFreeState.particlePool ++ twoFreeState.activeParticles.take 5 ∧
      (forceCleanup twoFreeState).activeNavParticles = twoFreeState.activeNavParticles.drop 3 :=
  ⟨by decide, by decide, by decide, by decide,
    (force_release_postcondition twoFreeState (by decide) (by decide) (by decide)
      (by decide)).1,
    (force_release_postcondition twoFreeState (by decide) (by decide) (by decide)
      (by decide)).2.2.2.2.1⟩

/-! ## The monitor's correction -/

theorem monitorMemory_of_cleanup {s : State} {m : MemoryMonitor} (hd : s.isDestroyed = false)
    (hm : s.memoryMonitor = some m) (ht : s.now - m.lastCheck > 30000)
    (hc : s.activeParticles.length + s.particlePool.length > 50 ∨
      s.activeNavParticles.length + s.navParticlePool.length > 20) :
    monitorMemory s =
      setTimeout Callback.monitorMemory 5000
        (forceCleanup (recount s)) := by
  unfold monitorMemory recount
  simp only [hd, hm, Bool.false_eq_true, if_false, ht, if_true]
  have : (decide (s.activeParticles.length + s.particlePool.length > 50) ||
      decide (s.activeNavParticles.length + s.navParticlePool.length > 20)) = true := by
    rcases hc with hc | hc <;> simp [hc]
  rw [if_pos this]

/-- C17, as stated, fails: in the overloaded sample state (foreground count 3 + 48 = 51,
40 seconds after the last check, isDestroyed false) one monitorMemory call takes the 3
active particles, not 5: the active set goes from 3 members to none. -/
theorem monitor_releases_fewer_than_five :
    overloadedState.isDestroyed = false ∧
      overloadedState.activeParticles.length + overloadedState.particlePool.length = 51 ∧
      checkRuns overloadedState = true ∧
      overloadedState.activeParticles.length = 3 ∧
      (monitorMemory overloadedState).activeParticles.length = 0 ∧
      (monitorMemory overloadedState).activeParticles.length + 5 ≠
        overloadedState.activeParticles.length := by
  decide

/-- C17, amended. For every state with isDestroyed false and a memoryMonitor whose
lastCheck is more than 30000 ms back, in which the foreground count exceeds 50 and the
active foreground tokens (a set, all with a parent node) are given, one monitorMemory call
removes exactly the first min(5, size) tokens from activeParticles and appends them, in
insertion order, to particlePool: the active set shrinks by exactly 5 whenever it has at
least 5 members, and otherwise becomes empty. -/
theorem monitor_correction (s : State) (m : MemoryMonitor) (hd : s.isDestroyed = false)
    (hm : s.memoryMonitor = some m) (ht : s.now - m.lastCheck > 30000)
    (hc : s.activeParticles.length + s.particlePool.length > 50)
    (hn : s.activeParticles.Nodup)
    (hp : ∀ t ∈ s.activeParticles, (s.parentNode t).isSome = true) :
    (monitorMemory s).activeParticles = s.activeParticles.drop 5 ∧
      (monitorMemory s).particlePool = s.particlePool ++ s.activeParticles.take 5 ∧
      (monitorMemory s).activeParticles.length + min 5 s.activeParticles.length =
        s.activeParticles.length ∧
      (5 ≤ s.activeParticles.length →
        (monitorMemory s).activeParticles.length + 5 = s.activeParticles.length ∧
        (s.activeParticles.take 5).length = 5) := by
  rw [monitorMemory_of_cleanup hd hm ht (Or.inl hc)]
  have hf := forceCleanup_particle_fields (recount s) hn hp
  have a1 : (forceCleanup (recount s)).particlePool =
      s.particlePool ++ s.activeParticles.take 5 := hf.1
  have a2 : (forceCleanup (recount s)).activeParticles = s.activeParticles.drop 5 := hf.2
  simp only [setTimeout]
  rw [a1, a2]
  refine ⟨rfl, rfl, ?_, ?_⟩
  · simp only [List.length_drop]
    omega
  · intro h5
    simp only [List.length_drop, List.length_take]
    omega

/-- The amended C17 on a state with 13 active particles and a count of 53: exactly 5 are
reclaimed. -/
theorem monitor_correction_witness :
    overloadedBusyState.isDestroyed = false ∧
      overloadedBusyState.activeParticles.length + overloadedBusyState.particlePool.length
        > 50 ∧
      5 ≤ overloadedBusyState.activeParticles.length ∧
      (monitorMemory overloadedBusyState).activeParticles.length + 5 =
        overloadedBusyState.activeParticles.length :=
  ⟨by decide, by decide, by decide,
    ((monitor_correction overloadedBusyState ⟨0, 0, 0⟩ (by decide) (by decide) (by decide)
      (by decide) (by decide) (by decide)).2.2.2 (by decide)).1⟩

/-- C18, as stated, fails: in the overloaded sample state the foreground count is 51 and
the navigation count is 8, a monitor check runs, and the monitor cycle moves the two active
navigation particles 22 and 21 to the navigation pool. -/
theorem monitor_touches_other_pool :
    checkRuns overloadedState = true ∧
      overloadedState.activeParticles.length + overloadedState.particlePool.length = 51 ∧
      overloadedState.activeNavParticles.length + overloadedState.navParticlePool.length
        = 8 ∧
      overloadedState.navParticlePool = [15, 16, 17, 18, 19, 20] ∧
      overloadedState.activeNavParticles = [22, 21] ∧
      (monitorMemory overloadedState).navParticlePool = [15, 16, 17, 18, 19, 20, 22, 21] ∧
      (monitorMemory overloadedState).activeNavParticles = [] := by
  decide

theorem monitorMemory_of_calm {s : State} {m : MemoryMonitor} (hd : s.isDestroyed = false)
    (hm : s.memoryMonitor = some m) (ht : s.now - m.lastCheck > 30000)
    (hc : s.activeParticles.length + s.particlePool.length ≤ 50 ∧
      s.activeNavParticles.length + s.navParticlePool.length ≤ 20) :
    monitorMemory s = setTimeout Callback.monitorMemory 5000 (recount s) := by
  unfold monitorMemory recount
  simp only [hd, hm, Bool.false_eq_true, if_false, ht, if_true]
  have : ¬ (decide (s.activeParticles.length + s.particlePool.length > 50) ||
      decide (s.activeNavParticles.length + s.navParticlePool.length > 20)) = true := by
    simp only [Bool.or_eq_true, decide_eq_true_eq, not_or]
    omega
  rw [if_neg this]

/-- C18, amended. For every state in which a monitor check runs (isDestroyed false,
lastCheck more than 30000 ms back) and whose active sets are sets of tokens with a parent
node: when the foreground count exceeds 50 or the navigation count exceeds 20, the monitor
cycle runs forceCleanup on both pools, whichever is the offending one: it moves the first
min(5, size) active foreground tokens and the first min(3, size) active navigation tokens to
their pools, so a pool within its mark is left unchanged when it has no active token; when
neither count exceeds its mark, both pools and both active sets are unchanged. -/
theorem monitor_cleanup_scope (s : State) (m : MemoryMonitor) (hd : s.isDestroyed = false)
    (hm : s.memoryMonitor = some m) (ht : s.now - m.lastCheck > 30000)
    (hn : s.activeParticles.Nodup) (hn2 : s.activeNavParticles.Nodup)
    (hp : ∀ t ∈ s.activeParticles, (s.parentNode t).isSome = true)
    (hp2 : ∀ t ∈ s.activeNavParticles, (s.parentNode t).isSome = true) :
    ((s.activeParticles.length + s.particlePool.length > 50 ∨
        s.activeNavParticles.length + s.navParticlePool.length > 20) →
      (monitorMemory s).particlePool = s.particlePool ++ s.activeParticles.take 5 ∧
      (monitorMemory s).activeParticles = s.activeParticles.drop 5 ∧
      (monitorMemory s).navParticlePool = s.navParticlePool ++ s.activeNavParticles.take 3 ∧
      (monitorMemory s).activeNavParticles = s.activeNavParticles.drop 3 ∧
      (s.activeNavParticles = [] →
        (monitorMemory s).navParticlePool = s.navParticlePool ∧
        (monitorMemory s).activeNavParticles = s.activeNavParticles) ∧
      (s.activeParticles = [] →
        (monitorMemory s).particlePool = s.particlePool ∧
        (monitorMemory s).activeParticles = s.activeParticles)) ∧
    ((s.activeParticles.length + s.particlePool.length ≤ 50 ∧
        s.activeNavParticles.length + s.navParticlePool.length ≤ 20) →
      (monitorMemory s).particlePool = s.particlePool ∧
      (monitorMemory s).activeParticles = s.activeParticles ∧
      (monitorMemory s).navParticlePool = s.navParticlePool ∧
      (monitorMemory s).activeNavParticles = s.activeNavParticles) := by
  constructor
  · intro hc
    rw [monitorMemory_of_cleanup hd hm ht hc]
    have hf := forceCleanup_particle_fields (recount s) hn hp
    have hg := forceCleanup_nav_fields (recount s) hn2 hp2
    have a1 : (forceCleanup (recount s)).particlePool =
        s.particlePool ++ s.activeParticles.take 5 := hf.1
    have a2 : (forceCleanup (recount s)).activeParticles = s.activeParticles.drop 5 := hf.2
    have b1 : (forceCleanup (recount s)).navParticlePool =
        s.navParticlePool ++ s.activeNavParticles.take 3 := hg.1
    have b2 : (forceCleanup (recount s)).activeNavParticles = s.activeNavParticles.drop 3 :=
      hg.2
    simp only [setTimeout]
    rw [a1, a2, b1, b2]
    refine ⟨rfl, rfl, rfl, rfl, ?_, ?_⟩
    · intro h; rw [h]; simp
    · intro h; rw [h]; simp
  · intro hc
    rw [monitorMemory_of_calm hd hm ht hc]
    exact ⟨rfl, rfl, rfl, rfl⟩

/-- The amended C18 on the overloaded sample state: only the foreground count exceeds its
mark, and both pools are force-released. -/
theorem monitor_cleanup_scope_witness :
    overloadedState.isDestroyed = false ∧
      overloadedState.now - (0 : ℤ) > 30000 ∧
      overloadedState.activeParticles.length + overloadedState.particlePool.length > 50 ∧
      (monitorMemory overloadedState).navParticlePool =
        overloadedState.navParticlePool ++ overloadedState.activeNavParticles.take 3 ∧
      (monitorMemory overloadedState).activeParticles =
        overloadedState.activeParticles.drop 5 :=
  ⟨by decide, by decide, by decide,
    ((monitor_cleanup_scope overloadedState ⟨0, 0, 0⟩ (by decide) (by decide) (by decide)
      (by decide) (by decide) (by decide) (by decide)).1 (Or.inl (by decide))).2.2.1,
    ((monitor_cleanup_scope overloadedState ⟨0, 0, 0⟩ (by decide) (by decide) (by decide)
      (by decide) (by decide) (by decide) (by decide)).1 (Or.inl (by decide))).2.1⟩

/-! ## The monitor's rate limit -/

theorem memoryMonitor_monitorMemory_of_check {s : State} (h : checkRuns s = true) :
    (∃ m, s.memoryMonitor = some m ∧ s.now - m.lastCheck > 30000) ∧
      ∃ m1, (monitorMemory s).memoryMonitor = some m1 ∧ m1.lastCheck = s.now ∧
        m1.particleCount = s.activeParticles.length + s.particlePool.length ∧
        m1.navParticleCount = s.activeNavParticles.length + s.navParticlePool.length := by
  unfold checkRuns at h
  cases hm : s.memoryMonitor with
  | none => simp [hm] at h
  | some m =>
    simp only [hm, Bool.and_eq_true, Bool.not_eq_true', decide_eq_true_eq] at h
    obtain ⟨hd, ht⟩ := h
    refine ⟨⟨m, rfl, ht⟩, ?_⟩
    by_cases hc : s.activeParticles.length + s.particlePool.length > 50 ∨
        s.activeNavParticles.length + s.navParticlePool.length > 20
    · rw [monitorMemory_of_cleanup hd hm ht hc]
      refine ⟨⟨s.now, s.activeParticles.length + s.particlePool.length,
        s.activeNavParticles.length + s.navParticlePool.length⟩, ?_, rfl, rfl, rfl⟩
      simp only [setTimeout]
      rw [(frame_forceCleanup (recount s)).2]
      rfl
    · rw [monitorMemory_of_calm hd hm ht (by omega)]
      exact ⟨⟨s.now, s.activeParticles.length + s.particlePool.length,
        s.activeNavParticles.length + s.navParticlePool.length⟩, rfl, rfl, rfl, rfl⟩

theorem memoryMonitor_monitorMemory_of_no_check {s : State} (h : checkRuns s = false) :
    (monitorMemory s).memoryMonitor = s.memoryMonitor := by
  unfold checkRuns at h
  unfold monitorMemory
  split
  · rfl
  · rename_i hd
    split
    · rfl
    · rename_i m hm
      have ht : ¬ (s.now - m.lastCheck > 30000) := by
        simpa [hd, hm] using h
      simp [ht, setTimeout, hm]

theorem memoryMonitor_runCallback (cb : Callback) (s : State)
    (h : cb ≠ Callback.monitorMemory) :
    (runCallback cb s).memoryMonitor = s.memoryMonitor := by
  cases cb with
  | particleFade p => exact (frame_particleFade p s).2
  | particleRecycle p => exact (frame_particleRecycle p s).2
  | navParticleFade p => exact (frame_navParticleFade p s).2
  | navParticleRecycle p => exact (frame_navParticleRecycle p s).2
  | monitorMemory => exact absurd rfl h
  | monitorPerformance => exact (frame_monitorPerformance s).2

theorem firesMonitorMemory_fireTimer (i : Nat) (s : State) :
    (Op.fireTimer i).firesMonitorMemory s =
      match s.timers.get? i with
      | some tm => decide (tm.callback = Callback.monitorMemory)
      | none => false := rfl

/-- An operation that is not the firing of a monitor timeout leaves `memoryMonitor` as it
is, or sets it to `null` (destroy). -/
theorem memoryMonitor_apply (o : Op) (s : State) (h : o.firesMonitorMemory s = false) :
    (o.apply s).memoryMonitor = s.memoryMonitor ∨ (o.apply s).memoryMonitor = none := by
  cases o with
  | activateParticle d => exact Or.inl (frame_activateParticle d s).2
  | activateNavParticle d => exact Or.inl (frame_activateNavParticle d s).2
  | particleTick ds => exact Or.inl (frame_activateParticles ds s).2
  | navParticleTick ds => exact Or.inl (frame_activateNavParticles ds s).2
  | fireInterval i ds nds => exact Or.inl (frame_fireInterval i ds nds s).2
  | fireTimer i =>
    left
    rw [firesMonitorMemory_fireTimer] at h
    show (fireTimer i s).memoryMonitor = _
    unfold fireTimer
    cases hget : s.timers.get? i with
    | none => rfl
    | some tm =>
      rw [hget] at h
      have hcb : tm.callback ≠ Callback.monitorMemory := by simpa using h
      exact memoryMonitor_runCallback tm.callback _ hcb
  | visibilitychange b => exact Or.inl rfl
  | advanceClock dt => exact Or.inl rfl
  | forceCleanup => exact Or.inl (frame_forceCleanup s).2
  | destroy =>
    right
    simp only [Op.apply]
    rw [destroy_eq]

theorem apply_of_firesMonitorMemory (o : Op) (s : State) (h : o.firesMonitorMemory s = true) :
    ∃ i, o.apply s = monitorMemory { s with timers := s.timers.eraseIdx i } := by
  cases o with
  | fireTimer i =>
    refine ⟨i, ?_⟩
    rw [firesMonitorMemory_fireTimer] at h
    show fireTimer i s = _
    unfold fireTimer
    cases hget : s.timers.get? i with
    | none =>
      rw [hget] at h
      exact absurd h (by simp)
    | some tm =>
      rw [hget] at h
      have hcb : tm.callback = Callback.monitorMemory := by simpa using h
      simp only [hcb, runCallback]
  | _ => simp [Op.firesMonitorMemory] at h

/-- One event: if the check body runs, it runs more than 30000 ms after the last check and
makes the current time the last check; if not, the last check stays. -/
theorem lastCheck_event (e : Event) (s : State) (L : ℤ)
    (hL : ∀ m, s.memoryMonitor = some m → m.lastCheck = L) :
    (∀ t, e.checkTime s = some t →
      t - L > 30000 ∧ ∀ m, (e.apply s).memoryMonitor = some m → m.lastCheck = t) ∧
    (e.checkTime s = none → ∀ m, (e.apply s).memoryMonitor = some m → m.lastCheck = L) := by
  have key : ∀ s' : State, s'.memoryMonitor = s.memoryMonitor →
      (checkRuns s' = true →
        s'.now - L > 30000 ∧ ∀ m, (monitorMemory s').memoryMonitor = some m →
          m.lastCheck = s'.now) ∧
      (checkRuns s' = false → ∀ m, (monitorMemory s').memoryMonitor = some m →
          m.lastCheck = L) := by
    intro s' hs'
    constructor
    · intro hc
      obtain ⟨⟨m, hm, ht⟩, m1, hm1, hl, -, -⟩ := memoryMonitor_monitorMemory_of_check hc
      rw [hs'] at hm
      rw [hL m hm] at ht
      refine ⟨ht, ?_⟩
      intro m2 hm2
      rw [hm1] at hm2
      cases hm2
      exact hl
    · intro hc m hm
      rw [memoryMonitor_monitorMemory_of_no_check hc, hs'] at hm
      exact hL m hm
  cases e with
  | monitorMemoryAt t =>
    have k := key { s with now := t } rfl
    simp only [Event.checkTime, Event.apply]
    constructor
    · intro t' ht'
      by_cases hc : checkRuns { s with now := t } = true
      · simp only [hc, if_true, Option.some.injEq] at ht'
        subst ht'
        exact k.1 hc
      · simp [hc] at ht'
    · intro hnone
      by_cases hc : checkRuns { s with now := t } = true
      · simp [hc] at hnone
      · exact k.2 (by simpa using hc)
  | op o =>
    simp only [Event.checkTime, Event.apply]
    by_cases hf : o.firesMonitorMemory s = true
    · obtain ⟨i, hi⟩ := apply_of_firesMonitorMemory o s hf
      have k := key { s with timers := s.timers.eraseIdx i } rfl
      have hcr : checkRuns { s with timers := s.timers.eraseIdx i } = checkRuns s := rfl
      rw [hi]
      constructor
      · intro t' ht'
        by_cases hc : checkRuns s = true
        · simp only [hf, hc, Bool.and_self, if_true, Option.some.injEq] at ht'
          subst ht'
          exact k.1 (hcr.trans hc)
        · simp [hc] at ht'
      · intro hnone
        by_cases hc : checkRuns s = true
        · simp [hf, hc] at hnone
        · exact k.2 (hcr.trans (by simpa using hc))
    · have hf' : o.firesMonitorMemory s = false := by simpa using hf
      constructor
      · intro t' ht'
        simp [hf'] at ht'
      · intro _ m hm
        rcases memoryMonitor_apply o s hf' with h1 | h1
        · rw [h1] at hm; exact hL m hm
        · rw [h1] at hm; cases hm

theorem chain_checkTimes (es : List Event) (s : State) (L : ℤ)
    (hL : ∀ m, s.memoryMonitor = some m → m.lastCheck = L) :
    List.Chain (fun a b => b - a > 30000) L (checkTimes es s) := by
  induction es generalizing s L with
  | nil => exact List.Chain.nil
  | cons e es ih =>
    obtain ⟨h1, h2⟩ := lastCheck_event e s L hL
    simp only [checkTimes]
    cases hc : e.checkTime s with
    | none =>
      simp only [Option.toList, List.nil_append]
      exact ih (e.apply s) L (h2 hc)
    | some t =>
      obtain ⟨ht, hl⟩ := h1 t hc
      simp only [Option.toList, List.singleton_append]
      exact List.Chain.cons ht (ih (e.apply s) t hl)

theorem monitor_startParticleAnimation (ds : Nat → ParticleDraws) (s : State) :
    (startParticleAnimation ds s).memoryMonitor = s.memoryMonitor ∧
      (startParticleAnimation ds s).now = s.now ∧
      (startParticleAnimation ds s).isDestroyed = s.isDestroyed := by
  unfold startParticleAnimation
  split
  · exact ⟨rfl, rfl, rfl⟩
  · exact ⟨(frame_activateParticles ds s).2, (frame_activateParticles ds s).1.now,
      (frame_activateParticles ds s).1.isDestroyed⟩

theorem monitor_startNavParticleAnimation (ds : Nat → NavDraws) (s : State) :
    (startNavParticleAnimation ds s).memoryMonitor = s.memoryMonitor ∧
      (startNavParticleAnimation ds s).now = s.now ∧
      (startNavParticleAnimation ds s).isDestroyed = s.isDestroyed := by
  unfold startNavParticleAnimation
  split
  · exact ⟨rfl, rfl, rfl⟩
  · exact ⟨(frame_activateNavParticles ds s).2, (frame_activateNavParticles ds s).1.now,
      (frame_activateNavParticles ds s).1.isDestroyed⟩

/-- The monitor of a freshly constructed instance has the construction time as its last
check. -/
theorem memoryMonitor_construct (doc : Document) (ds : Nat → ParticleDraws)
    (nds : Nat → NavDraws) (now : ℤ) :
    (construct doc ds nds now).memoryMonitor = some ⟨now, 0, 0⟩ ∧
      (construct doc ds nds now).now = now := by
  have hc : initializeDOMCache doc (constructorFields now) =
      { constructorFields now with
        domCache := some { navLinks := doc.navLinks, sections := doc.sections,
                           navContainer := doc.navContainer, heroSection := doc.heroSection } } :=
    rfl
  have m0 : (initializeDOMCache doc (constructorFields now)).memoryMonitor =
      some ⟨now, 0, 0⟩ := by rw [hc]; rfl
  have n0 : (initializeDOMCache doc (constructorFields now)).now = now := by rw [hc]; rfl
  unfold construct init
  generalize initializeDOMCache doc (constructorFields now) = s0 at m0 n0 ⊢
  have h2 : (initParticleSystem doc ds s0).memoryMonitor = some ⟨now, 0, 0⟩ ∧
      (initParticleSystem doc ds s0).now = now := by
    unfold initParticleSystem
    split
    · exact ⟨m0, n0⟩
    · have hs := sched_initParticleSystemPool s0
      obtain ⟨a, b, -⟩ := monitor_startParticleAnimation ds (initParticleSystemPool s0)
      exact ⟨a.trans (hs.memoryMonitor.trans m0), b.trans (hs.now.trans n0)⟩
  generalize initParticleSystem doc ds s0 = s2 at h2 ⊢
  have hnc : checkRuns s2 = false := by
    unfold checkRuns
    rw [h2.1, h2.2]
    simp
  have m3 : (monitorMemory s2).memoryMonitor = some ⟨now, 0, 0⟩ :=
    (memoryMonitor_monitorMemory_of_no_check hnc).trans h2.1
  have n3 : (monitorMemory s2).now = now := (frame_monitorMemory s2).now.trans h2.2
  have m4 : (monitorPerformance (monitorMemory s2)).memoryMonitor = some ⟨now, 0, 0⟩ :=
    (frame_monitorPerformance _).2.trans m3
  have n4 : (monitorPerformance (monitorMemory s2)).now = now :=
    (frame_monitorPerformance _).1.now.trans n3
  generalize monitorPerformance (monitorMemory s2) = s4 at m4 n4 ⊢
  unfold createNavigationParticles
  split
  · exact ⟨m4, n4⟩
  · have hs := sched_createNavigationParticlesPool s4
    obtain ⟨a, b, -⟩ := monitor_startNavParticleAnimation nds (createNavigationParticlesPool s4)
    exact ⟨a.trans (hs.memoryMonitor.trans m4), b.trans (hs.now.trans n4)⟩

/-- C19. Monitor rate limit: a call of monitorMemory executes the check body only when
isDestroyed is false and now - lastCheck > 30000, and the body then makes the current time
the new lastCheck (and takes both counts); a call that does not execute it leaves
memoryMonitor as it is. So over every sequence of events (direct monitorMemory calls at any
clock values, firings of monitor timeouts and all other operations, destroy and visibility
flips included) the clock values at which the check body runs are each more than 30000 ms
after the previous one, and the first is more than 30000 ms after the last check the monitor
started with; for a constructed instance that is the time of construction. -/
theorem monitor_rate_limit (s : State) (L : ℤ) (es : List Event) (doc : Document)
    (ds : Nat → ParticleDraws) (nds : Nat → NavDraws) (now : ℤ) :
    (checkRuns s = true →
      s.isDestroyed = false ∧
      (∃ m, s.memoryMonitor = some m ∧ s.now - m.lastCheck > 30000) ∧
      ∃ m1, (monitorMemory s).memoryMonitor = some m1 ∧ m1.lastCheck = s.now) ∧
    (checkRuns s = false → (monitorMemory s).memoryMonitor = s.memoryMonitor) ∧
    ((∀ m, s.memoryMonitor = some m → m.lastCheck = L) →
      List.Chain (fun a b => b - a > 30000) L (checkTimes es s)) ∧
    List.Chain (fun a b => b - a > 30000) now (checkTimes es (construct doc ds nds now)) := by
  refine ⟨?_, memoryMonitor_monitorMemory_of_no_check, chain_checkTimes es s L, ?_⟩
  · intro hc
    obtain ⟨h1, m1, h2, h3, -, -⟩ := memoryMonitor_monitorMemory_of_check hc
    refine ⟨?_, h1, m1, h2, h3⟩
    unfold checkRuns at hc
    simp only [Bool.and_eq_true, Bool.not_eq_true'] at hc
    exact hc.1
  · apply chain_checkTimes
    intro m hm
    rw [(memoryMonitor_construct doc ds nds now).1] at hm
    cases hm
    rfl

/-- The rate limit on the constructed sample instance: monitor calls at 10, 31, 40, 62 and
70 seconds after construction execute the check body at 31 and 62 seconds only. -/
theorem monitor_rate_limit_witness :
    checkTimes [Event.monitorMemoryAt 10000, Event.monitorMemoryAt 31000,
        Event.monitorMemoryAt 40000, Event.monitorMemoryAt 62000,
        Event.monitorMemoryAt 70000] sampleState = [31000, 62000] ∧
      (∀ m, sampleState.memoryMonitor = some m → m.lastCheck = 0) ∧
      List.Chain (fun a b => b - a > 30000) (0 : ℤ)
        (checkTimes [Event.monitorMemoryAt 10000, Event.monitorMemoryAt 31000,
          Event.monitorMemoryAt 40000, Event.monitorMemoryAt 62000,
          Event.monitorMemoryAt 70000] sampleState) :=
  ⟨by decide, by decide,
    (monitor_rate_limit sampleState 0 _ samplePage (fun _ => sampleDraws)
      (fun _ => sampleNavDraws) 0).2.2.1 (by decide)⟩

/-! ## The lifecycle flag -/

/-- C20. Lifecycle flag transitions: activate, the release callbacks of both phases, the
scheduler ticks, monitorMemory, monitorPerformance, forceCleanup and every timeout or
interval firing leave isDestroyed as it is; destroy and handleInitializationError set it to
true; the visibilitychange handler sets it to true when the document is hidden and to false
when it is visible, and among all operations it is the only one that takes isDestroyed from
true to false. -/
theorem lifecycle_flag_transitions (s : State) (d : ParticleDraws) (nd : NavDraws)
    (ds : Nat → ParticleDraws) (nds : Nat → NavDraws) (p : Token) (i : Nat) (b : Bool) :
    (activateParticle d s).isDestroyed = s.isDestroyed ∧
      (activateNavParticle nd s).isDestroyed = s.isDestroyed ∧
      (particleFade p s).isDestroyed = s.isDestroyed ∧
      (particleRecycle p s).isDestroyed = s.isDestroyed ∧
      (navParticleFade p s).isDestroyed = s.isDestroyed ∧
      (navParticleRecycle p s).isDestroyed = s.isDestroyed ∧
      (activateParticles ds s).isDestroyed = s.isDestroyed ∧
      (activateNavParticles nds s).isDestroyed = s.isDestroyed ∧
      (monitorMemory s).isDestroyed = s.isDestroyed ∧
      (monitorPerformance s).isDestroyed = s.isDestroyed ∧
      (forceCleanup s).isDestroyed = s.isDestroyed ∧
      (fireTimer i s).isDestroyed = s.isDestroyed ∧
      (fireInterval i ds nds s).isDestroyed = s.isDestroyed ∧
      (destroy s).isDestroyed = true ∧
      (handleInitializationError s).isDestroyed = true ∧
      (visibilitychange b s).isDestroyed = b ∧
      (∀ o : Op, s.isDestroyed = true → (o.apply s).isDestroyed = false →
        o = Op.visibilitychange false) := by
  refine ⟨(frame_activateParticle d s).1.isDestroyed,
    (frame_activateNavParticle nd s).1.isDestroyed, (frame_particleFade p s).1.isDestroyed,
    (frame_particleRecycle p s).1.isDestroyed, (frame_navParticleFade p s).1.isDestroyed,
    (frame_navParticleRecycle p s).1.isDestroyed, (frame_activateParticles ds s).1.isDestroyed,
    (frame_activateNavParticles nds s).1.isDestroyed, (frame_monitorMemory s).isDestroyed,
    (frame_monitorPerformance s).1.isDestroyed, (frame_forceCleanup s).1.isDestroyed,
    (frame_fireTimer i s).isDestroyed, (frame_fireInterval i ds nds s).1.isDestroyed,
    isDestroyed_destroy s, rfl, rfl, ?_⟩
  intro o ht hf
  have hne : ∀ s' : State, s'.isDestroyed = s.isDestroyed → s'.isDestroyed = false → False := by
    intro s' h1 h2
    rw [h1, ht] at h2
    exact Bool.noConfusion h2
  cases o with
  | activateParticle d' => exact (hne _ (frame_activateParticle d' s).1.isDestroyed hf).elim
  | activateNavParticle d' =>
    exact (hne _ (frame_activateNavParticle d' s).1.isDestroyed hf).elim
  | particleTick ds' => exact (hne _ (frame_activateParticles ds' s).1.isDestroyed hf).elim
  | navParticleTick ds' =>
    exact (hne _ (frame_activateNavParticles ds' s).1.isDestroyed hf).elim
  | fireInterval j ds' nds' =>
    exact (hne _ (frame_fireInterval j ds' nds' s).1.isDestroyed hf).elim
  | fireTimer j => exact (hne _ (frame_fireTimer j s).isDestroyed hf).elim
  | visibilitychange h =>
    have : h = false := hf
    rw [this]
  | advanceClock dt => exact (hne _ rfl hf).elim
  | forceCleanup => exact (hne _ (frame_forceCleanup s).1.isDestroyed hf).elim
  | destroy =>
    have h1 : (destroy s).isDestroyed = false := hf
    rw [isDestroyed_destroy] at h1
    exact Bool.noConfusion h1

/-- The flag transitions on the sample instance with the tab hidden: isDestroyed is true, and
showing the tab again takes it back to false. -/
theorem lifecycle_flag_transitions_witness :
    (visibilitychange true sampleState).isDestroyed = true ∧
      ((Op.visibilitychange false).apply (visibilitychange true sampleState)).isDestroyed
        = false ∧
      (destroy sampleState).isDestroyed = true ∧
      Op.visibilitychange false = Op.visibilitychange false :=
  ⟨rfl, rfl,
    (lifecycle_flag_transitions sampleState sampleDraws sampleNavDraws (fun _ => sampleDraws)
      (fun _ => sampleNavDraws) 0 0 true).2.2.2.2.2.2.2.2.2.2.2.2.2.1,
    (lifecycle_flag_transitions (visibilitychange true sampleState) sampleDraws sampleNavDraws
      (fun _ => sampleDraws) (fun _ => sampleNavDraws) 0 0 true).2.2.2.2.2.2.2.2.2.2.2.2.2.2.2.2
      (Op.visibilitychange false) rfl rfl⟩

/-! ## Scroll highlighting -/

theorem updateLink_active (current : String) (link : NavLink) :
    (updateLink current link).active = decide (link.dataSection = some current) ∧
      (updateLink current link).dataSection = link.dataSection := by
  unfold updateLink
  by_cases h : link.dataSection = some current <;> cases ha : link.active <;> simp [h, ha]

theorem find?_reverse_eq_some_of_last {α : Type} (p : α → Bool) (l : List α) (i : Nat)
    (hi : i < l.length) (hp : p (l.get ⟨i, hi⟩) = true)
    (hlast : ∀ j (hj : j < l.length), i < j → p (l.get ⟨j, hj⟩) = false) :
    l.reverse.find? p = some (l.get ⟨i, hi⟩) := by
  induction l using List.reverseRecOn generalizing i with
  | nil => simp at hi
  | append_singleton l a ih =>
    rw [List.reverse_append, List.reverse_singleton, List.singleton_append, List.find?_cons]
    by_cases hil : i < l.length
    · have ha : p a = false := by
        have := hlast l.length (by simp) hil
        simpa using this
      rw [ha]
      have hget : (l ++ [a]).get ⟨i, hi⟩ = l.get ⟨i, hil⟩ := by
        simp [List.getElem_append_left hil]
      rw [hget] at hp ⊢
      apply ih i hil hp
      intro j hj hij
      have := hlast j (by simp; omega) hij
      simpa [List.getElem_append_left hj] using this
    · have hieq : i = l.length := by
        simp only [List.length_append, List.length_singleton] at hi
        omega
      subst hieq
      have hget : (l ++ [a]).get ⟨l.length, hi⟩ = a := by simp
      rw [hget] at hp ⊢
      rw [hp]

theorem find?_eq_none_of_all {α : Type} (p : α → Bool) (l : List α)
    (h : ∀ a ∈ l, p a = false) : l.reverse.find? p = none := by
  rw [List.find?_eq_none]
  intro a ha
  rw [h a (List.mem_reverse.mp ha)]
  simp

/-- C26. Scroll highlighting selects the last section reached: with a non-empty section list
and a non-empty link list in the cache, updateActiveNavigation keeps the links in their
order, leaves their data-section attributes alone and marks a link active if and only if
its data-section attribute equals current, where current is the id of the section with the
greatest index whose offsetTop - 100 the scroll position has reached, and the empty string
when no section is reached; nothing else in the state changes. When the section list or
the link list is empty (or the cache is null) the state is unchanged. -/
theorem scroll_highlighting (s : State) (c : DomCache) (scrollY : ℚ)
    (hc : s.domCache = some c) :
    (c.sections ≠ [] → c.navLinks ≠ [] →
      updateActiveNavigation scrollY s =
        { s with domCache := some (highlight (currentSection c.sections scrollY) c) } ∧
      (highlight (currentSection c.sections scrollY) c).navLinks =
        c.navLinks.map (updateLink (currentSection c.sections scrollY)) ∧
      (highlight (currentSection c.sections scrollY) c).sections = c.sections ∧
      (∀ link ∈ c.navLinks,
        (updateLink (currentSection c.sections scrollY) link).active =
          decide (link.dataSection = some (currentSection c.sections scrollY)) ∧
        (updateLink (currentSection c.sections scrollY) link).dataSection =
          link.dataSection)) ∧
    (∀ i (hi : i < c.sections.length),
      scrollY ≥ ((c.sections.get ⟨i, hi⟩).offsetTop : ℚ) - 100 →
      (∀ j (hj : j < c.sections.length), i < j →
        ¬ scrollY ≥ ((c.sections.get ⟨j, hj⟩).offsetTop : ℚ) - 100) →
      currentSection c.sections scrollY = (c.sections.get ⟨i, hi⟩).id) ∧
    ((∀ sec ∈ c.sections, ¬ scrollY ≥ (sec.offsetTop : ℚ) - 100) →
      currentSection c.sections scrollY = "") ∧
    ((c.sections = [] ∨ c.navLinks = []) → updateActiveNavigation scrollY s = s) := by
  refine ⟨?_, ?_, ?_, ?_⟩
  · intro hs hl
    refine ⟨?_, rfl, rfl, fun link _ => updateLink_active _ link⟩
    have h1 : c.sections.length ≠ 0 := fun h => hs (List.length_eq_zero.mp h)
    have h2 : c.navLinks.length ≠ 0 := fun h => hl (List.length_eq_zero.mp h)
    simp [updateActiveNavigation, hc, h1, h2]
  · intro i hi hp hlast
    unfold currentSection
    rw [find?_reverse_eq_some_of_last _ c.sections i hi (by simpa using hp)
      (fun j hj hij => by simpa using hlast j hj hij)]
  · intro h
    unfold currentSection
    rw [find?_eq_none_of_all _ c.sections (fun a ha => by simpa using h a ha)]
  · rintro (h | h) <;> simp [updateActiveNavigation, hc, h]

theorem scroll_highlighting_witness :
    navigationState.domCache = some navigationCache ∧
    currentSection navigationCache.sections 900 = "services" ∧
    (highlight (currentSection navigationCache.sections 900) navigationCache).navLinks =
      navigationCache.navLinks.map
        (updateLink (currentSection navigationCache.sections 900)) ∧
    updateActiveNavigation 900 navigationState =
      { navigationState with
        domCache := some (highlight (currentSection navigationCache.sections 900)
          navigationCache) } :=
  ⟨rfl,
   (scroll_highlighting navigationState navigationCache 900 rfl).2.1 1 (by decide)
     (by simp [navigationCache]; norm_num)
     (by
       intro j hj hij
       have hj3 : j < 3 := hj
       have hj2 : j = 2 := by omega
       subst hj2
       simp [navigationCache]
       norm_num),
   ((scroll_highlighting navigationState navigationCache 900 rfl).1
     (by simp [navigationCache]) (by simp [navigationCache])).2.1,
   ((scroll_highlighting navigationState navigationCache 900 rfl).1
     (by simp [navigationCache]) (by simp [navigationCache])).1⟩

/-! ## The destroyed flag as a gate -/

/-- C21, as stated, fails for forceCleanup: with the tab hidden (isDestroyed true) on the
constructed sample instance, a call of forceCleanup empties the foreground active set
(14, 13, 12), pushes these tokens onto the free pool and sets the display of particle 14 from
block to none; the same happens to the navigation particles 22 and 21. -/
theorem forceCleanup_ignores_destroyed_flag :
    (visibilitychange true sampleState).isDestroyed = true ∧
      (visibilitychange true sampleState).activeParticles = [14, 13, 12] ∧
      (forceCleanup (visibilitychange true sampleState)).activeParticles = [] ∧
      (visibilitychange true sampleState).particlePool =
        [0, 1, 2, 3, 4, 5, 6, 7, 8, 9, 10, 11] ∧
      (forceCleanup (visibilitychange true sampleState)).particlePool =
        [0, 1, 2, 3, 4, 5, 6, 7, 8, 9, 10, 11, 14, 13, 12] ∧
      ((visibilitychange true sampleState).style 14).display = Display.block ∧
      ((forceCleanup (visibilitychange true sampleState)).style 14).display = Display.none ∧
      (visibilitychange true sampleState).activeNavParticles = [22, 21] ∧
      (forceCleanup (visibilitychange true sampleState)).activeNavParticles = [] ∧
      (forceCleanup (visibilitychange true sampleState)).navParticlePool =
        [15, 16, 17, 18, 19, 20, 22, 21] := by
  decide

/-- C21, amended. For every state in which isDestroyed is true (whether set by destroy or by
the tab-hidden signal), each of activateParticle, activateNavParticle, the release callbacks
of both phases and monitorMemory, the only caller of forceCleanup, returns the state as it
was: the free pools and active sets of both kinds are unchanged and no style changes.
forceCleanup itself does not look at the flag; it is reached only behind the check at the
start of monitorMemory. -/
theorem destroyed_flag_gates_pool_operations (s : State) (h : s.isDestroyed = true)
    (d : ParticleDraws) (nd : NavDraws) (p : Token) :
    activateParticle d s = s ∧
      activateNavParticle nd s = s ∧
      particleFade p s = s ∧
      particleRecycle p s = s ∧
      navParticleFade p s = s ∧
      navParticleRecycle p s = s ∧
      monitorMemory s = s :=
  ⟨activateParticle_of_isDestroyed h d, activateNavParticle_of_isDestroyed h nd,
    particleFade_of_isDestroyed h p, particleRecycle_of_isDestroyed h p,
    navParticleFade_of_isDestroyed h p, navParticleRecycle_of_isDestroyed h p,
    monitorMemory_of_isDestroyed h⟩

theorem destroyed_flag_gates_pool_operations_witness :
    (visibilitychange true sampleState).isDestroyed = true ∧
      (activateParticle sampleDraws (visibilitychange true sampleState) =
          visibilitychange true sampleState ∧
        activateNavParticle sampleNavDraws (visibilitychange true sampleState) =
          visibilitychange true sampleState ∧
        particleFade 14 (visibilitychange true sampleState) =
          visibilitychange true sampleState ∧
        particleRecycle 14 (visibilitychange true sampleState) =
          visibilitychange true sampleState ∧
        navParticleFade 14 (visibilitychange true sampleState) =
          visibilitychange true sampleState ∧
        navParticleRecycle 14 (visibilitychange true sampleState) =
          visibilitychange true sampleState ∧
        monitorMemory (visibilitychange true sampleState) =
          visibilitychange true sampleState) :=
  ⟨rfl, destroyed_flag_gates_pool_operations (visibilitychange true sampleState) rfl
    sampleDraws sampleNavDraws 14⟩

/-! ## Double arithmetic -/

theorem floor_le_roundHalfEven (y : ℚ) : ⌊y⌋ ≤ roundHalfEven y := by
  unfold roundHalfEven
  simp only
  split
  · exact le_refl _
  · split
    · omega
    · split <;> omega

theorem roundHalfEven_le_floor_add_one (y : ℚ) : roundHalfEven y ≤ ⌊y⌋ + 1 := by
  unfold roundHalfEven
  simp only
  split
  · omega
  · split
    · omega
    · split <;> omega

theorem roundHalfEven_intCast (m : ℤ) : roundHalfEven (m : ℚ) = m := by
  unfold roundHalfEven
  simp

theorem le_roundHalfEven {m : ℤ} {y : ℚ} (h : (m : ℚ) ≤ y) : m ≤ roundHalfEven y :=
  (Int.le_floor.mpr h).trans (floor_le_roundHalfEven y)

theorem roundHalfEven_le {m : ℤ} {y : ℚ} (h : y ≤ (m : ℚ)) : roundHalfEven y ≤ m := by
  rcases eq_or_lt_of_le h with h1 | h1
  · rw [h1, roundHalfEven_intCast]
  · have h2 : ⌊y⌋ < m := Int.floor_lt.mpr h1
    have h3 := roundHalfEven_le_floor_add_one y
    omega

/-- Below one half above an integer the rounding goes down. -/
theorem roundHalfEven_of_lt_half {y : ℚ} {f : ℤ} (h1 : (f : ℚ) ≤ y) (h2 : y - f < 1 / 2) :
    roundHalfEven y = f := by
  have hf : ⌊y⌋ = f := Int.floor_eq_iff.mpr ⟨h1, by linarith⟩
  unfold roundHalfEven
  simp only [hf, h2, if_true]

/-- A tie above an odd integer goes up, to the even neighbour. -/
theorem roundHalfEven_of_tie_odd {y : ℚ} {f : ℤ} (h : y = f + 1 / 2) (ho : f % 2 = 1) :
    roundHalfEven y = f + 1 := by
  have hf : ⌊y⌋ = f := Int.floor_eq_iff.mpr ⟨by rw [h]; linarith, by rw [h]; linarith⟩
  have h1 : ¬ (y - f < 1 / 2) := by rw [h]; norm_num
  have h2 : ¬ (1 / 2 < y - f) := by rw [h]; norm_num
  have h3 : ¬ (f % 2 = 0) := by omega
  unfold roundHalfEven
  simp only [hf, h1, h2, h3, if_false]

theorem ulpExponent_nonpos {x : ℚ} (h : |x| < 2 ^ 53) : ulpExponent x ≤ 0 := by
  unfold ulpExponent
  apply max_le _ (by norm_num)
  by_cases hx : x = 0
  · subst hx
    simp
  · have h1 : |x| < ((2 : ℕ) : ℚ) ^ (53 : ℤ) := by
      norm_num
      norm_num at h
      exact h
    have h2 := (Int.lt_zpow_iff_log_lt (b := 2) (by norm_num) (abs_pos.mpr hx)).mp h1
    omega

/-- The spacing of the doubles in the binade of a normal number. -/
theorem ulpExponent_of_binade {x : ℚ} {k : ℤ} (h1 : (2 : ℚ) ^ k ≤ x) (h2 : x < 2 ^ (k + 1))
    (h3 : -1022 ≤ k) : ulpExponent x = k - 52 := by
  have hpos : 0 < x := lt_of_lt_of_le (by positivity) h1
  have habs : |x| = x := abs_of_pos hpos
  have a1 : k ≤ Int.log 2 x :=
    (Int.zpow_le_iff_le_log (b := 2) (by norm_num) hpos).mp (by exact_mod_cast h1)
  have a2 : Int.log 2 x < k + 1 :=
    (Int.lt_zpow_iff_log_lt (b := 2) (by norm_num) hpos).mp (by exact_mod_cast h2)
  unfold ulpExponent
  rw [habs]
  have : Int.log 2 x = k := by omega
  rw [this]
  exact max_eq_left (by omega)

theorem roundDouble_of_binade {x : ℚ} {k : ℤ} (h1 : (2 : ℚ) ^ k ≤ x) (h2 : x < 2 ^ (k + 1))
    (h3 : -1022 ≤ k) :
    roundDouble x = (roundHalfEven (x / 2 ^ (k - 52)) : ℚ) * 2 ^ (k - 52) := by
  unfold roundDouble
  rw [ulpExponent_of_binade h1 h2 h3]

/-- Rounding stays between two integers that enclose the exact value: integers below
`2 ^ 53` in absolute value are doubles. -/
theorem roundDouble_mem {a b : ℤ} {x : ℚ} (hx : |x| < 2 ^ 53) (ha : (a : ℚ) ≤ x)
    (hb : x ≤ (b : ℚ)) : (a : ℚ) ≤ roundDouble x ∧ roundDouble x ≤ (b : ℚ) := by
  have he := ulpExponent_nonpos hx
  unfold roundDouble
  generalize ulpExponent x = e at he ⊢
  obtain ⟨n, rfl⟩ := Int.exists_eq_neg_ofNat he
  have hp : (0 : ℚ) < 2 ^ n := by positivity
  have hz : (2 : ℚ) ^ (-(n : ℤ)) = (2 ^ n)⁻¹ := by
    rw [zpow_neg, zpow_natCast]
  rw [hz, div_inv_eq_mul]
  have h1 : ((a * 2 ^ n : ℤ) : ℚ) ≤ x * 2 ^ n := by
    push_cast
    exact mul_le_mul_of_nonneg_right ha hp.le
  have h2 : x * 2 ^ n ≤ ((b * 2 ^ n : ℤ) : ℚ) := by
    push_cast
    exact mul_le_mul_of_nonneg_right hb hp.le
  have h3 : ((a * 2 ^ n : ℤ) : ℚ) ≤ (roundHalfEven (x * 2 ^ n) : ℚ) := by
    exact_mod_cast le_roundHalfEven h1
  have h4 : (roundHalfEven (x * 2 ^ n) : ℚ) ≤ ((b * 2 ^ n : ℤ) : ℚ) := by
    exact_mod_cast roundHalfEven_le h2
  push_cast at h3 h4
  constructor
  · calc (a : ℚ) = a * 2 ^ n * (2 ^ n)⁻¹ := by field_simp
      _ ≤ roundHalfEven (x * 2 ^ n) * (2 ^ n)⁻¹ :=
        mul_le_mul_of_nonneg_right h3 (inv_nonneg.mpr hp.le)
  · calc (roundHalfEven (x * 2 ^ n) : ℚ) * (2 ^ n)⁻¹ ≤ b * 2 ^ n * (2 ^ n)⁻¹ :=
        mul_le_mul_of_nonneg_right h4 (inv_nonneg.mpr hp.le)
      _ = b := by field_simp

/-- The same for a value between two natural-number bounds. -/
theorem roundDouble_mem_of_nonneg {a b : ℕ} {x : ℚ} (hb53 : (b : ℚ) < 2 ^ 53)
    (ha : (a : ℚ) ≤ x) (hb : x ≤ (b : ℚ)) :
    (a : ℚ) ≤ roundDouble x ∧ roundDouble x ≤ (b : ℚ) := by
  have h0 : (0 : ℚ) ≤ x := le_trans (Nat.cast_nonneg a) ha
  have hx : |x| < 2 ^ 53 := by
    rw [abs_of_nonneg h0]
    exact lt_of_le_of_lt hb hb53
  exact roundDouble_mem (a := (a : ℤ)) (b := (b : ℤ)) hx (by exact_mod_cast ha)
    (by exact_mod_cast hb)

/-! ## Duration ranges -/

/-- The navigation duration for a draw in [0, 1) is a double in [3, 7], and the delay computed
from it a double in [3000, 7000]. -/
theorem navDuration_mem {r : ℚ} (h0 : 0 ≤ r) (h1 : r < 1) :
    (3 ≤ roundDouble (3 + roundDouble (r * 4)) ∧
      roundDouble (3 + roundDouble (r * 4)) ≤ 7) ∧
    (3000 ≤ roundDouble (roundDouble (3 + roundDouble (r * 4)) * 1000) ∧
      roundDouble (roundDouble (3 + roundDouble (r * 4)) * 1000) ≤ 7000) := by
  have a := roundDouble_mem_of_nonneg (a := 0) (b := 4) (x := r * 4) (by norm_num)
    (by push_cast; linarith) (by push_cast; linarith)
  push_cast at a
  have b := roundDouble_mem_of_nonneg (a := 3) (b := 7) (x := 3 + roundDouble (r * 4))
    (by norm_num) (by push_cast; linarith [a.1]) (by push_cast; linarith [a.2])
  push_cast at b
  have c := roundDouble_mem_of_nonneg (a := 3000) (b := 7000)
    (x := roundDouble (3 + roundDouble (r * 4)) * 1000)
    (by norm_num) (by push_cast; linarith [b.1]) (by push_cast; linarith [b.2])
  push_cast at c
  exact ⟨b, c⟩

/-- The foreground duration for a draw in [0, 1) is a double in [8, 23], and the delay
computed from it a double in [8000, 23000]. -/
theorem particleDuration_mem {r : ℚ} (h0 : 0 ≤ r) (h1 : r < 1) :
    (8 ≤ roundDouble (roundDouble (r * 15) + 8) ∧
      roundDouble (roundDouble (r * 15) + 8) ≤ 23) ∧
    (8000 ≤ roundDouble (roundDouble (roundDouble (r * 15) + 8) * 1000) ∧
      roundDouble (roundDouble (roundDouble (r * 15) + 8) * 1000) ≤ 23000) := by
  have a := roundDouble_mem_of_nonneg (a := 0) (b := 15) (x := r * 15) (by norm_num)
    (by push_cast; linarith) (by push_cast; linarith)
  push_cast at a
  have b := roundDouble_mem_of_nonneg (a := 8) (b := 23) (x := roundDouble (r * 15) + 8)
    (by norm_num) (by push_cast; linarith [a.1]) (by push_cast; linarith [a.2])
  push_cast at b
  have c := roundDouble_mem_of_nonneg (a := 8000) (b := 23000)
    (x := roundDouble (roundDouble (r * 15) + 8) * 1000)
    (by norm_num) (by push_cast; linarith [b.1]) (by push_cast; linarith [b.2])
  push_cast at c
  exact ⟨b, c⟩

/-- The largest double below 1 as a draw: `r * 4` is exact. -/
theorem roundDouble_top_mul_four :
    roundDouble ((1 - 1 / 2 ^ 53) * 4) = 4 - 1 / 2 ^ 51 := by
  rw [roundDouble_of_binade (k := 1) (by norm_num) (by norm_num) (by norm_num)]
  have h : ((1 - 1 / 2 ^ 53) * 4 : ℚ) / 2 ^ ((1 : ℤ) - 52) = ((2 ^ 53 - 1 : ℤ) : ℚ) := by
    norm_num
  rw [h, roundHalfEven_intCast]
  norm_num

/-- `3 + (4 - 2 ^ -51)` lies halfway between the doubles `7 - 2 ^ -50` and `7`; the tie goes
to the even one, `7`. -/
theorem roundDouble_three_add_top :
    roundDouble (3 + (4 - 1 / 2 ^ 51)) = 7 := by
  rw [roundDouble_of_binade (k := 2) (by norm_num) (by norm_num) (by norm_num)]
  rw [roundHalfEven_of_tie_odd (f := 7 * 2 ^ 50 - 1) (by norm_num) (by norm_num)]
  norm_num

theorem roundDouble_seven_thousand : roundDouble (7 * 1000) = 7000 := by
  rw [roundDouble_of_binade (k := 12) (by norm_num) (by norm_num) (by norm_num)]
  have h : ((7 * 1000 : ℚ)) / 2 ^ ((12 : ℤ) - 52) = ((7000 * 2 ^ 40 : ℤ) : ℚ) := by
    norm_num
  rw [h, roundHalfEven_intCast]
  norm_num

/-- `r * 15` for the largest double below 1 rounds down to `15 - 2 ^ -49`. -/
theorem roundDouble_top_mul_fifteen :
    roundDouble ((1 - 1 / 2 ^ 53) * 15) = 15 - 1 / 2 ^ 49 := by
  rw [roundDouble_of_binade (k := 3) (by norm_num) (by norm_num) (by norm_num)]
  rw [roundHalfEven_of_lt_half (f := 15 * 2 ^ 49 - 1) (by norm_num) (by norm_num)]
  norm_num

/-- `(15 - 2 ^ -49) + 8` lies halfway between the doubles `23 - 2 ^ -48` and `23`; the tie
goes to the even one, `23`. -/
theorem roundDouble_top_add_eight :
    roundDouble (15 - 1 / 2 ^ 49 + 8) = 23 := by
  rw [roundDouble_of_binade (k := 4) (by norm_num) (by norm_num) (by norm_num)]
  rw [roundHalfEven_of_tie_odd (f := 23 * 2 ^ 48 - 1) (by norm_num) (by norm_num)]
  norm_num

theorem roundDouble_twenty_three_thousand : roundDouble (23 * 1000) = 23000 := by
  rw [roundDouble_of_binade (k := 14) (by norm_num) (by norm_num) (by norm_num)]
  have h : ((23 * 1000 : ℚ)) / 2 ^ ((14 : ℤ) - 52) = ((23000 * 2 ^ 38 : ℤ) : ℚ) := by
    norm_num
  rw [h, roundHalfEven_intCast]
  norm_num

/-- C23, as stated, fails in the double arithmetic of the code: for the draw
r = 1 - 2^-53, the largest double below 1, on the constructed sample instance
activateNavParticle chooses the duration 7 (3 + r * 4 rounds up to 7, so it is not below 7)
and schedules the fade 7000 ms later, and activateParticle chooses the duration 23 and
schedules the fade 23000 ms later. -/
theorem duration_reaches_upper_bound :
    (0 : ℚ) ≤ 1 - 1 / 2 ^ 53 ∧ (1 - 1 / 2 ^ 53 : ℚ) < 1 ∧
      ((activateNavParticle ⟨1 - 1 / 2 ^ 53, 0, 0⟩ sampleState).style 20).animationDuration =
        some 7 ∧
      (activateNavParticle ⟨1 - 1 / 2 ^ 53, 0, 0⟩ sampleState).timers =
        sampleState.timers ++ [⟨sampleState.nextHandle, 7000, Callback.navParticleFade 20⟩] ∧
      ((activateParticle ⟨0, 0, 0, 1 - 1 / 2 ^ 53, 0⟩ sampleState).style 11).animationDuration =
        some 23 ∧
      (activateParticle ⟨0, 0, 0, 1 - 1 / 2 ^ 53, 0⟩ sampleState).timers =
        sampleState.timers ++ [⟨sampleState.nextHandle, 23000, Callback.particleFade 11⟩] := by
  have hd : sampleState.isDestroyed = false := by decide
  have ht : sampleState.particlePool.getLast? = some 11 := by decide
  have hu : sampleState.navParticlePool.getLast? = some 20 := by decide
  have n1 : roundDouble (3 + roundDouble ((1 - 1 / 2 ^ 53) * 4)) = 7 := by
    rw [roundDouble_top_mul_four, roundDouble_three_add_top]
  have n2 : roundDouble (roundDouble (3 + roundDouble ((1 - 1 / 2 ^ 53) * 4)) * 1000) =
      7000 := by
    rw [n1, roundDouble_seven_thousand]
  have p1 : roundDouble (roundDouble ((1 - 1 / 2 ^ 53) * 15) + 8) = 23 := by
    rw [roundDouble_top_mul_fifteen, roundDouble_top_add_eight]
  have p2 : roundDouble (roundDouble (roundDouble ((1 - 1 / 2 ^ 53) * 15) + 8) * 1000) =
      23000 := by
    rw [p1, roundDouble_twenty_three_thousand]
  refine ⟨by norm_num, by norm_num, ?_, ?_, ?_, ?_⟩
  · rw [activateNavParticle_of_getLast _ hd hu]
    simp only [setTimeout, setAt, if_true, n1]
  · rw [activateNavParticle_of_getLast _ hd hu]
    simp only [setTimeout, n2]
  · rw [activateParticle_of_getLast _ hd ht]
    simp only [setTimeout, setAt, if_true, p1]
  · rw [activateParticle_of_getLast _ hd ht]
    simp only [setTimeout, p2]

/-- C23, amended. Duration ranges in double arithmetic: for every draw r with 0 ≤ r < 1, in
a live state whose free pool is non-empty with last element t, activateNavParticle chooses
the duration 3 + r * 4 seconds, each operation rounded to the nearest double, which lies in
the closed interval [3, 7], and activateParticle the duration r * 15 + 8 seconds, rounded
likewise, which lies in [8, 23]; the duration is the animation duration written to the style
of t, and the one timeout the call appends is the fade callback of t with the delay
duration * 1000 ms, rounded to the nearest double, which lies in [3000, 7000] and in
[8000, 23000]. -/
theorem duration_ranges (s : State) (d : ParticleDraws) (nd : NavDraws) (t u : Token)
    (hd : s.isDestroyed = false)
    (ht : s.particlePool.getLast? = some t) (hu : s.navParticlePool.getLast? = some u)
    (hr : 0 ≤ d.duration ∧ d.duration < 1) (hnr : 0 ≤ nd.duration ∧ nd.duration < 1) :
    (3 ≤ roundDouble (3 + roundDouble (nd.duration * 4)) ∧
      roundDouble (3 + roundDouble (nd.duration * 4)) ≤ 7 ∧
      3000 ≤ roundDouble (roundDouble (3 + roundDouble (nd.duration * 4)) * 1000) ∧
      roundDouble (roundDouble (3 + roundDouble (nd.duration * 4)) * 1000) ≤ 7000 ∧
      ((activateNavParticle nd s).style u).animationDuration =
        some (roundDouble (3 + roundDouble (nd.duration * 4))) ∧
      (activateNavParticle nd s).timers =
        s.timers ++ [⟨s.nextHandle,
          roundDouble (roundDouble (3 + roundDouble (nd.duration * 4)) * 1000),
          Callback.navParticleFade u⟩]) ∧
    (8 ≤ roundDouble (roundDouble (d.duration * 15) + 8) ∧
      roundDouble (roundDouble (d.duration * 15) + 8) ≤ 23 ∧
      8000 ≤ roundDouble (roundDouble (roundDouble (d.duration * 15) + 8) * 1000) ∧
      roundDouble (roundDouble (roundDouble (d.duration * 15) + 8) * 1000) ≤ 23000 ∧
      ((activateParticle d s).style t).animationDuration =
        some (roundDouble (roundDouble (d.duration * 15) + 8)) ∧
      (activateParticle d s).timers =
        s.timers ++ [⟨s.nextHandle,
          roundDouble (roundDouble (roundDouble (d.duration * 15) + 8) * 1000),
          Callback.particleFade t⟩]) := by
  obtain ⟨⟨n1, n2⟩, n3, n4⟩ := navDuration_mem hnr.1 hnr.2
  obtain ⟨⟨p1, p2⟩, p3, p4⟩ := particleDuration_mem hr.1 hr.2
  refine ⟨⟨n1, n2, n3, n4, ?_, ?_⟩, ⟨p1, p2, p3, p4, ?_, ?_⟩⟩
  · rw [activateNavParticle_of_getLast nd hd hu]
    simp [setTimeout, setAt]
  · rw [activateNavParticle_of_getLast nd hd hu]
    rfl
  · rw [activateParticle_of_getLast d hd ht]
    simp [setTimeout, setAt]
  · rw [activateParticle_of_getLast d hd ht]
    rfl

theorem duration_ranges_witness :
    sampleState.isDestroyed = false ∧
      sampleState.particlePool.getLast? = some 11 ∧
      sampleState.navParticlePool.getLast? = some 20 ∧
      ((0 : ℚ) ≤ 1 / 2 ∧ (1 / 2 : ℚ) < 1) ∧
      (roundDouble (3 + roundDouble ((1 / 2 : ℚ) * 4)) ≤ 7 ∧
        (activateNavParticle ⟨1 / 2, 0, 0⟩ sampleState).timers =
          sampleState.timers ++
            [⟨sampleState.nextHandle,
              roundDouble (roundDouble (3 + roundDouble ((1 / 2 : ℚ) * 4)) * 1000),
              Callback.navParticleFade 20⟩]) ∧
      (roundDouble (roundDouble ((1 / 2 : ℚ) * 15) + 8) ≤ 23 ∧
        (activateParticle ⟨0, 0, 0, 1 / 2, 0⟩ sampleState).timers =
          sampleState.timers ++
            [⟨sampleState.nextHandle,
              roundDouble (roundDouble (roundDouble ((1 / 2 : ℚ) * 15) + 8) * 1000),
              Callback.particleFade 11⟩]) :=
  ⟨by decide, by decide, by decide, by norm_num,
    ⟨(duration_ranges sampleState ⟨0, 0, 0, 1 / 2, 0⟩ ⟨1 / 2, 0, 0⟩ 11 20 (by decide)
        (by decide) (by decide) (by norm_num) (by norm_num)).1.2.1,
      (duration_ranges sampleState ⟨0, 0, 0, 1 / 2, 0⟩ ⟨1 / 2, 0, 0⟩ 11 20 (by decide)
        (by decide) (by decide) (by norm_num) (by norm_num)).1.2.2.2.2.2⟩,
    ⟨(duration_ranges sampleState ⟨0, 0, 0, 1 / 2, 0⟩ ⟨1 / 2, 0, 0⟩ 11 20 (by decide)
        (by decide) (by decide) (by norm_num) (by norm_num)).2.2.1,
      (duration_ranges sampleState ⟨0, 0, 0, 1 / 2, 0⟩ ⟨1 / 2, 0, 0⟩ 11 20 (by decide)
        (by decide) (by decide) (by norm_num) (by norm_num)).2.2.2.2.2.2⟩⟩

/-! ## The token population -/

theorem PoolView.Population.population_step {v w : PoolView} {tokens : List Token}
    (hv : v.Population tokens) (h : ViewStep v w) : w.Population tokens := by
  obtain ⟨hm, hp⟩ := hv
  cases h with
  | activate f t hf =>
    have ht : t ∈ tokens := (hm t).mp (Or.inl (by rw [hf]; simp))
    constructor
    · intro x
      have hx := hm x
      rw [hf] at hx
      simp only [List.mem_append, List.mem_singleton] at hx
      simp only [mem_setAdd]
      constructor
      · rintro (h1 | h1 | h1)
        · exact hx.mp (Or.inl (Or.inl h1))
        · exact h1 ▸ ht
        · exact hx.mp (Or.inr h1)
      · intro h1
        rcases hx.mpr h1 with (h2 | h2) | h2
        · exact Or.inl h2
        · exact Or.inr (Or.inl h2)
        · exact Or.inr (Or.inr h2)
    · intro x hx
      simp only [List.mem_append, List.mem_singleton] at hx
      rcases hx with (h1 | h1) | h1
      · exact hp x (List.mem_append_left _ h1)
      · exact h1 ▸ ht
      · exact hp x (List.mem_append_right _ h1)
  | fade t p hperm ha =>
    refine ⟨hm, ?_⟩
    intro x hx
    simp only [List.mem_append, List.mem_singleton] at hx
    rcases hx with h1 | h1 | h1
    · exact hp x (List.mem_append_left _ (hperm.mem_iff.mpr (List.mem_cons_of_mem t h1)))
    · exact hp x (List.mem_append_right _ h1)
    · exact h1 ▸ hp t (List.mem_append_left _ (hperm.mem_iff.mpr (List.mem_cons_self t p)))
  | dropFade t p hperm hc =>
    refine ⟨hm, ?_⟩
    intro x hx
    simp only [List.mem_append] at hx
    rcases hx with h1 | h1
    · exact hp x (List.mem_append_left _ (hperm.mem_iff.mpr (List.mem_cons_of_mem t h1)))
    · exact hp x (List.mem_append_right _ h1)
  | dropRecycle t p hperm hc =>
    refine ⟨hm, ?_⟩
    intro x hx
    simp only [List.mem_append] at hx
    rcases hx with h1 | h1
    · exact hp x (List.mem_append_left _ h1)
    · exact hp x (List.mem_append_right _ (hperm.mem_iff.mpr (List.mem_cons_of_mem t h1)))
  | recycle t p hperm =>
    have ht : t ∈ tokens :=
      hp t (List.mem_append_right _ (hperm.mem_iff.mpr (List.mem_cons_self t p)))
    constructor
    · intro x
      have hx := hm x
      simp only [List.mem_append, List.mem_singleton, mem_setDelete]
      constructor
      · rintro ((h1 | h1) | h1)
        · exact hx.mp (Or.inl h1)
        · exact h1 ▸ ht
        · exact hx.mp (Or.inr h1.1)
      · intro h1
        by_cases hxt : x = t
        · exact Or.inl (Or.inr hxt)
        · rcases hx.mpr h1 with h2 | h2
          · exact Or.inl (Or.inl h2)
          · exact Or.inr ⟨h2, hxt⟩
    · intro x hx
      simp only [List.mem_append] at hx
      rcases hx with h1 | h1
      · exact hp x (List.mem_append_left _ h1)
      · exact hp x (List.mem_append_right _ (hperm.mem_iff.mpr (List.mem_cons_of_mem t h1)))

theorem PoolView.Population.population_steps {v w : PoolView} {tokens : List Token}
    (hv : v.Population tokens) (h : ViewSteps v w) : w.Population tokens := by
  induction h with
  | refl => exact hv
  | tail _ hstep ih => exact ih.population_step hstep

theorem PoolView.Live.live_population {v : PoolView} {cap : Nat} {tokens : List Token}
    (h : v.Live cap tokens) : v.Population tokens :=
  ⟨fun t => by rw [← h.perm.mem_iff, List.mem_append],
    fun t ht => h.perm.mem_iff.mp (List.mem_append_right _ (h.wf.pending_active t ht))⟩

theorem LivePools.livePools_populated {s : State} (h : LivePools s) : Populated s :=
  ⟨h.1.live_population, h.2.live_population⟩

/-- A release of a token of the pool by `forceCleanup` keeps the population. -/
theorem population_release {v : PoolView} {tokens : List Token} (hv : v.Population tokens)
    {p : Token} (hp : p ∈ tokens) (d : Bool) :
    PoolView.Population
      { destroyed := d, free := v.free ++ [p], active := setDelete p v.active,
        fading := v.fading, recycling := v.recycling } tokens := by
  refine ⟨?_, hv.pending⟩
  intro x
  have hx := hv.members x
  simp only [List.mem_append, List.mem_singleton, mem_setDelete]
  constructor
  · rintro ((h1 | h1) | h1)
    · exact hx.mp (Or.inl h1)
    · exact h1 ▸ hp
    · exact hx.mp (Or.inr h1.1)
  · intro h1
    by_cases hxt : x = p
    · exact Or.inl (Or.inr hxt)
    · rcases hx.mpr h1 with h2 | h2
      · exact Or.inl (Or.inl h2)
      · exact Or.inr ⟨h2, hxt⟩

theorem population_forceCleanupParticle {s : State} {tokens : List Token}
    (h : (particleView s).Population tokens) {p : Token} (hp : p ∈ tokens) :
    (particleView (forceCleanupParticle s p)).Population tokens := by
  unfold forceCleanupParticle
  split
  · exact population_release h hp _
  · exact h

theorem population_forceCleanupNavParticle {s : State} {tokens : List Token}
    (h : (navView s).Population tokens) {p : Token} (hp : p ∈ tokens) :
    (navView (forceCleanupNavParticle s p)).Population tokens := by
  unfold forceCleanupNavParticle
  split
  · exact population_release h hp _
  · exact h

theorem navView_forceCleanupParticle (s : State) (p : Token) :
    navView (forceCleanupParticle s p) = navView s := by
  unfold forceCleanupParticle
  split <;> rfl

theorem particleView_forceCleanupNavParticle (s : State) (p : Token) :
    particleView (forceCleanupNavParticle s p) = particleView s := by
  unfold forceCleanupNavParticle
  split <;> rfl

theorem population_foldl_forceCleanupParticle {tokens : List Token} (l : List Token)
    (hl : ∀ p ∈ l, p ∈ tokens) (s : State) (h : (particleView s).Population tokens) :
    (particleView (l.foldl forceCleanupParticle s)).Population tokens ∧
      navView (l.foldl forceCleanupParticle s) = navView s := by
  induction l generalizing s with
  | nil => exact ⟨h, rfl⟩
  | cons a l ih =>
    simp only [List.foldl_cons]
    obtain ⟨i1, i2⟩ := ih (fun p hp => hl p (List.mem_cons_of_mem a hp))
      (forceCleanupParticle s a)
      (population_forceCleanupParticle h (hl a (List.mem_cons_self a l)))
    exact ⟨i1, i2.trans (navView_forceCleanupParticle s a)⟩

theorem population_foldl_forceCleanupNavParticle {tokens : List Token} (l : List Token)
    (hl : ∀ p ∈ l, p ∈ tokens) (s : State) (h : (navView s).Population tokens) :
    (navView (l.foldl forceCleanupNavParticle s)).Population tokens ∧
      particleView (l.foldl forceCleanupNavParticle s) = particleView s := by
  induction l generalizing s with
  | nil => exact ⟨h, rfl⟩
  | cons a l ih =>
    simp only [List.foldl_cons]
    obtain ⟨i1, i2⟩ := ih (fun p hp => hl p (List.mem_cons_of_mem a hp))
      (forceCleanupNavParticle s a)
      (population_forceCleanupNavParticle h (hl a (List.mem_cons_self a l)))
    exact ⟨i1, i2.trans (particleView_forceCleanupNavParticle s a)⟩

theorem populated_forceCleanup {s : State} (h : Populated s) : Populated (forceCleanup s) := by
  unfold forceCleanup
  obtain ⟨a1, a2⟩ := population_foldl_forceCleanupParticle (s.activeParticles.take 5)
    (fun p hp => (h.1.members p).mp (Or.inr (List.mem_of_mem_take hp))) s h.1
  have hnav : (navView (List.foldl forceCleanupParticle s (s.activeParticles.take 5))).Population
      (List.range' 15 8) := by
    rw [a2]
    exact h.2
  obtain ⟨b1, b2⟩ := population_foldl_forceCleanupNavParticle
    ((List.foldl forceCleanupParticle s (s.activeParticles.take 5)).activeNavParticles.take 3)
    (fun p hp => (hnav.members p).mp (Or.inr (List.mem_of_mem_take hp))) _ hnav
  refine ⟨?_, b1⟩
  show (particleView (List.foldl forceCleanupNavParticle _ _)).Population _
  rw [b2]
  exact a1

theorem views_setTimeout_monitorMemory (delay : ℚ) (s : State) :
    particleView (setTimeout Callback.monitorMemory delay s) = particleView s ∧
      navView (setTimeout Callback.monitorMemory delay s) = navView s := by
  simp [particleView, navView, setTimeout, particleFadeOf, particleRecycleOf, navFadeOf,
    navRecycleOf]

theorem populated_monitorMemory {s : State} (h : Populated s) : Populated (monitorMemory s) := by
  have hset : ∀ t : State, Populated t → Populated (setTimeout Callback.monitorMemory 5000 t) := by
    intro t ht
    unfold Populated
    rw [(views_setTimeout_monitorMemory 5000 t).1, (views_setTimeout_monitorMemory 5000 t).2]
    exact ht
  have hmm : ∀ mm : Option MemoryMonitor, Populated { s with memoryMonitor := mm } :=
    fun _ => h
  unfold monitorMemory
  split
  · exact h
  · split
    · exact h
    · apply hset
      split
      · dsimp only
        split
        · exact populated_forceCleanup (hmm _)
        · exact hmm _
      · exact h

theorem populated_eraseIdx {s : State} (h : Populated s) (i : Nat) :
    Populated { s with timers := s.timers.eraseIdx i } := by
  have hsub : ∀ f : Timer → Option Token,
      ∀ t ∈ (s.timers.eraseIdx i).filterMap f, t ∈ s.timers.filterMap f :=
    fun f t ht => ((List.eraseIdx_sublist s.timers i).filterMap f).subset ht
  refine ⟨⟨h.1.members, ?_⟩, ⟨h.2.members, ?_⟩⟩
  · intro t ht
    simp only [particleView, List.mem_append] at ht
    rcases ht with h1 | h1
    · exact h.1.pending t (List.mem_append_left _ (hsub _ t h1))
    · exact h.1.pending t (List.mem_append_right _ (hsub _ t h1))
  · intro t ht
    simp only [navView, List.mem_append] at ht
    rcases ht with h1 | h1
    · exact h.2.pending t (List.mem_append_left _ (hsub _ t h1))
    · exact h.2.pending t (List.mem_append_right _ (hsub _ t h1))

theorem populated_apply {s : State} (h : Populated s) (o : Op)
    (ho : o.isBeforeDestroy = true) : Populated (o.apply s) := by
  by_cases hm : o.firesMonitorMemory s = true
  · obtain ⟨i, hi⟩ := apply_of_firesMonitorMemory o s hm
    rw [hi]
    exact populated_monitorMemory (populated_eraseIdx h i)
  · cases hu : o.isUnsuspended with
    | true =>
      obtain ⟨h1, h2⟩ := viewSteps_apply_of_callback o hu (fun hf => absurd hf hm)
      exact ⟨h.1.population_steps h1, h.2.population_steps h2⟩
    | false =>
      cases o with
      | visibilitychange b => exact ⟨⟨h.1.members, h.1.pending⟩, ⟨h.2.members, h.2.pending⟩⟩
      | forceCleanup => exact populated_forceCleanup h
      | destroy => simp [Op.isBeforeDestroy] at ho
      | _ => simp [Op.isUnsuspended] at hu

theorem populated_run {s : State} (h : Populated s) (ops : List Op)
    (ho : ∀ o ∈ ops, o.isBeforeDestroy = true) : Populated (run ops s) := by
  induction ops generalizing s with
  | nil => exact h
  | cons o ops ih =>
    simp only [BoroTech.run, List.foldl_cons]
    exact ih (populated_apply h o (ho o (List.mem_cons_self o ops)))
      (fun o' ho' => ho o' (List.mem_cons_of_mem o ho'))

/-! ## No token is created after initialisation -/

theorem nextToken_apply (o : Op) (s : State) : (o.apply s).nextToken = s.nextToken := by
  cases o with
  | activateParticle d => exact (frame_activateParticle d s).1.nextToken
  | activateNavParticle d => exact (frame_activateNavParticle d s).1.nextToken
  | particleTick ds => exact (frame_activateParticles ds s).1.nextToken
  | navParticleTick ds => exact (frame_activateNavParticles ds s).1.nextToken
  | fireInterval i ds nds => exact (frame_fireInterval i ds nds s).1.nextToken
  | fireTimer i => exact (frame_fireTimer i s).nextToken
  | visibilitychange b => rfl
  | advanceClock dt => rfl
  | forceCleanup => exact (frame_forceCleanup s).1.nextToken
  | destroy =>
    simp only [Op.apply]
    rw [destroy_eq]

theorem nextToken_run (ops : List Op) (s : State) : (run ops s).nextToken = s.nextToken := by
  induction ops generalizing s with
  | nil => rfl
  | cons o ops ih =>
    simp only [BoroTech.run, List.foldl_cons]
    exact (ih (o.apply s)).trans (nextToken_apply o s)

theorem nextToken_createNavigationParticlesPool (s : State) :
    (createNavigationParticlesPool s).nextToken = s.nextToken + 8 := by
  unfold createNavigationParticlesPool
  exact (iterate_createNavParticlePool 8 _).2.1

theorem nextToken_startNavParticleAnimation (ds : Nat → NavDraws) (s : State) :
    (startNavParticleAnimation ds s).nextToken = s.nextToken := by
  unfold startNavParticleAnimation
  split
  · rfl
  · exact (frame_activateNavParticles ds s).1.nextToken

theorem nextToken_freshPools (now : ℤ) : (freshPools now).nextToken = 23 := by
  unfold freshPools
  rw [nextToken_createNavigationParticlesPool, nextToken_initParticleSystemPool]
  rfl

theorem nextToken_construct (doc : Document) (ds : Nat → ParticleDraws) (nds : Nat → NavDraws)
    (now : ℤ) (hh : doc.heroSection = true) (hn : doc.navContainer = true) :
    (construct doc ds nds now).nextToken = 23 := by
  have h0 : (initializeDOMCache doc (constructorFields now)).nextToken = 0 := rfl
  unfold construct createNavigationParticles init initParticleSystem
  simp only [hh, hn, Bool.not_true, Bool.false_eq_true, if_false]
  generalize initializeDOMCache doc (constructorFields now) = s0 at h0 ⊢
  rw [nextToken_startNavParticleAnimation, nextToken_createNavigationParticlesPool,
    (frame_monitorPerformance _).1.nextToken, (frame_monitorMemory _).nextToken,
    nextToken_startParticleAnimation, nextToken_initParticleSystemPool, h0]

theorem Initial.initial_nextToken {s : State} (h : Initial s) : s.nextToken = 23 := by
  rcases h with ⟨now, rfl⟩ | ⟨doc, ds, nds, now, hh, hn, rfl⟩
  · exact nextToken_freshPools now
  · exact nextToken_construct doc ds nds now hh hn

/-- C22. Fixed token population: initialisation creates the 23 tokens 0 to 22 (15 foreground,
8 navigation), and after every sequence of operations without destroy (activate calls,
scheduler ticks, timeout firings, that is release callbacks and monitor cycles, forceCleanup
calls, clock advances and suspend/resume flips) a token is in the foreground free pool or
active set exactly if it is one of 0 to 14, a token is in the navigation free pool or active
set exactly if it is one of 15 to 22, and no token has been created since. -/
theorem fixed_token_population (s : State) (ops : List Op) (hs : Initial s)
    (ho : ∀ o ∈ ops, o.isBeforeDestroy = true) :
    (∀ t : Nat, (t ∈ (run ops s).particlePool ∨ t ∈ (run ops s).activeParticles) ↔ t < 15) ∧
      (∀ t : Nat, (t ∈ (run ops s).navParticlePool ∨ t ∈ (run ops s).activeNavParticles) ↔
        15 ≤ t ∧ t < 23) ∧
      s.nextToken = 23 ∧ (run ops s).nextToken = 23 := by
  have h := populated_run hs.initial_livePools.livePools_populated ops ho
  refine ⟨?_, ?_, hs.initial_nextToken, (nextToken_run ops s).trans hs.initial_nextToken⟩
  · intro t
    have := h.1.members t
    simp only [particleView, List.mem_range'_1] at this
    exact this.trans ⟨fun h1 => by omega, fun h1 => by omega⟩
  · intro t
    have := h.2.members t
    simp only [navView, List.mem_range'_1] at this
    exact this.trans ⟨fun h1 => by omega, fun h1 => by omega⟩

theorem fixed_token_population_witness :
    Initial sampleState ∧
      (∀ o ∈ [Op.fireTimer 0, Op.forceCleanup, Op.fireTimer 6, Op.visibilitychange true],
        o.isBeforeDestroy = true) ∧
      ((∀ t : Nat, (t ∈ (run [Op.fireTimer 0, Op.forceCleanup, Op.fireTimer 6,
            Op.visibilitychange true] sampleState).particlePool ∨
          t ∈ (run [Op.fireTimer 0, Op.forceCleanup, Op.fireTimer 6,
            Op.visibilitychange true] sampleState).activeParticles) ↔ t < 15) ∧
        (∀ t : Nat, (t ∈ (run [Op.fireTimer 0, Op.forceCleanup, Op.fireTimer 6,
            Op.visibilitychange true] sampleState).navParticlePool ∨
          t ∈ (run [Op.fireTimer 0, Op.forceCleanup, Op.fireTimer 6,
            Op.visibilitychange true] sampleState).activeNavParticles) ↔ 15 ≤ t ∧ t < 23) ∧
        sampleState.nextToken = 23 ∧
        (run [Op.fireTimer 0, Op.forceCleanup, Op.fireTimer 6,
          Op.visibilitychange true] sampleState).nextToken = 23) :=
  ⟨initial_sampleState, by simp [Op.isBeforeDestroy],
    fixed_token_population sampleState _ initial_sampleState (by simp [Op.isBeforeDestroy])⟩

/-! ## Pools within their population -/

theorem PoolView.Bounded.bounded_step {v w : PoolView} {tokens : List Token}
    (hv : v.Bounded tokens) (h : ViewStep v w) : w.Bounded tokens := by
  obtain ⟨fn, an, dj, mem, pn, pf, pm⟩ := hv
  cases h with
  | activate f t h =>
    have htfree : t ∈ v.free := by rw [h]; simp
    rw [h] at fn
    have htf : t ∉ f := by
      intro hm
      exact (List.nodup_append.mp fn).2.2 hm (List.mem_singleton_self t)
    have hff : ∀ x ∈ f, x ∈ v.free := by
      intro x hx
      rw [h]
      exact List.mem_append_left _ hx
    have htp : t ∉ v.fading ++ v.recycling := fun hm => pf t hm htfree
    refine ⟨(List.nodup_append.mp fn).1, nodup_setAdd an, ?_, ?_, ?_, ?_, ?_⟩
    · intro x hx hxa
      rcases mem_setAdd.mp hxa with rfl | hxa
      · exact htf hx
      · exact dj x (hff x hx) hxa
    · rintro x (hx | hx)
      · exact mem x (Or.inl (hff x hx))
      · rcases mem_setAdd.mp hx with rfl | hx
        · exact mem x (Or.inl htfree)
        · exact mem x (Or.inr hx)
    · have hperm : (v.fading ++ [t] ++ v.recycling).Perm (t :: (v.fading ++ v.recycling)) := by
        simp
      exact hperm.nodup_iff.mpr (List.nodup_cons.mpr ⟨htp, pn⟩)
    · intro x hx hxf
      simp only [List.mem_append, List.mem_singleton] at hx
      rcases hx with (hx | rfl) | hx
      · exact pf x (List.mem_append_left _ hx) (hff x hxf)
      · exact htf hxf
      · exact pf x (List.mem_append_right _ hx) (hff x hxf)
    · intro x hx
      simp only [List.mem_append, List.mem_singleton] at hx
      rcases hx with (hx | rfl) | hx
      · exact pm x (List.mem_append_left _ hx)
      · exact mem x (Or.inl htfree)
      · exact pm x (List.mem_append_right _ hx)
  | fade t p h ha =>
    have hperm : (p ++ (v.recycling ++ [t])).Perm (v.fading ++ v.recycling) := by
      have h1 : (p ++ (v.recycling ++ [t])).Perm (t :: p ++ v.recycling) := by
        have : (p ++ (v.recycling ++ [t])).Perm ((v.recycling ++ [t]) ++ p) :=
          List.perm_append_comm
        refine this.trans ?_
        have h2 : (v.recycling ++ [t] ++ p).Perm (v.recycling ++ (t :: p)) := by simp
        refine h2.trans ?_
        exact List.perm_append_comm
      exact h1.trans (h.symm.append_right v.recycling)
    exact ⟨fn, an, dj, mem, hperm.nodup_iff.mpr pn, fun x hx => pf x (hperm.mem_iff.mp hx),
      fun x hx => pm x (hperm.mem_iff.mp hx)⟩
  | dropFade t p h _ =>
    have hsub : ∀ x, x ∈ p ++ v.recycling → x ∈ v.fading ++ v.recycling := by
      intro x hx
      rcases List.mem_append.mp hx with hx | hx
      · exact List.mem_append.mpr (Or.inl (h.mem_iff.mpr (List.mem_cons_of_mem t hx)))
      · exact List.mem_append.mpr (Or.inr hx)
    have hn : (t :: p ++ v.recycling).Nodup := (h.append_right v.recycling).nodup_iff.mp pn
    exact ⟨fn, an, dj, mem, (List.nodup_cons.mp hn).2, fun x hx => pf x (hsub x hx),
      fun x hx => pm x (hsub x hx)⟩
  | dropRecycle t p h _ =>
    have hsub : ∀ x, x ∈ v.fading ++ p → x ∈ v.fading ++ v.recycling := by
      intro x hx
      rcases List.mem_append.mp hx with hx | hx
      · exact List.mem_append.mpr (Or.inl hx)
      · exact List.mem_append.mpr (Or.inr (h.mem_iff.mpr (List.mem_cons_of_mem t hx)))
    have hn : (v.fading ++ t :: p).Nodup := (h.append_left v.fading).nodup_iff.mp pn
    exact ⟨fn, an, dj, mem, (List.nodup_cons.mp (List.nodup_middle.mp hn)).2,
      fun x hx => pf x (hsub x hx), fun x hx => pm x (hsub x hx)⟩
  | recycle t p h =>
    have hsub : ∀ x, x ∈ v.fading ++ p → x ∈ v.fading ++ v.recycling := by
      intro x hx
      rcases List.mem_append.mp hx with hx | hx
      · exact List.mem_append.mpr (Or.inl hx)
      · exact List.mem_append.mpr (Or.inr (h.mem_iff.mpr (List.mem_cons_of_mem t hx)))
    have hn : (v.fading ++ t :: p).Nodup := (h.append_left v.fading).nodup_iff.mp pn
    have hn2 := List.nodup_cons.mp (List.nodup_middle.mp hn)
    have htr : t ∈ v.fading ++ v.recycling :=
      List.mem_append.mpr (Or.inr (h.mem_iff.mpr (List.mem_cons_self t p)))
    have htf : t ∉ v.free := pf t htr
    refine ⟨?_, nodup_setDelete an, ?_, ?_, hn2.2, ?_, fun x hx => pm x (hsub x hx)⟩
    · rw [List.nodup_append]
      refine ⟨fn, List.nodup_singleton t, ?_⟩
      intro a ha hb
      simp only [List.mem_singleton] at hb
      subst hb
      exact htf ha
    · intro x hx hxa
      have hxa2 := mem_setDelete.mp hxa
      rcases List.mem_append.mp hx with hx | hx
      · exact dj x hx hxa2.1
      · simp only [List.mem_singleton] at hx
        exact hxa2.2 hx
    · rintro x (hx | hx)
      · rcases List.mem_append.mp hx with hx | hx
        · exact mem x (Or.inl hx)
        · simp only [List.mem_singleton] at hx
          exact hx ▸ pm t htr
      · exact mem x (Or.inr (mem_setDelete.mp hx).1)
    · intro x hx hxf
      rcases List.mem_append.mp hxf with hxf | hxf
      · exact pf x (hsub x hx) hxf
      · simp only [List.mem_singleton] at hxf
        subst hxf
        exact hn2.1 hx

theorem PoolView.Bounded.bounded_steps {v w : PoolView} {tokens : List Token}
    (hv : v.Bounded tokens) (h : ViewSteps v w) : w.Bounded tokens := by
  induction h with
  | refl => exact hv
  | tail _ hstep ih => exact ih.bounded_step hstep

theorem PoolView.Live.live_bounded {v : PoolView} {cap : Nat} {tokens : List Token}
    (h : v.Live cap tokens) : v.Bounded tokens :=
  ⟨h.wf.free_nodup, h.wf.active_nodup, h.wf.disjoint,
    fun _ ht => h.perm.mem_iff.mp (List.mem_append.mpr ht), h.wf.pending_nodup,
    fun t ht hf => h.wf.disjoint t hf (h.wf.pending_active t ht),
    fun t ht => h.perm.mem_iff.mp (List.mem_append_right _ (h.wf.pending_active t ht))⟩

theorem PoolView.Bounded.length_le {v : PoolView} {tokens : List Token}
    (h : v.Bounded tokens) : v.free.length + v.active.length ≤ tokens.length := by
  have hn : (v.free ++ v.active).Nodup :=
    List.nodup_append.mpr ⟨h.free_nodup, h.active_nodup, fun a ha hb => h.disjoint a ha hb⟩
  have hsub : v.free ++ v.active ⊆ tokens := fun a ha => h.members a (List.mem_append.mp ha)
  have := (List.subperm_of_subset hn hsub).length_le
  rwa [List.length_append] at this

/-- Emptying the free pool and the active set and dropping pending timeouts keeps a pool
within its population. -/
theorem PoolView.Bounded.bounded_clear {v w : PoolView} {tokens : List Token}
    (h : v.Bounded tokens) (hf : w.free = []) (ha : w.active = [])
    (h1 : w.fading.Sublist v.fading) (h2 : w.recycling.Sublist v.recycling) :
    w.Bounded tokens := by
  have hs : (w.fading ++ w.recycling).Sublist (v.fading ++ v.recycling) := h1.append h2
  refine ⟨?_, ?_, ?_, ?_, h.pending_nodup.sublist hs, ?_, fun t ht => h.pending t (hs.subset ht)⟩
  · rw [hf]; exact List.nodup_nil
  · rw [ha]; exact List.nodup_nil
  · intro t ht; rw [hf] at ht; simp at ht
  · intro t ht; rw [hf, ha] at ht; simp at ht
  · intro t _ ht; rw [hf] at ht; simp at ht

theorem pools_destroy (s : State) :
    (destroy s).particlePool = [] ∧ (destroy s).activeParticles = [] ∧
      (destroy s).navParticlePool = [] ∧ (destroy s).activeNavParticles = [] ∧
      (destroy s).timers.Sublist s.timers := by
  rw [destroy_eq]
  exact ⟨rfl, rfl, rfl, rfl, (List.filter_sublist _).trans (List.filter_sublist _)⟩

theorem boundedPools_destroy {s : State} (h : BoundedPools s) : BoundedPools (destroy s) := by
  obtain ⟨T1, T2, l1, l2, b1, b2⟩ := h
  obtain ⟨a1, a2, a3, a4, a5⟩ := pools_destroy s
  exact ⟨T1, T2, l1, l2, b1.bounded_clear a1 a2 (a5.filterMap _) (a5.filterMap _),
    b2.bounded_clear a3 a4 (a5.filterMap _) (a5.filterMap _)⟩

theorem BoundedPools.bounded_sizes {s : State} (h : BoundedPools s) :
    s.activeParticles.length + s.particlePool.length ≤ 15 ∧
      s.activeNavParticles.length + s.navParticlePool.length ≤ 8 := by
  obtain ⟨T1, T2, l1, l2, b1, b2⟩ := h
  have h1 := b1.length_le
  have h2 := b2.length_le
  simp only [particleView, navView] at h1 h2
  omega

theorem BoundedPools.bounded_belowMarks {s : State} (h : BoundedPools s) : BelowMarks s := by
  obtain ⟨h1, h2⟩ := h.bounded_sizes
  unfold BelowMarks
  omega

theorem LivePools.livePools_bounded {s : State} (h : LivePools s) : BoundedPools s :=
  ⟨List.range' 0 15, List.range' 15 8, by simp, by simp, h.1.live_bounded, h.2.live_bounded⟩

theorem BoundedPools.bounded_apply {s : State} (h : BoundedPools s) (o : Op)
    (ho : o.isOwnWork = true) : BoundedPools (o.apply s) := by
  have hb := h.bounded_belowMarks
  cases hu : o.isUnsuspended with
  | true =>
    obtain ⟨T1, T2, l1, l2, b1, b2⟩ := h
    obtain ⟨h1, h2⟩ := viewSteps_apply o hu hb
    exact ⟨T1, T2, l1, l2, b1.bounded_steps h1, b2.bounded_steps h2⟩
  | false =>
    cases o with
    | visibilitychange b =>
      obtain ⟨T1, T2, l1, l2, b1, b2⟩ := h
      exact ⟨T1, T2, l1, l2, ⟨b1.free_nodup, b1.active_nodup, b1.disjoint, b1.members,
        b1.pending_nodup, b1.pending_free, b1.pending⟩, ⟨b2.free_nodup, b2.active_nodup,
        b2.disjoint, b2.members, b2.pending_nodup, b2.pending_free, b2.pending⟩⟩
    | forceCleanup => simp [Op.isOwnWork] at ho
    | destroy => exact boundedPools_destroy h
    | _ => simp [Op.isUnsuspended] at hu

theorem BoundedPools.bounded_run {s : State} (h : BoundedPools s) (ops : List Op)
    (ho : ∀ o ∈ ops, o.isOwnWork = true) : BoundedPools (run ops s) := by
  induction ops generalizing s with
  | nil => exact h
  | cons o ops ih =>
    simp only [BoroTech.run, List.foldl_cons]
    exact ih (h.bounded_apply o (ho o (List.mem_cons_self o ops)))
      (fun o' ho' => ho o' (List.mem_cons_of_mem o ho'))

/-! ## Construction on any page -/

theorem bounded_of_empty {v : PoolView} (hf : v.free = []) (ha : v.active = [])
    (h1 : v.fading = []) (h2 : v.recycling = []) : v.Bounded [] := by
  refine ⟨?_, ?_, ?_, ?_, ?_, ?_, ?_⟩ <;> simp [hf, ha, h1, h2]

theorem PoolView.WF.wf_bounded {v : PoolView} {cap : Nat} {tokens : List Token}
    (h : v.WF cap) (hm : ∀ t, t ∈ v.free ∨ t ∈ v.active → t ∈ tokens) : v.Bounded tokens :=
  ⟨h.free_nodup, h.active_nodup, h.disjoint, hm, h.pending_nodup,
    fun t ht hf => h.disjoint t hf (h.pending_active t ht),
    fun t ht => hm t (Or.inr (h.pending_active t ht))⟩

theorem bounded_initParticleSystem (doc : Document) (ds : Nat → ParticleDraws) (s : State)
    (hf : (particleView s).free = []) (ha : (particleView s).active = [])
    (h1 : (particleView s).fading = []) (h2 : (particleView s).recycling = []) :
    (∃ T : List Token, T.length ≤ 15 ∧
        (particleView (initParticleSystem doc ds s)).Bounded T) ∧
      navView (initParticleSystem doc ds s) = navView s := by
  unfold initParticleSystem
  split
  · exact ⟨⟨[], by simp, bounded_of_empty hf ha h1 h2⟩, rfl⟩
  · obtain ⟨a1, a2, a3, a4, a5, -⟩ := initParticleSystemPool_views s
    have wf1 : (particleView (initParticleSystemPool s)).WF 15 :=
      wf_of_fresh a1 a2 (a3.trans h1) (a4.trans h2)
    have b1 : (particleView (initParticleSystemPool s)).Bounded (List.range' s.nextToken 15) :=
      wf1.wf_bounded (fun t ht => by
        rw [a1, a2] at ht
        simpa using ht)
    obtain ⟨c1, c2⟩ := startParticleAnimation_views ds (initParticleSystemPool s)
    exact ⟨⟨_, by simp, b1.bounded_steps c1⟩, c2.trans a5⟩

theorem bounded_createNavigationParticles (doc : Document) (ds : Nat → NavDraws) (s : State)
    (hf : (navView s).free = []) (ha : (navView s).active = [])
    (h1 : (navView s).fading = []) (h2 : (navView s).recycling = []) :
    (∃ T : List Token, T.length ≤ 8 ∧
        (navView (createNavigationParticles doc ds s)).Bounded T) ∧
      particleView (createNavigationParticles doc ds s) = particleView s := by
  unfold createNavigationParticles
  split
  · exact ⟨⟨[], by simp, bounded_of_empty hf ha h1 h2⟩, rfl⟩
  · obtain ⟨a1, a2, a3, a4, a5, -⟩ := createNavigationParticlesPool_views s
    have wf1 : (navView (createNavigationParticlesPool s)).WF 8 :=
      wf_of_fresh a1 a2 (a3.trans h1) (a4.trans h2)
    have b1 : (navView (createNavigationParticlesPool s)).Bounded (List.range' s.nextToken 8) :=
      wf1.wf_bounded (fun t ht => by
        rw [a1, a2] at ht
        simpa using ht)
    obtain ⟨c1, c2⟩ := startNavParticleAnimation_views ds (createNavigationParticlesPool s)
    exact ⟨⟨_, by simp, b1.bounded_steps c1⟩, c2.trans a5⟩

theorem boundedPools_construct (doc : Document) (ds : Nat → ParticleDraws)
    (nds : Nat → NavDraws) (now : ℤ) : BoundedPools (construct doc ds nds now) := by
  have p0 : particleView (initializeDOMCache doc (constructorFields now)) =
      ⟨false, [], [], [], []⟩ := rfl
  have n0 : navView (initializeDOMCache doc (constructorFields now)) =
      ⟨false, [], [], [], []⟩ := rfl
  unfold construct init
  generalize initializeDOMCache doc (constructorFields now) = s0 at p0 n0 ⊢
  obtain ⟨⟨T1, l1, b1⟩, nv2⟩ := bounded_initParticleSystem doc ds s0
    (by rw [p0]) (by rw [p0]) (by rw [p0]) (by rw [p0])
  generalize initParticleSystem doc ds s0 = s2 at b1 nv2 ⊢
  have nv2e : navView s2 = ⟨false, [], [], [], []⟩ := nv2.trans n0
  have bm2 : BelowMarks s2 := by
    have h1 := b1.length_le
    have h2 : (navView s2).free = [] := by rw [nv2e]
    have h3 : (navView s2).active = [] := by rw [nv2e]
    simp only [particleView, navView] at h1 h2 h3
    unfold BelowMarks
    rw [h2, h3]
    simp only [List.length_nil]
    omega
  obtain ⟨d1, d2⟩ := monitorMemory_views s2 bm2
  obtain ⟨e1, e2⟩ := monitorPerformance_views (monitorMemory s2)
  generalize monitorPerformance (monitorMemory s2) = s4 at e1 e2 ⊢
  have nv4 : navView s4 = ⟨false, [], [], [], []⟩ := (e2.trans d2).trans nv2e
  obtain ⟨⟨T2, l2, b2⟩, pv5⟩ := bounded_createNavigationParticles doc nds s4
    (by rw [nv4]) (by rw [nv4]) (by rw [nv4]) (by rw [nv4])
  refine ⟨T1, T2, l1, l2, ?_, b2⟩
  rw [pv5, e1, d1]
  exact b1

theorem Constructed.constructed_bounded {s : State} (h : Constructed s) : BoundedPools s := by
  rcases h with ⟨now, rfl⟩ | ⟨doc, ds, nds, now, rfl⟩
  · exact (livePools_freshPools now).livePools_bounded
  · exact boundedPools_construct doc ds nds now

theorem cleanupRuns_of_belowMarks {s : State} (h : BelowMarks s) : cleanupRuns s = false := by
  obtain ⟨h1, h2⟩ := h
  have c1 : ¬ (s.activeParticles.length + s.particlePool.length > 50) := by omega
  have c2 : ¬ (s.activeNavParticles.length + s.navParticlePool.length > 20) := by omega
  simp [cleanupRuns, c1, c2]

/-- A monitor cycle of a live instance that does not reach `forceCleanup`: it takes the
counts if the check is due, and schedules its successor. -/
theorem monitorMemory_of_belowMarks {s : State} {m : MemoryMonitor} (hb : BelowMarks s)
    (hd : s.isDestroyed = false) (hm : s.memoryMonitor = some m) :
    monitorMemory s =
      setTimeout Callback.monitorMemory 5000
        (if s.now - m.lastCheck > 30000 then recount s else s) := by
  by_cases ht : s.now - m.lastCheck > 30000
  · rw [if_pos ht]
    exact monitorMemory_of_calm hd hm ht hb
  · rw [if_neg ht]
    unfold monitorMemory
    simp only [hd, hm, Bool.false_eq_true, if_false, ht]

/-- C25. The overload correction is unreachable in normal operation: in every state reached
from construction (the constructor on any page, or the freshly created pools) by operations
other than a direct forceCleanup call (activate calls, scheduler ticks, timeout firings, that
is release callbacks of both phases and monitor cycles, clock advances, suspend/resume flips
and destroy), activeParticles.size + particlePool.length ≤ 15 and activeNavParticles.size +
navParticlePool.length ≤ 8, so the condition particleCount > 50 || navParticleCount > 20 is
false, a monitorMemory call in that state (also as a fired timeout) does not reach
forceCleanup, and on a live instance it only takes the counts when the check is due and
schedules its successor. -/
theorem overload_correction_unreachable (s : State) (ops : List Op) (hs : Constructed s)
    (ho : ∀ o ∈ ops, o.isOwnWork = true) :
    (run ops s).activeParticles.length + (run ops s).particlePool.length ≤ 15 ∧
      (run ops s).activeNavParticles.length + (run ops s).navParticlePool.length ≤ 8 ∧
      ¬ ((run ops s).activeParticles.length + (run ops s).particlePool.length > 50 ∨
        (run ops s).activeNavParticles.length + (run ops s).navParticlePool.length > 20) ∧
      cleanupRuns (run ops s) = false ∧
      (∀ i, cleanupRuns { run ops s with timers := (run ops s).timers.eraseIdx i } = false) ∧
      (∀ m, (run ops s).isDestroyed = false → (run ops s).memoryMonitor = some m →
        monitorMemory (run ops s) =
          setTimeout Callback.monitorMemory 5000
            (if (run ops s).now - m.lastCheck > 30000 then recount (run ops s)
             else run ops s)) := by
  have h := hs.constructed_bounded.bounded_run ops ho
  have hb := h.bounded_belowMarks
  obtain ⟨h1, h2⟩ := h.bounded_sizes
  refine ⟨h1, h2, by omega, cleanupRuns_of_belowMarks hb,
    fun i => cleanupRuns_of_belowMarks (s := { run ops s with
      timers := (run ops s).timers.eraseIdx i }) hb,
    fun m hd hm => monitorMemory_of_belowMarks hb hd hm⟩

theorem overload_correction_unreachable_witness :
    Constructed sampleState ∧
      (∀ o ∈ [Op.fireTimer 0, Op.visibilitychange true, Op.destroy,
          Op.visibilitychange false, Op.fireTimer 6],
        o.isOwnWork = true) ∧
      (run [Op.fireTimer 0, Op.visibilitychange true, Op.destroy, Op.visibilitychange false,
          Op.fireTimer 6] sampleState).activeParticles.length +
        (run [Op.fireTimer 0, Op.visibilitychange true, Op.destroy, Op.visibilitychange false,
          Op.fireTimer 6] sampleState).particlePool.length ≤ 15 ∧
      cleanupRuns (run [Op.fireTimer 0, Op.visibilitychange true, Op.destroy,
          Op.visibilitychange false, Op.fireTimer 6] sampleState) = false :=
  ⟨Or.inr ⟨samplePage, fun _ => sampleDraws, fun _ => sampleNavDraws, 0, rfl⟩,
    by simp [Op.isOwnWork],
    (overload_correction_unreachable sampleState _
      (Or.inr ⟨samplePage, fun _ => sampleDraws, fun _ => sampleNavDraws, 0, rfl⟩)
      (by simp [Op.isOwnWork])).1,
    (overload_correction_unreachable sampleState _
      (Or.inr ⟨samplePage, fun _ => sampleDraws, fun _ => sampleNavDraws, 0, rfl⟩)
      (by simp [Op.isOwnWork])).2.2.2.1⟩

/-! ## The monitor loop -/

theorem monitorCalls_congr {s t : State} (h : t.timers = s.timers) :
    monitorCalls t = monitorCalls s := by
  unfold monitorCalls
  rw [h]

theorem monitorCalls_setTimeout_of_ne {cb : Callback} (h : cb ≠ Callback.monitorMemory)
    (delay : ℚ) (s : State) : monitorCalls (setTimeout cb delay s) = monitorCalls s := by
  simp [monitorCalls, setTimeout, Timer.isMonitorMemory, List.countP_append, h]

theorem monitorCalls_setTimeout_monitorMemory (delay : ℚ) (s : State) :
    monitorCalls (setTimeout Callback.monitorMemory delay s) = monitorCalls s + 1 := by
  simp [monitorCalls, setTimeout, Timer.isMonitorMemory, List.countP_append]

theorem monitorCalls_foldl {α : Type} (f : State → α → State)
    (hf : ∀ s a, monitorCalls (f s a) = monitorCalls s) (l : List α) (s : State) :
    monitorCalls (l.foldl f s) = monitorCalls s := by
  induction l generalizing s with
  | nil => rfl
  | cons a l ih => exact (ih (f s a)).trans (hf s a)

theorem monitorCalls_activateParticle (d : ParticleDraws) (s : State) :
    monitorCalls (activateParticle d s) = monitorCalls s := by
  unfold activateParticle
  split
  · rfl
  · split
    · rfl
    · exact (monitorCalls_setTimeout_of_ne (by simp) _ _).trans (monitorCalls_congr rfl)

theorem monitorCalls_activateNavParticle (d : NavDraws) (s : State) :
    monitorCalls (activateNavParticle d s) = monitorCalls s := by
  unfold activateNavParticle
  split
  · rfl
  · split
    · rfl
    · exact (monitorCalls_setTimeout_of_ne (by simp) _ _).trans (monitorCalls_congr rfl)

theorem monitorCalls_activateParticles (ds : Nat → ParticleDraws) (s : State) :
    monitorCalls (activateParticles ds s) = monitorCalls s := by
  unfold activateParticles
  split
  · rfl
  · exact monitorCalls_foldl _ (fun st i => monitorCalls_activateParticle (ds i) st) _ s

theorem monitorCalls_activateNavParticles (ds : Nat → NavDraws) (s : State) :
    monitorCalls (activateNavParticles ds s) = monitorCalls s := by
  unfold activateNavParticles
  split
  · rfl
  · exact monitorCalls_foldl _ (fun st i => monitorCalls_activateNavParticle (ds i) st) _ s

theorem monitorCalls_fireInterval (i : Nat) (ds : Nat → ParticleDraws) (nds : Nat → NavDraws)
    (s : State) : monitorCalls (fireInterval i ds nds s) = monitorCalls s := by
  unfold fireInterval
  split
  · rfl
  · split
    · exact monitorCalls_activateParticles ds s
    · exact monitorCalls_activateNavParticles nds s

theorem monitorCalls_particleFade (p : Token) (s : State) :
    monitorCalls (particleFade p s) = monitorCalls s := by
  unfold particleFade
  split
  · rfl
  · exact (monitorCalls_setTimeout_of_ne (by simp) _ _).trans (monitorCalls_congr rfl)

theorem monitorCalls_navParticleFade (p : Token) (s : State) :
    monitorCalls (navParticleFade p s) = monitorCalls s := by
  unfold navParticleFade
  split
  · rfl
  · exact (monitorCalls_setTimeout_of_ne (by simp) _ _).trans (monitorCalls_congr rfl)

theorem monitorCalls_particleRecycle (p : Token) (s : State) :
    monitorCalls (particleRecycle p s) = monitorCalls s := by
  unfold particleRecycle
  split <;> rfl

theorem monitorCalls_navParticleRecycle (p : Token) (s : State) :
    monitorCalls (navParticleRecycle p s) = monitorCalls s := by
  unfold navParticleRecycle
  split <;> rfl

theorem monitorCalls_monitorPerformance (s : State) :
    monitorCalls (monitorPerformance s) = monitorCalls s := by
  unfold monitorPerformance
  split
  · rfl
  · exact monitorCalls_setTimeout_of_ne (by simp) _ _

theorem timers_forceCleanupParticle (s : State) (p : Token) :
    (forceCleanupParticle s p).timers = s.timers ∧
      (forceCleanupParticle s p).nextHandle = s.nextHandle := by
  unfold forceCleanupParticle
  split <;> exact ⟨rfl, rfl⟩

theorem timers_forceCleanupNavParticle (s : State) (p : Token) :
    (forceCleanupNavParticle s p).timers = s.timers ∧
      (forceCleanupNavParticle s p).nextHandle = s.nextHandle := by
  unfold forceCleanupNavParticle
  split <;> exact ⟨rfl, rfl⟩

theorem timers_foldl {α : Type} (f : State → α → State)
    (hf : ∀ s a, (f s a).timers = s.timers ∧ (f s a).nextHandle = s.nextHandle)
    (l : List α) (s : State) :
    (l.foldl f s).timers = s.timers ∧ (l.foldl f s).nextHandle = s.nextHandle := by
  induction l generalizing s with
  | nil => exact ⟨rfl, rfl⟩
  | cons a l ih =>
    exact ⟨(ih (f s a)).1.trans (hf s a).1, (ih (f s a)).2.trans (hf s a).2⟩

theorem timers_forceCleanup (s : State) :
    (forceCleanup s).timers = s.timers ∧ (forceCleanup s).nextHandle = s.nextHandle := by
  unfold forceCleanup
  have h1 := timers_foldl _ timers_forceCleanupParticle (s.activeParticles.take 5) s
  have h2 := timers_foldl _ timers_forceCleanupNavParticle
    ((List.foldl forceCleanupParticle s (s.activeParticles.take 5)).activeNavParticles.take 3)
    (List.foldl forceCleanupParticle s (s.activeParticles.take 5))
  exact ⟨h2.1.trans h1.1, h2.2.trans h1.2⟩

/-- A monitor cycle of a live instance with its monitor record in place appends exactly one
timeout: its own successor, 5000 ms later. -/
theorem timers_monitorMemory_of_live {s : State} {m : MemoryMonitor}
    (hd : s.isDestroyed = false) (hm : s.memoryMonitor = some m) :
    (monitorMemory s).timers = s.timers ++ [⟨s.nextHandle, 5000, Callback.monitorMemory⟩] := by
  have hset : ∀ t : State, t.timers = s.timers ∧ t.nextHandle = s.nextHandle →
      (setTimeout Callback.monitorMemory 5000 t).timers =
        s.timers ++ [⟨s.nextHandle, 5000, Callback.monitorMemory⟩] := by
    intro t ht
    simp [setTimeout, ht.1, ht.2]
  unfold monitorMemory
  simp only [hd, hm, Bool.false_eq_true, if_false]
  apply hset
  split
  · split
    · exact timers_forceCleanup _
    · exact ⟨rfl, rfl⟩
  · exact ⟨rfl, rfl⟩

theorem monitorCalls_monitorMemory_of_live {s : State} {m : MemoryMonitor}
    (hd : s.isDestroyed = false) (hm : s.memoryMonitor = some m) :
    monitorCalls (monitorMemory s) = monitorCalls s + 1 := by
  unfold monitorCalls
  rw [timers_monitorMemory_of_live hd hm]
  simp [Timer.isMonitorMemory, List.countP_append]

theorem monitorCalls_monitorMemory_le (s : State) :
    monitorCalls (monitorMemory s) ≤ monitorCalls s + 1 := by
  cases hd : s.isDestroyed with
  | true => rw [monitorMemory_of_isDestroyed hd]; omega
  | false =>
    cases hm : s.memoryMonitor with
    | none =>
      have : monitorMemory s = s := by simp [monitorMemory, hd, hm]
      rw [this]; omega
    | some m => rw [monitorCalls_monitorMemory_of_live hd hm]

theorem monitorCalls_runCallback {cb : Callback} (h : cb ≠ Callback.monitorMemory)
    (s : State) : monitorCalls (runCallback cb s) = monitorCalls s := by
  cases cb with
  | particleFade p => exact monitorCalls_particleFade p s
  | particleRecycle p => exact monitorCalls_particleRecycle p s
  | navParticleFade p => exact monitorCalls_navParticleFade p s
  | navParticleRecycle p => exact monitorCalls_navParticleRecycle p s
  | monitorMemory => exact absurd rfl h
  | monitorPerformance => exact monitorCalls_monitorPerformance s

theorem countP_eraseIdx {α : Type} (p : α → Bool) {l : List α} {i : Nat} {a : α}
    (h : l.get? i = some a) :
    l.countP p = (l.eraseIdx i).countP p + (if p a then 1 else 0) := by
  induction l generalizing i with
  | nil => simp at h
  | cons b l ih =>
    cases i with
    | zero =>
      simp only [List.get?_cons_zero, Option.some.injEq] at h
      subst h
      simp [List.countP_cons]
    | succ i =>
      simp only [List.get?_cons_succ] at h
      simp only [List.eraseIdx_cons_succ, List.countP_cons, ih h]
      omega

theorem monitorCalls_eraseIdx {s : State} {i : Nat} {tm : Timer}
    (h : s.timers.get? i = some tm) :
    monitorCalls s =
      monitorCalls { s with timers := s.timers.eraseIdx i } +
        (if tm.isMonitorMemory then 1 else 0) :=
  countP_eraseIdx Timer.isMonitorMemory h

theorem monitorCalls_fireTimer_le (i : Nat) (s : State) :
    monitorCalls (fireTimer i s) ≤ monitorCalls s := by
  unfold fireTimer
  split
  · exact le_refl _
  · rename_i tm hget
    have he := monitorCalls_eraseIdx hget
    by_cases hcb : tm.callback = Callback.monitorMemory
    · have hp : tm.isMonitorMemory = true := decide_eq_true hcb
      rw [hp, if_pos rfl] at he
      rw [hcb]
      have := monitorCalls_monitorMemory_le { s with timers := s.timers.eraseIdx i }
      simp only [runCallback]
      omega
    · rw [monitorCalls_runCallback hcb]
      omega

theorem monitorCalls_destroy_le (s : State) : monitorCalls (destroy s) ≤ monitorCalls s :=
  (pools_destroy s).2.2.2.2.countP_le _

theorem monitorCalls_apply_le (o : Op) (s : State) :
    monitorCalls (o.apply s) ≤ monitorCalls s := by
  cases o with
  | activateParticle d => exact le_of_eq (monitorCalls_activateParticle d s)
  | activateNavParticle d => exact le_of_eq (monitorCalls_activateNavParticle d s)
  | particleTick ds => exact le_of_eq (monitorCalls_activateParticles ds s)
  | navParticleTick ds => exact le_of_eq (monitorCalls_activateNavParticles ds s)
  | fireInterval i ds nds => exact le_of_eq (monitorCalls_fireInterval i ds nds s)
  | fireTimer i => exact monitorCalls_fireTimer_le i s
  | visibilitychange b => exact le_refl _
  | advanceClock dt => exact le_refl _
  | forceCleanup => exact le_of_eq (monitorCalls_congr (timers_forceCleanup s).1)
  | destroy => exact monitorCalls_destroy_le s

theorem monitorCalls_run_le (ops : List Op) (s : State) :
    monitorCalls (run ops s) ≤ monitorCalls s := by
  induction ops generalizing s with
  | nil => exact le_refl _
  | cons o ops ih =>
    simp only [BoroTech.run, List.foldl_cons]
    exact (ih (o.apply s)).trans (monitorCalls_apply_le o s)

theorem firesMonitorMemory_of_monitorCalls {s : State} (h : monitorCalls s = 0) (o : Op) :
    o.firesMonitorMemory s = false := by
  cases o with
  | fireTimer i =>
    rw [firesMonitorMemory_fireTimer]
    cases hget : s.timers.get? i with
    | none => rfl
    | some tm =>
      have he := monitorCalls_eraseIdx hget
      have hp : tm.isMonitorMemory = false := by
        cases hq : tm.isMonitorMemory with
        | false => rfl
        | true =>
          rw [hq, if_pos rfl] at he
          omega
      exact hp
  | _ => rfl

theorem checkTimes_of_monitorCalls {s : State} (h : monitorCalls s = 0) (ops : List Op) :
    checkTimes (ops.map Event.op) s = [] := by
  induction ops generalizing s with
  | nil => rfl
  | cons o ops ih =>
    have h1 : monitorCalls (o.apply s) = 0 := by
      have := monitorCalls_apply_le o s
      omega
    simp only [List.map_cons, checkTimes, Event.checkTime, Event.apply,
      firesMonitorMemory_of_monitorCalls h o, Bool.false_and, Bool.false_eq_true, if_false,
      Option.toList, List.nil_append]
    exact ih h1

/-- The firing of a pending `monitorMemory` timeout on a destroyed instance only takes the
timeout out of the queue: one monitor call less is pending. -/
theorem monitorCalls_fireTimer_of_isDestroyed {s : State} {i : Nat}
    (hf : (Op.fireTimer i).firesMonitorMemory s = true) (hd : s.isDestroyed = true) :
    monitorCalls (fireTimer i s) + 1 = monitorCalls s := by
  rw [fireTimer_of_isDestroyed hd]
  rw [firesMonitorMemory_fireTimer] at hf
  cases hget : s.timers.get? i with
  | none => rw [hget] at hf; exact absurd hf (by simp)
  | some tm =>
    rw [hget] at hf
    have he := monitorCalls_eraseIdx hget
    have hp : tm.isMonitorMemory = true := hf
    rw [hp, if_pos rfl] at he
    exact he.symm

/-! ## One monitor loop per instance -/

theorem monitorCalls_initParticleSystem (doc : Document) (ds : Nat → ParticleDraws)
    (s : State) : monitorCalls (initParticleSystem doc ds s) = monitorCalls s := by
  unfold initParticleSystem
  split
  · rfl
  · have h1 : monitorCalls (initParticleSystemPool s) = monitorCalls s := by
      apply monitorCalls_congr
      unfold initParticleSystemPool
      exact (iterate_createParticlePool 15 _).2.2.2.1
    have h2 : ∀ t : State, monitorCalls (startParticleAnimation ds t) = monitorCalls t := by
      intro t
      unfold startParticleAnimation
      split
      · rfl
      · exact (monitorCalls_congr rfl).trans (monitorCalls_activateParticles ds t)
    exact (h2 _).trans h1

theorem monitorCalls_createNavigationParticles (doc : Document) (ds : Nat → NavDraws)
    (s : State) : monitorCalls (createNavigationParticles doc ds s) = monitorCalls s := by
  unfold createNavigationParticles
  split
  · rfl
  · have h1 : monitorCalls (createNavigationParticlesPool s) = monitorCalls s := by
      apply monitorCalls_congr
      unfold createNavigationParticlesPool
      exact (iterate_createNavParticlePool 8 _).2.2.2.1
    have h2 : ∀ t : State, monitorCalls (startNavParticleAnimation ds t) = monitorCalls t := by
      intro t
      unfold startNavParticleAnimation
      split
      · rfl
      · exact (monitorCalls_congr rfl).trans (monitorCalls_activateNavParticles ds t)
    exact (h2 _).trans h1

theorem monitorCalls_construct (doc : Document) (ds : Nat → ParticleDraws)
    (nds : Nat → NavDraws) (now : ℤ) : monitorCalls (construct doc ds nds now) ≤ 1 := by
  have h0 : monitorCalls (initializeDOMCache doc (constructorFields now)) = 0 := rfl
  unfold construct init
  generalize initializeDOMCache doc (constructorFields now) = s0 at h0 ⊢
  rw [monitorCalls_createNavigationParticles, monitorCalls_monitorPerformance]
  have h1 := monitorCalls_monitorMemory_le (initParticleSystem doc ds s0)
  rw [monitorCalls_initParticleSystem, h0] at h1
  exact h1

theorem monitorCalls_freshPools (now : ℤ) : monitorCalls (freshPools now) = 0 := by
  unfold freshPools
  have h1 : (createNavigationParticlesPool (initParticleSystemPool (constructorFields now))).timers
      = (initParticleSystemPool (constructorFields now)).timers := by
    unfold createNavigationParticlesPool
    exact (iterate_createNavParticlePool 8 _).2.2.2.1
  have h2 : (initParticleSystemPool (constructorFields now)).timers =
      (constructorFields now).timers := by
    unfold initParticleSystemPool
    exact (iterate_createParticlePool 15 _).2.2.2.1
  rw [monitorCalls_congr h1, monitorCalls_congr h2]
  rfl

theorem Constructed.constructed_monitorCalls {s : State} (h : Constructed s) :
    monitorCalls s ≤ 1 := by
  rcases h with ⟨now, rfl⟩ | ⟨doc, ds, nds, now, rfl⟩
  · rw [monitorCalls_freshPools]; omega
  · exact monitorCalls_construct doc ds nds now

/-- C24. Monitor loop stops when destroyed: for every state, a call of monitorMemory with
isDestroyed true returns the state as it was (no field changes, no successor is scheduled),
while a call with isDestroyed false and the monitor record in place (the call does not
raise) appends exactly one timeout to the queue, its own successor with delay 5000 ms.
Hence, on an instance left by construction, once the firing of a pending monitorMemory
timeout finds isDestroyed true, it only leaves the queue, no monitorMemory call is pending
after it or after any later sequence of operations (resume signals included), no later
operation fires a monitorMemory call, and the check body never runs again. -/
theorem monitor_loop_stops (s : State) (m : MemoryMonitor) (s0 : State)
    (before after : List Op) (i : Nat) :
    (s.isDestroyed = true → monitorMemory s = s) ∧
      (s.isDestroyed = false → s.memoryMonitor = some m →
        (monitorMemory s).timers =
            s.timers ++ [⟨s.nextHandle, 5000, Callback.monitorMemory⟩] ∧
          monitorCalls (monitorMemory s) = monitorCalls s + 1) ∧
      (Constructed s0 → (Op.fireTimer i).firesMonitorMemory (run before s0) = true →
        (run before s0).isDestroyed = true →
          fireTimer i (run before s0) =
              { run before s0 with timers := (run before s0).timers.eraseIdx i } ∧
            monitorCalls (run after (fireTimer i (run before s0))) = 0 ∧
            (∀ o : Op, o.firesMonitorMemory (run after (fireTimer i (run before s0))) = false) ∧
            checkTimes (after.map Event.op) (fireTimer i (run before s0)) = []) := by
  refine ⟨fun h => monitorMemory_of_isDestroyed h,
    fun hd hm => ⟨timers_monitorMemory_of_live hd hm, monitorCalls_monitorMemory_of_live hd hm⟩,
    ?_⟩
  intro hs0 hf hd
  have h1 := monitorCalls_fireTimer_of_isDestroyed hf hd
  have h2 := (monitorCalls_run_le before s0).trans hs0.constructed_monitorCalls
  have h3 : monitorCalls (fireTimer i (run before s0)) = 0 := by omega
  have h4 : monitorCalls (run after (fireTimer i (run before s0))) = 0 := by
    have := monitorCalls_run_le after (fireTimer i (run before s0))
    omega
  exact ⟨fireTimer_of_isDestroyed hd i, h4,
    fun o => firesMonitorMemory_of_monitorCalls h4 o, checkTimes_of_monitorCalls h3 after⟩

theorem monitor_loop_stops_witness :
    ((visibilitychange true sampleState).isDestroyed = true ∧
        monitorMemory (visibilitychange true sampleState) =
          visibilitychange true sampleState) ∧
      (sampleState.isDestroyed = false ∧
        sampleState.memoryMonitor = some ⟨0, 0, 0⟩ ∧
        (monitorMemory sampleState).timers =
          sampleState.timers ++ [⟨sampleState.nextHandle, 5000, Callback.monitorMemory⟩]) ∧
      (Constructed sampleState ∧
        (Op.fireTimer 3).firesMonitorMemory
          (run [Op.visibilitychange true] sampleState) = true ∧
        (run [Op.visibilitychange true] sampleState).isDestroyed = true ∧
        checkTimes
          ([Op.visibilitychange false, Op.advanceClock 40000, Op.fireTimer 3].map Event.op)
          (fireTimer 3 (run [Op.visibilitychange true] sampleState)) = []) :=
  ⟨⟨rfl, (monitor_loop_stops (visibilitychange true sampleState) ⟨0, 0, 0⟩ sampleState [] []
      0).1 rfl⟩,
    ⟨by decide, by decide,
      ((monitor_loop_stops sampleState ⟨0, 0, 0⟩ sampleState [] [] 0).2.1
        (by decide) (by decide)).1⟩,
    ⟨Or.inr ⟨samplePage, fun _ => sampleDraws, fun _ => sampleNavDraws, 0, rfl⟩,
      by decide, by decide,
      ((monitor_loop_stops sampleState ⟨0, 0, 0⟩ sampleState [Op.visibilitychange true]
        [Op.visibilitychange false, Op.advanceClock 40000, Op.fireTimer 3] 3).2.2
        (Or.inr ⟨samplePage, fun _ => sampleDraws, fun _ => sampleNavDraws, 0, rfl⟩)
        (by decide) (by decide)).2.2.2⟩⟩



end BoroTech
